import Mathlib

/-!
Application registry and application lifecycle entity of the desktop shell.

A shallow embedding of `src/shell-app.c` and `src/shell-app-system.c`.

* Objects live on heaps: a `ShellApp *` is an address (`AppPtr`) into `World.apps`,
  a `MetaWindow *` is an address into `World.windows`.  Pointer comparison in the C
  code (`g_slist_find`, direct hash tables) is comparison of addresses.
* A `GHashTable` is an association list with unique keys; a `GSList` is a `List`.
* `guint` counters are naturals reduced modulo `2 ^ 32`; an `int` is an integer, and
  conversions from unsigned values and signed overflow wrap around (two's complement).
* A failed `g_assert` (or a dereference of `NULL`) aborts the process: the operation
  returns `none`.  A failed `g_return_if_fail` logs a critical message and returns.
* Signals, property notifications, telemetry calls and window-manager commands are
  appended to `World.log` (newest entry first).
* Strings are sequences of characters; the ASCII operations of GLib used here act
  on single ASCII bytes, which coincide with single characters.
* What a function asks of the window manager's display beyond the window data (time
  of the last user interaction, transients, stacking) is passed to it as a
  `MetaDisplay`; the result of an asynchronous call is an argument of its completion
  callback.
-/

namespace Eos

/-! ## Data model -/

/-- Address of a `ShellApp` object. -/
abbrev AppPtr := Nat

/-- Address of a `MetaWindow` object. -/
abbrev MetaWindow := Nat

/-- Width of `guint`. -/
def G_MAXUINT_SUCC : Nat := 2 ^ 32

/-- The `ShellAppState` enumeration. -/
inductive ShellAppState
  | SHELL_APP_STATE_STOPPED
  | SHELL_APP_STATE_STARTING
  | SHELL_APP_STATE_RUNNING
  deriving DecidableEq, Repr

open ShellAppState

/-- An installed application descriptor (a desktop file known to GIO).  Descriptors
obtained from the application database always carry their desktop id. -/
structure GDesktopAppInfo where
  desktop_id : String
  name : String
  startup_wm_class : Option String
  deriving DecidableEq, Repr

/-- What the window manager knows about one window (read through the `meta_window_*`
getters). -/
structure MetaWindowData where
  stable_sequence : Nat
  skip_taskbar : Bool
  role : Option String
  user_relevant : Bool
  user_time : Nat
  workspace : Nat
  showing_on_its_workspace : Bool
  wm_class : Option String
  gtk_unique_bus_name : Option String
  gtk_application_object_path : Option String
  gtk_app_menu_object_path : Option String
  deriving DecidableEq, Repr

/-- A startup-notification sequence (`SnStartupSequence`). -/
structure SnStartupSequence where
  completed : Bool
  timestamp : Nat
  workspace : Int
  deriving DecidableEq, Repr

/-- The struct `ShellAppRunningState`.  The fields `workspace_switch_id`, `muxer` and
`session` are set once by `create_running_state` and never tested afterwards; they
are not represented.  `remote_menu` records the bus name and object path the menu
model was obtained for; `cancellable` says whether a cancellable is stored. -/
structure ShellAppRunningState where
  refcount : Nat
  windows : List MetaWindow
  interesting_windows : Nat
  window_sort_stale : Bool
  remote_menu : Option (String × String)
  unique_bus_name : Option String
  application_proxy : Option Nat
  cancellable : Bool
  deriving DecidableEq, Repr

/-- The struct `_ShellApp`. -/
structure ShellApp where
  started_on_workspace : Int
  state : ShellAppState
  info : Option GDesktopAppInfo
  running_state : Option ShellAppRunningState
  window_id_string : Option String
  name_collation_key : Option String
  deriving DecidableEq, Repr

/-- A `GHashTable`: an association list whose keys are pairwise different. -/
abbrev GHashTable (K V : Type) := List (K × V)

/-- The struct `_ShellAppSystemPrivate`.  The two membership sets are hash tables
keyed by the application's address with a `NULL` value. -/
structure ShellAppSystemPrivate where
  running_apps : GHashTable AppPtr Unit
  starting_apps : GHashTable AppPtr Unit
  id_to_app : GHashTable String AppPtr
  startup_wm_class_to_id : GHashTable String String
  deriving DecidableEq, Repr

/-- Observable effects, in the order of the calls that produce them. -/
inductive Event
  | g_critical (func : String)
  | app_state_changed (app : AppPtr)
  | installed_changed
  | g_object_notify (app : AppPtr) (property : String)
  | windows_changed (app : AppPtr)
  | record_start (app : AppPtr) (app_info_id : String)
  | record_stop (app : AppPtr)
  | focus_the_no_focus_window (timestamp : Nat)
  | meta_window_activate (window : MetaWindow) (timestamp : Nat)
  | proxy_new (app : AppPtr) (bus_name : String) (object_path : String)
  | g_cancellable_cancel
  | launch_uris_as_manager (app : AppPtr) (timestamp : Nat) (workspace : Int)
  | meta_window_raise (window : MetaWindow)
  | meta_window_set_demands_attention (window : MetaWindow)
  | meta_workspace_activate_with_focus (workspace : Nat) (window : MetaWindow) (timestamp : Nat)
  | meta_window_delete (window : MetaWindow) (timestamp : Nat)
  deriving DecidableEq, Repr

/-- The state of the shell process as far as the two components are concerned. -/
structure World where
  /-- heap of `ShellApp` objects -/
  apps : AppPtr → ShellApp
  /-- next address handed out by `g_object_new (SHELL_TYPE_APP)` -/
  next_app : AppPtr
  /-- the singleton returned by `shell_app_system_get_default` -/
  system : ShellAppSystemPrivate
  /-- installed descriptors, in the order of `g_app_info_get_all` -/
  desktop_files : List GDesktopAppInfo
  /-- window-manager data of every window -/
  windows : MetaWindow → MetaWindowData
  /-- index of the active workspace -/
  active_workspace : Nat
  /-- current event time of the display -/
  current_time : Nat
  /-- locale collation (`g_utf8_collate_key`) -/
  collate_key : String → String
  /-- emitted events, newest first -/
  log : List Event

/-! ## GLib containers -/

section GLib
variable {K V : Type} [DecidableEq K]

/-- Value stored under `key`, if any (`g_hash_table_lookup`). -/
def g_hash_table_lookup (t : GHashTable K V) (key : K) : Option V :=
  match t with
  | [] => none
  | (k, v) :: rest => if k = key then some v else g_hash_table_lookup rest key

/-- Table without `key`, and whether the key was found (`g_hash_table_remove`). -/
def g_hash_table_remove (t : GHashTable K V) (key : K) : GHashTable K V × Bool :=
  (t.filter (fun e => decide (e.1 ≠ key)), t.any (fun e => decide (e.1 = key)))

/-- Table in which `key` maps to `value`; an existing entry for `key` is replaced
(`g_hash_table_insert`). -/
def g_hash_table_insert (t : GHashTable K V) (key : K) (value : V) : GHashTable K V :=
  (key, value) :: (g_hash_table_remove t key).1

/-- Entries the predicate does not select (`g_hash_table_foreach_remove`). -/
def g_hash_table_foreach_remove (t : GHashTable K V) (func : K → V → Bool) : GHashTable K V :=
  t.filter (fun e => !func e.1 e.2)

/-- Whether `data` occurs in the list (`g_slist_find` compared against `NULL`). -/
def g_slist_find (list : List K) (data : K) : Bool :=
  decide (data ∈ list)

/-- List without the first occurrence of `data` (`g_slist_remove`). -/
def g_slist_remove (list : List K) (data : K) : List K :=
  list.erase data

end GLib

/-- Pre-decrement of a `guint`. -/
def guint_dec (n : Nat) : Nat := (n + G_MAXUINT_SUCC - 1) % G_MAXUINT_SUCC

/-- Pre-increment of a `guint`. -/
def guint_inc (n : Nat) : Nat := (n + 1) % G_MAXUINT_SUCC

/-! ## World helpers -/

/-- Record an event. -/
def World.emit (s : World) (e : Event) : World :=
  { s with log := e :: s.log }

/-- Store `a` at address `app`. -/
def World.set_app (s : World) (app : AppPtr) (a : ShellApp) : World :=
  { s with apps := Function.update s.apps app a }

/-- Store `rs` as the running state of `app`. -/
def World.set_running_state (s : World) (app : AppPtr) (rs : Option ShellAppRunningState) : World :=
  s.set_app app { s.apps app with running_state := rs }

/-- An object as `g_object_new (SHELL_TYPE_APP)` leaves it: zero-filled, then
`shell_app_init` sets the state. -/
def shell_app_init : ShellApp :=
  { started_on_workspace := 0
    state := SHELL_APP_STATE_STOPPED
    info := none
    running_state := none
    window_id_string := none
    name_collation_key := none }

/-! ## The application registry: state-change bookkeeping (shell-app-system.c) -/

/-- Body of `_shell_app_system_notify_app_state_changed`: telemetry, membership sets,
then the registry-level signal. -/
def _shell_app_system_notify_app_state_changed (s : World) (app : AppPtr) : World :=
  let state := (s.apps app).state
  let app_info_id : Option String := (s.apps app).info.map (fun i => i.desktop_id)
  let s1 : World :=
    match state with
    | SHELL_APP_STATE_RUNNING =>
      let s0 := match app_info_id with
        | some id => s.emit (Event.record_start app id)
        | none => s
      { s0 with system :=
          { s0.system with
            running_apps := g_hash_table_insert s0.system.running_apps app ()
            starting_apps := (g_hash_table_remove s0.system.starting_apps app).1 } }
    | SHELL_APP_STATE_STARTING =>
      { s with system :=
          { s.system with
            starting_apps := g_hash_table_insert s.system.starting_apps app () } }
    | SHELL_APP_STATE_STOPPED =>
      let removed := g_hash_table_remove s.system.running_apps app
      let s0 : World :=
        { s with system :=
            { s.system with
              starting_apps := (g_hash_table_remove s.system.starting_apps app).1
              running_apps := removed.1 } }
      if removed.2 && app_info_id.isSome then s0.emit (Event.record_stop app) else s0
  s1.emit (Event.app_state_changed app)

/-! ## The application entity (shell-app.c) -/

/-- The function `shell_app_get_state`. -/
def shell_app_get_state (s : World) (app : AppPtr) : ShellAppState :=
  (s.apps app).state

/-- The function `shell_app_state_transition`: a request for the current state
returns at once, the request Running to Starting fails the `g_return_if_fail`
guard, every other request stores the state, notifies the registry and notifies
the "state" property. -/
def shell_app_state_transition (s : World) (app : AppPtr) (state : ShellAppState) : World :=
  if (s.apps app).state = state then s
  else if (s.apps app).state = SHELL_APP_STATE_RUNNING ∧ state = SHELL_APP_STATE_STARTING then
    s.emit (Event.g_critical "shell_app_state_transition")
  else
    let s1 := s.set_app app { s.apps app with state := state }
    let s2 := _shell_app_system_notify_app_state_changed s1 app
    s2.emit (Event.g_object_notify app "state")

/-- The function `shell_app_sync_running_state`. -/
def shell_app_sync_running_state (s : World) (app : AppPtr) : World :=
  match (s.apps app).running_state with
  | none => s.emit (Event.g_critical "shell_app_sync_running_state")
  | some rs =>
    if rs.interesting_windows = 0 then
      if (s.apps app).state ≠ SHELL_APP_STATE_STARTING then
        shell_app_state_transition s app SHELL_APP_STATE_STOPPED
      else s
    else
      shell_app_state_transition s app SHELL_APP_STATE_RUNNING

/-- The function `shell_app_is_speedwagon_window`. -/
def shell_app_is_speedwagon_window (s : World) (window : MetaWindow) : Bool :=
  decide ((s.windows window).role = some "eos-speedwagon")

/-- Modelled from the spec: `shell_window_tracker_is_window_interesting` is defined in
shell-window-tracker.c, which is not among the sources.  Per the spec a window is not
interesting when it is flagged skip-taskbar or when it fails the window tracker's
user-relevance predicate. -/
def shell_window_tracker_is_window_interesting (s : World) (window : MetaWindow) : Bool :=
  !(s.windows window).skip_taskbar && (s.windows window).user_relevant

/-- The function `shell_app_is_interesting_window`. -/
def shell_app_is_interesting_window (s : World) (window : MetaWindow) : Bool :=
  if shell_app_is_speedwagon_window s window then false
  else shell_window_tracker_is_window_interesting s window

/-- A zero-filled running state (`g_slice_new0`) with `refcount` set to 1. -/
def new_running_state : ShellAppRunningState :=
  { refcount := 1
    windows := []
    interesting_windows := 0
    window_sort_stale := false
    remote_menu := none
    unique_bus_name := none
    application_proxy := none
    cancellable := false }

/-- The function `create_running_state`; the session bus is taken to be reachable, so
the assertion on `session` holds. -/
def create_running_state (s : World) (app : AppPtr) : Option World :=
  match (s.apps app).running_state with
  | some _ => none
  | none =>
    some (s.set_running_state app (some new_running_state))

/-- The function `shell_app_update_app_menu`. -/
def shell_app_update_app_menu (s : World) (app : AppPtr) (window : MetaWindow) : Option World :=
  match (s.apps app).running_state with
  | none => none
  | some rs =>
    let unique_bus_name := (s.windows window).gtk_unique_bus_name
    if rs.remote_menu = none ∨ rs.unique_bus_name ≠ unique_bus_name then
      match (s.windows window).gtk_application_object_path,
            (s.windows window).gtk_app_menu_object_path, unique_bus_name with
      | some _, some app_menu_object_path, some bus =>
        some (s.set_running_state app (some
          { rs with unique_bus_name := some bus
                    remote_menu := some (bus, app_menu_object_path) }))
      | _, _, _ => some s
    else some s

/-- The function `shell_app_ensure_busy_watch`. -/
def shell_app_ensure_busy_watch (s : World) (app : AppPtr) : Option World :=
  match (s.apps app).running_state with
  | none => none
  | some running_state =>
    if running_state.application_proxy ≠ none ∨ running_state.cancellable then some s
    else
      match running_state.unique_bus_name with
      | none => some s
      | some bus =>
        match running_state.windows.head? with
        | none => none
        | some window =>
          match (s.windows window).gtk_application_object_path with
          | none => some s
          | some object_path =>
            some ((s.set_running_state app (some { running_state with cancellable := true })).emit
              (Event.proxy_new app bus object_path))

/-- The function `unref_running_state`. -/
def unref_running_state (s : World) (state : ShellAppRunningState) : Option World :=
  if state.refcount = 0 then none
  else if guint_dec state.refcount > 0 then some s
  else if state.cancellable then some (s.emit Event.g_cancellable_cancel)
  else some s

/-- The function `_shell_app_add_window`.  Signal connections to the window are not
represented: the handlers are the functions `_shell_app_remove_window` and
`shell_app_on_skip_taskbar_changed`, invoked by the window manager.  The property
notification freeze/thaw only delays notifications and is not represented. -/
def _shell_app_add_window (s : World) (app : AppPtr) (window : MetaWindow) : Option World :=
  if (match (s.apps app).running_state with
      | some rs => g_slist_find rs.windows window
      | none => false) then some s
  else do
    let s1 ← (if (s.apps app).running_state.isNone then create_running_state s app else some s)
    let rs1 ← (s1.apps app).running_state
    let s2 := s1.set_running_state app (some
      { rs1 with window_sort_stale := true, windows := window :: rs1.windows })
    let s3 ← shell_app_update_app_menu s2 app window
    let s4 ← shell_app_ensure_busy_watch s3 app
    let rs4 ← (s4.apps app).running_state
    let s5 :=
      if shell_app_is_interesting_window s4 window then
        s4.set_running_state app (some
          { rs4 with interesting_windows := guint_inc rs4.interesting_windows })
      else s4
    let s6 := shell_app_sync_running_state s5 app
    some (s6.emit (Event.windows_changed app))

/-- The function `_shell_app_remove_window`. -/
def _shell_app_remove_window (s : World) (app : AppPtr) (window : MetaWindow) : Option World :=
  match (s.apps app).running_state with
  | none => none
  | some rs =>
    if !g_slist_find rs.windows window then some s
    else do
      let rs1 := { rs with windows := g_slist_remove rs.windows window }
      let rs2 :=
        if shell_app_is_interesting_window s window then
          { rs1 with interesting_windows := guint_dec rs1.interesting_windows }
        else rs1
      let s2 := s.set_running_state app (some rs2)
      let s3 ←
        (if rs2.windows = [] then unref_running_state (s2.set_running_state app none) rs2
         else some s2)
      let s4 :=
        if (s3.apps app).state ≠ SHELL_APP_STATE_STARTING then
          if (s3.apps app).running_state.isNone then
            shell_app_state_transition s3 app SHELL_APP_STATE_STOPPED
          else shell_app_sync_running_state s3 app
        else s3
      some (s4.emit (Event.windows_changed app))

/-- The function `shell_app_on_skip_taskbar_changed`, the handler of the window's
skip-taskbar notification; the window data already carry the new hint. -/
def shell_app_on_skip_taskbar_changed (s : World) (app : AppPtr) (window : MetaWindow) :
    Option World :=
  match (s.apps app).running_state with
  | none => none
  | some rs =>
    let rs1 :=
      if (s.windows window).skip_taskbar then
        { rs with interesting_windows := guint_dec rs.interesting_windows }
      else
        { rs with interesting_windows := guint_inc rs.interesting_windows }
    some (shell_app_sync_running_state (s.set_running_state app (some rs1)) app)

/-- The function `_shell_app_handle_startup_sequence`. -/
def _shell_app_handle_startup_sequence (s : World) (app : AppPtr) (sequence : SnStartupSequence) :
    World :=
  let starting := !sequence.completed
  let s1 :=
    if starting && decide (shell_app_get_state s app = SHELL_APP_STATE_STOPPED) then
      let t1 := shell_app_state_transition s app SHELL_APP_STATE_STARTING
      let t2 := t1.emit (Event.focus_the_no_focus_window sequence.timestamp)
      t2.set_app app { t2.apps app with started_on_workspace := sequence.workspace }
    else s
  if !starting then
    if (match (s1.apps app).running_state with
        | some rs => !rs.windows.isEmpty
        | none => false) then
      shell_app_state_transition s1 app SHELL_APP_STATE_RUNNING
    else
      shell_app_state_transition s1 app SHELL_APP_STATE_STOPPED
  else s1

/-- The function `window_backed_app_get_window`. -/
def window_backed_app_get_window (s : World) (app : AppPtr) : Option MetaWindow :=
  match (s.apps app).info, (s.apps app).running_state with
  | none, some rs => rs.windows.head?
  | _, _ => none

/-- The function `shell_app_launch`.  `ret` is what the launch primitive
`g_desktop_app_info_launch_uris_as_manager` answers. -/
def shell_app_launch (s : World) (app : AppPtr) (timestamp : Nat) (workspace : Int) (ret : Bool) :
    Option (World × Bool) :=
  match (s.apps app).info with
  | none => do
    let window ← window_backed_app_get_window s app
    some (s.emit (Event.meta_window_activate window timestamp), true)
  | some _ =>
    let s1 :=
      if (s.apps app).state = SHELL_APP_STATE_STOPPED then
        shell_app_state_transition s app SHELL_APP_STATE_STARTING
      else s
    let timestamp1 := if timestamp = 0 then s1.current_time else timestamp
    let workspace1 : Int := if workspace < 0 then (s1.active_workspace : Int) else workspace
    some (s1.emit (Event.launch_uris_as_manager app timestamp1 workspace1), ret)



/-- One operation on an application, as named by the state machine. -/
inductive EntityOp
  | add_window (window : MetaWindow)
  | remove_window (window : MetaWindow)
  | skip_taskbar_changed (window : MetaWindow)
  | handle_startup_sequence (sequence : SnStartupSequence)
  | launch (timestamp : Nat) (workspace : Int) (ret : Bool)
  deriving DecidableEq, Repr

/-- Perform one operation on the application at `app`. -/
def EntityOp.apply (s : World) (app : AppPtr) : EntityOp → Option World
  | EntityOp.add_window window => _shell_app_add_window s app window
  | EntityOp.remove_window window => _shell_app_remove_window s app window
  | EntityOp.skip_taskbar_changed window => shell_app_on_skip_taskbar_changed s app window
  | EntityOp.handle_startup_sequence sequence =>
    some (_shell_app_handle_startup_sequence s app sequence)
  | EntityOp.launch timestamp workspace ret =>
    (shell_app_launch s app timestamp workspace ret).map (fun r => r.1)

/-! ## The application registry: lookups (shell-app-system.c) -/

/-- The GIO constructor `g_desktop_app_info_new`: the installed descriptor with this
desktop id, if there is one. -/
def g_desktop_app_info_new (s : World) (desktop_id : String) : Option GDesktopAppInfo :=
  s.desktop_files.find? (fun info => decide (info.desktop_id = desktop_id))

/-- The function `shell_app_get_id`. -/
def shell_app_get_id (s : World) (app : AppPtr) : Option String :=
  match (s.apps app).info with
  | some info => some info.desktop_id
  | none => (s.apps app).window_id_string

/-- The function `shell_app_get_name` for an application with a descriptor. -/
def shell_app_get_name (info : GDesktopAppInfo) : String :=
  info.name

/-- The function `_shell_app_set_app_info`. -/
def _shell_app_set_app_info (s : World) (app : AppPtr) (info : GDesktopAppInfo) : World :=
  s.set_app app
    { s.apps app with
      info := some info
      name_collation_key := some (s.collate_key (shell_app_get_name info)) }

/-- The function `_shell_app_new`: a new object at the next free address. -/
def _shell_app_new (s : World) (info : GDesktopAppInfo) : World × AppPtr :=
  let app := s.next_app
  let s1 : World :=
    { s with next_app := s.next_app + 1, apps := Function.update s.apps app shell_app_init }
  (_shell_app_set_app_info s1 app info, app)

/-- The function `shell_app_system_lookup_app`.  The result is the world after the
call and the application found (`none` for `NULL`); a `NULL` key handed to the string
hash table aborts. -/
def shell_app_system_lookup_app (s : World) (id : String) : Option (World × Option AppPtr) :=
  match g_hash_table_lookup s.system.id_to_app id with
  | some app => some (s, some app)
  | none =>
    match g_desktop_app_info_new s id with
    | none => some (s, none)
    | some info =>
      let r := _shell_app_new s info
      match shell_app_get_id r.1 r.2 with
      | none => none
      | some key =>
        some ({ r.1 with system :=
                  { r.1.system with
                    id_to_app := g_hash_table_insert r.1.system.id_to_app key r.2 } },
              some r.2)

/-- The table `vendor_prefixes`. -/
def vendor_prefixes : List String := ["gnome-", "fedora-", "mozilla-", "debian-"]

/-- The loop of `shell_app_system_lookup_heuristic_basename` over the remaining
vendor prefixes. -/
def lookup_vendor_prefixes (s : World) (name : String) :
    List String → Option (World × Option AppPtr)
  | [] => some (s, none)
  | pfx :: rest =>
    match shell_app_system_lookup_app s (pfx ++ name) with
    | none => none
    | some (s1, some result) => some (s1, some result)
    | some (s1, none) => lookup_vendor_prefixes s1 name rest

/-- The function `shell_app_system_lookup_heuristic_basename`. -/
def shell_app_system_lookup_heuristic_basename (s : World) (name : String) :
    Option (World × Option AppPtr) :=
  match shell_app_system_lookup_app s name with
  | none => none
  | some (s1, some result) => some (s1, some result)
  | some (s1, none) => lookup_vendor_prefixes s1 name vendor_prefixes

/-- The GLib function `g_ascii_tolower`. -/
def g_ascii_tolower (c : Char) : Char :=
  if 'A'.toNat ≤ c.toNat ∧ c.toNat ≤ 'Z'.toNat then Char.ofNat (c.toNat - 'A'.toNat + 'a'.toNat)
  else c

/-- The GLib function `g_ascii_strdown` applied to the whole string. -/
def g_ascii_strdown (str : String) : String :=
  String.mk (str.data.map g_ascii_tolower)

/-- The GLib function `g_strdelimit`: every character of `string` that occurs in
`delimiters` becomes `new_delimiter`. -/
def g_strdelimit (string : String) (delimiters : String) (new_delimiter : Char) : String :=
  String.mk (string.data.map (fun c => if c ∈ delimiters.data then new_delimiter else c))

/-- The function `canonicalize_and_sanitize_wmclass`. -/
def canonicalize_and_sanitize_wmclass (wmclass : String) : String :=
  let canonicalized := g_strdelimit (g_ascii_strdown wmclass) " " '-'
  if canonicalized = "gimp-2.8" then "gimp" else canonicalized

/-- The function `shell_app_system_lookup_desktop_wmclass`; `none` is a `NULL`
`wmclass`. -/
def shell_app_system_lookup_desktop_wmclass (s : World) (wmclass : Option String) :
    Option (World × Option AppPtr) :=
  match wmclass with
  | none => some (s, none)
  | some wmclass =>
    match shell_app_system_lookup_heuristic_basename s (wmclass ++ ".desktop") with
    | none => none
    | some (s1, some app) => some (s1, some app)
    | some (s1, none) =>
      let canonicalized := canonicalize_and_sanitize_wmclass wmclass
      shell_app_system_lookup_heuristic_basename s1 (canonicalized ++ ".desktop")

/-- The function `shell_app_system_lookup_startup_wmclass`; `none` is a `NULL`
`wmclass`. -/
def shell_app_system_lookup_startup_wmclass (s : World) (wmclass : Option String) :
    Option (World × Option AppPtr) :=
  match wmclass with
  | none => some (s, none)
  | some wmclass =>
    match g_hash_table_lookup s.system.startup_wm_class_to_id wmclass with
    | none => some (s, none)
    | some id => shell_app_system_lookup_app s id

/-! ## Machine integers and sorting -/

/-- Conversion of an unsigned 32-bit value to `int` (two's complement). -/
def gint_of_guint (n : Nat) : Int :=
  if n % G_MAXUINT_SUCC < 2 ^ 31 then ((n % G_MAXUINT_SUCC : Nat) : Int)
  else ((n % G_MAXUINT_SUCC : Nat) : Int) - (G_MAXUINT_SUCC : Int)

/-- Conversion of an `int` to unsigned 32 bits. -/
def guint_of_gint (z : Int) : Nat :=
  (z % (G_MAXUINT_SUCC : Int)).toNat

/-- An integer result brought back into the range of `int`; a signed overflow wraps
around (two's complement). -/
def gint_wrap (z : Int) : Int :=
  gint_of_guint (guint_of_gint z)

/-- Whether `key` is a key of the table (`g_hash_table_contains`). -/
def g_hash_table_contains {K V : Type} [DecidableEq K] (t : GHashTable K V) (key : K) : Bool :=
  t.any (fun e => decide (e.1 = key))

/-- The merge step of `g_slist_sort`: the head of the first list is taken while it
compares less than or equal to the head of the second.  `fuel` bounds the number of
steps; the sum of the two lengths is enough.  A comparison that aborts aborts the
sort. -/
def g_slist_sort_merge {α : Type} (compare_func : α → α → Option Int) :
    Nat → List α → List α → Option (List α)
  | 0, l1, l2 => some (l1 ++ l2)
  | _ + 1, [], l2 => some l2
  | _ + 1, l1, [] => some l1
  | fuel + 1, x :: xs, y :: ys =>
    match compare_func x y with
    | none => none
    | some cmp =>
      if cmp ≤ 0 then (g_slist_sort_merge compare_func fuel xs (y :: ys)).map (fun l => x :: l)
      else (g_slist_sort_merge compare_func fuel (x :: xs) ys).map (fun l => y :: l)

/-- The recursion of `g_slist_sort`: a list of at least two elements is cut after
its first `length / 2` elements, both parts are sorted and merged.  `fuel` bounds
the depth; the length of the list is enough. -/
def g_slist_sort_real {α : Type} (compare_func : α → α → Option Int) :
    Nat → List α → Option (List α)
  | _, [] => some []
  | _, [x] => some [x]
  | 0, list => some list
  | fuel + 1, list =>
    match g_slist_sort_real compare_func fuel (list.take (list.length / 2)),
          g_slist_sort_real compare_func fuel (list.drop (list.length / 2)) with
    | some l1, some l2 => g_slist_sort_merge compare_func (l1.length + l2.length) l1 l2
    | _, _ => none

/-- The GLib functions `g_slist_sort` and `g_slist_sort_with_data` (a merge sort). -/
def g_slist_sort {α : Type} (list : List α) (compare_func : α → α → Option Int) :
    Option (List α) :=
  g_slist_sort_real compare_func list.length list

/-! ## Comparators and sorted views (shell-app.c, shell-app-system.c) -/

/-- The function `shell_app_compare_windows`; `active_workspace` is the field of the
`CompareWindowsData` argument.  The difference of the two `guint32` times is
computed modulo `2 ^ 32` and returned as an `int`. -/
def shell_app_compare_windows (s : World) (active_workspace : Nat) (win_a win_b : MetaWindow) :
    Int :=
  let ws_a := decide ((s.windows win_a).workspace = active_workspace)
  let ws_b := decide ((s.windows win_b).workspace = active_workspace)
  if ws_a && !ws_b then -1
  else if !ws_a && ws_b then 1
  else
    let vis_a := (s.windows win_a).showing_on_its_workspace
    let vis_b := (s.windows win_b).showing_on_its_workspace
    if vis_a && !vis_b then -1
    else if !vis_a && vis_b then 1
    else
      gint_of_guint
        ((s.windows win_b).user_time + G_MAXUINT_SUCC
          - (s.windows win_a).user_time % G_MAXUINT_SUCC)

/-- The function `shell_app_get_windows`: the world after the call and the list
returned. -/
def shell_app_get_windows (s : World) (app : AppPtr) : World × List MetaWindow :=
  match (s.apps app).running_state with
  | none => (s, [])
  | some rs =>
    if rs.window_sort_stale then
      match g_slist_sort rs.windows
          (fun a b => some (shell_app_compare_windows s s.active_workspace a b)) with
      | some sorted =>
        (s.set_running_state app (some { rs with windows := sorted, window_sort_stale := false }),
          sorted)
      | none => (s, rs.windows)
    else (s, rs.windows)

/-- The function `shell_app_get_last_user_time`.  The running maximum is an `int`
that `MAX` compares with the `guint32` time of the window as unsigned values. -/
def shell_app_get_last_user_time (s : World) (app : AppPtr) : Int :=
  match (s.apps app).running_state with
  | none => 0
  | some rs =>
    rs.windows.foldl
      (fun last_user_time w =>
        gint_of_guint (max (guint_of_gint last_user_time) ((s.windows w).user_time)))
      0

/-- The function `shell_app_compare`; `none` when the running state of a Running
application is dereferenced and is `NULL`. -/
def shell_app_compare (s : World) (app other : AppPtr) : Option Int :=
  if (s.apps app).state ≠ (s.apps other).state then
    if (s.apps app).state = SHELL_APP_STATE_RUNNING then some (-1) else some 1
  else if (s.apps app).state = SHELL_APP_STATE_RUNNING then
    match (s.apps app).running_state, (s.apps other).running_state with
    | some rs_app, some rs_other =>
      if rs_app.windows ≠ [] ∧ rs_other.windows = [] then some (-1)
      else if rs_app.windows = [] ∧ rs_other.windows ≠ [] then some 1
      else
        some (gint_wrap
          (shell_app_get_last_user_time s other - shell_app_get_last_user_time s app))
    | _, _ => none
  else some 0

/-- The function `shell_app_system_get_running`: the keys of `running_apps`, each
prepended to the result in iteration order, then sorted. -/
def shell_app_system_get_running (s : World) : Option (List AppPtr) :=
  let ret := s.system.running_apps.foldl (fun ret e => e.1 :: ret) []
  g_slist_sort ret (shell_app_compare s)

/-- The function `shell_app_system_get_starting`. -/
def shell_app_system_get_starting (s : World) : Option (List AppPtr) :=
  let ret := s.system.starting_apps.foldl (fun ret e => e.1 :: ret) []
  g_slist_sort ret (shell_app_compare s)

/-! ## Install-change reconciliation (shell-app-system.c) -/

/-- One iteration of the loop of `scan_startup_wm_class_to_id`. -/
def scan_startup_wm_class_step (table : GHashTable String String) (info : GDesktopAppInfo) :
    GHashTable String String :=
  match info.startup_wm_class with
  | none => table
  | some startup_wm_class =>
    let old_id := g_hash_table_lookup table startup_wm_class
    if old_id = none ∨ info.desktop_id = startup_wm_class then
      g_hash_table_insert table startup_wm_class info.desktop_id
    else table

/-- The function `scan_startup_wm_class_to_id`: the index is emptied and filled again
from `g_app_info_get_all`. -/
def scan_startup_wm_class_to_id (s : World) : World :=
  { s with system :=
      { s.system with
        startup_wm_class_to_id := s.desktop_files.foldl scan_startup_wm_class_step [] } }

/-- The function `shell_app_is_window_backed`. -/
def shell_app_is_window_backed (s : World) (app : AppPtr) : Bool :=
  (s.apps app).info.isNone

/-- The function `app_is_stale`. -/
def app_is_stale (s : World) (app : AppPtr) : Bool :=
  if shell_app_is_window_backed s app then false
  else
    match shell_app_get_id s app with
    | some id => (g_desktop_app_info_new s id).isNone
    | none => true

/-- The handler `installed_changed` of the application database's "changed" signal. -/
def installed_changed (s : World) : World :=
  let s1 := scan_startup_wm_class_to_id s
  let s2 : World :=
    { s1 with system :=
        { s1.system with
          id_to_app :=
            g_hash_table_foreach_remove s1.system.id_to_app (fun _ app => app_is_stale s1 app) } }
  s2.emit Event.installed_changed

/-! ## Disposal (shell-app.c) -/

/-- Number of windows of an application, 0 without running state. -/
def window_count (a : ShellApp) : Nat :=
  match a.running_state with
  | none => 0
  | some rs => rs.windows.length

/-- The loop of `shell_app_dispose`: while there is running state, remove the first
window of the list.  `fuel` bounds the number of iterations; the number of windows
is enough, as every iteration removes one. -/
def shell_app_dispose_drain : Nat → World → AppPtr → Option World
  | fuel, s, app =>
    match (s.apps app).running_state with
    | none => some s
    | some rs =>
      match fuel with
      | 0 => none
      | fuel1 + 1 =>
        match rs.windows.head? with
        | none => none
        | some window =>
          match _shell_app_remove_window s app window with
          | none => none
          | some s1 => shell_app_dispose_drain fuel1 s1 app

/-- The function `shell_app_dispose` up to the call of the parent class: the
descriptor is dropped, the windows are drained, then the two assertions are
checked. -/
def shell_app_dispose (s : World) (app : AppPtr) : Option World :=
  let s1 := s.set_app app { s.apps app with info := none }
  match shell_app_dispose_drain (window_count (s1.apps app)) s1 app with
  | none => none
  | some s2 =>
    if (s2.apps app).state ≠ SHELL_APP_STATE_STOPPED then none
    else if (s2.apps app).running_state ≠ none then none
    else some s2

/-! ## Activation, quit request and busy-watch completion (shell-app.c) -/

/-- The window types `find_most_recent_transient_on_same_workspace` tells apart. -/
inductive MetaWindowType
  | META_WINDOW_NORMAL
  | META_WINDOW_DIALOG
  | META_WINDOW_MODAL_DIALOG
  | META_WINDOW_UTILITY
  | META_WINDOW_OTHER
  deriving DecidableEq, Repr

/-- What `shell_app_activate_window` asks of the display (the `MetaDisplay` reached
through `shell_global_get`): the time of the last user interaction, the current
server time, the order of X server times, the transients of a window in the order
`meta_window_foreach_transient` visits them, the stacking sort and the window
types. -/
structure MetaDisplay where
  last_user_time : Nat
  current_time_roundtrip : Nat
  xserver_time_is_before : Nat → Nat → Bool
  foreach_transient : MetaWindow → List MetaWindow
  sort_windows_by_stacking : List MetaWindow → List MetaWindow
  window_type : MetaWindow → MetaWindowType

/-- The function `find_most_recent_transient_on_same_workspace`; every window has a
workspace, so the test `data->workspace` of `collect_transients_on_workspace`
succeeds. -/
def find_most_recent_transient_on_same_workspace (s : World) (display : MetaDisplay)
    (reference : MetaWindow) : Option MetaWindow :=
  let workspace := (s.windows reference).workspace
  let transients := (display.foreach_transient reference).foldl
    (fun transients window =>
      if (s.windows window).workspace ≠ workspace then transients else window :: transients) []
  let transients_sorted := (display.sort_windows_by_stacking transients).reverse
  transients_sorted.find? (fun window =>
    decide (display.window_type window = MetaWindowType.META_WINDOW_NORMAL) ||
    decide (display.window_type window = MetaWindowType.META_WINDOW_DIALOG))

/-- The function `shell_app_activate_window`; `window` is `none` for `NULL`. -/
def shell_app_activate_window (s : World) (display : MetaDisplay) (app : AppPtr)
    (window : Option MetaWindow) (timestamp : Nat) : World :=
  if shell_app_get_state s app ≠ SHELL_APP_STATE_RUNNING then s
  else
    let s1 := (shell_app_get_windows s app).1
    let windows := (shell_app_get_windows s app).2
    let window1 : Option MetaWindow :=
      match window with
      | none => windows.head?
      | some w => some w
    match window1 with
    | none => s1
    | some w =>
      if !g_slist_find windows w then s1
      else
        let workspace := (s1.windows w).workspace
        let timestamp1 := if timestamp = 0 then display.current_time_roundtrip else timestamp
        if display.xserver_time_is_before timestamp1 display.last_user_time then
          s1.emit (Event.meta_window_set_demands_attention w)
        else
          let s2 := windows.reverse.foldl
            (fun acc other_window =>
              if other_window ≠ w ∧ (s1.windows other_window).workspace = workspace then
                acc.emit (Event.meta_window_raise other_window)
              else acc) s1
          let w1 :=
            match find_most_recent_transient_on_same_workspace s2 display w with
            | some most_recent_transient =>
              if display.xserver_time_is_before (s2.windows w).user_time
                  (s2.windows most_recent_transient).user_time then most_recent_transient
              else w
            | none => w
          if s2.active_workspace ≠ workspace then
            s2.emit (Event.meta_workspace_activate_with_focus workspace w1 timestamp1)
          else
            s2.emit (Event.meta_window_activate w1 timestamp1)

/-- The function `shell_app_request_quit`: the world after the call and the value
returned; `none` when the running state is dereferenced and is `NULL`. -/
def shell_app_request_quit (s : World) (app : AppPtr) : Option (World × Bool) :=
  if shell_app_get_state s app ≠ SHELL_APP_STATE_RUNNING then some (s, false)
  else
    match (s.apps app).running_state with
    | none => none
    | some rs =>
      some (rs.windows.foldl
        (fun acc win =>
          if !shell_window_tracker_is_window_interesting acc win then acc
          else acc.emit (Event.meta_window_delete win acc.current_time)) s, true)

/-- The completion callback `get_application_proxy` of the busy-watch request.
`proxy` is what `shell_org_gtk_application_proxy_new_finish` returns (`none` for
`NULL`: failure or cancellation), `busy` is what
`shell_org_gtk_application_get_busy` answers for the proxy.  The connection of
`busy_changed_cb` and the final `g_object_unref` are not represented. -/
def get_application_proxy (s : World) (app : AppPtr) (proxy : Option Nat) (busy : Bool) :
    Option World := do
  let s1 ←
    (match proxy with
     | some p =>
       match (s.apps app).running_state with
       | none => none
       | some rs =>
         let s0 := s.set_running_state app (some { rs with application_proxy := some p })
         some (if busy then s0.emit (Event.g_object_notify app "busy") else s0)
     | none => some s)
  match (s1.apps app).running_state with
  | some rs => some (s1.set_running_state app (some { rs with cancellable := false }))
  | none => some s1

/-! ## Concrete worlds -/

/-- A world with one installed descriptor, no application object in use and windows
that are all interesting except window 2 (which is flagged skip-taskbar). -/
def example_world : World :=
  { apps := fun _ => shell_app_init
    next_app := 0
    system :=
      { running_apps := [], starting_apps := [], id_to_app := [], startup_wm_class_to_id := [] }
    desktop_files := [{ desktop_id := "fedora-foo", name := "Foo", startup_wm_class := none }]
    windows := fun w =>
      { stable_sequence := w
        skip_taskbar := decide (w = 2)
        role := none
        user_relevant := true
        user_time := 0
        workspace := 0
        showing_on_its_workspace := true
        wm_class := none
        gtk_unique_bus_name := none
        gtk_application_object_path := none
        gtk_app_menu_object_path := none }
    active_workspace := 0
    current_time := 0
    collate_key := fun n => n
    log := [] }

/-- The example world with one application object in use, at address 0, in state
`state` and with window list `windows`. -/
def example_world_with (state : ShellAppState) (windows : List MetaWindow) : World :=
  { example_world with
    next_app := 1
    apps := Function.update example_world.apps 0
      { shell_app_init with
        state := state
        running_state :=
          if windows = [] then none
          else some { new_running_state with
                      windows := windows
                      interesting_windows :=
                        (windows.filter (fun w => decide (w ≠ 2))).length } } }

/-- The example world with a database of three desktop files and a startup-class
index that maps "Gimp" to "gimp.desktop". -/
def example_world_desktop : World :=
  { example_world with
    desktop_files :=
      [{ desktop_id := "gimp.desktop", name := "GIMP", startup_wm_class := some "Gimp" },
       { desktop_id := "fedora-eclipse.desktop", name := "Eclipse", startup_wm_class := none },
       { desktop_id := "org.example.Foo.desktop", name := "Foo", startup_wm_class := none }]
    system :=
      { example_world.system with startup_wm_class_to_id := [("Gimp", "gimp.desktop")] } }

/-- A Running application object whose running state holds `windows`, all of them
counted as interesting. -/
def example_running_app (windows : List MetaWindow) : ShellApp :=
  { shell_app_init with
    state := SHELL_APP_STATE_RUNNING
    running_state :=
      some { new_running_state with
             windows := windows
             interesting_windows := windows.length
             window_sort_stale := true } }

/-- The example world with three Running applications at addresses 0, 1 and 2, whose
single windows 11, 12 and 13 were last used at times 100000000, 1500000000 and
3000000000; all three are members of `running_apps`. -/
def example_world_three_running : World :=
  { example_world with
    next_app := 3
    apps := fun p =>
      if p = 0 then example_running_app [11]
      else if p = 1 then example_running_app [12]
      else if p = 2 then example_running_app [13]
      else shell_app_init
    system := { example_world.system with running_apps := [(0, ()), (1, ()), (2, ())] }
    windows := fun w =>
      { example_world.windows w with
        user_time :=
          if w = 11 then 100000000 else if w = 12 then 1500000000
          else if w = 13 then 3000000000 else 0 } }

/-- The example world with one Running application at address 0 whose windows 21 and
22, both showing on the active workspace, were last used at times 1000 and
3000000000. -/
def example_world_two_windows : World :=
  { example_world with
    next_app := 1
    apps := Function.update example_world.apps 0 (example_running_app [21, 22])
    system := { example_world.system with running_apps := [(0, ())] }
    windows := fun w =>
      { example_world.windows w with
        user_time := if w = 21 then 1000 else if w = 22 then 3000000000 else 0 } }

/-- The example world with one descriptor-backed application, Stopped and cached, at
address 0. -/
def example_world_installed : World :=
  { example_world with
    next_app := 1
    apps := Function.update example_world.apps 0
      { shell_app_init with
        info := some { desktop_id := "fedora-foo", name := "Foo", startup_wm_class := none }
        name_collation_key := some "Foo" }
    system := { example_world.system with id_to_app := [("fedora-foo", 0)] } }

/-- The example world with two cached applications: the one of the installed
"fedora-foo" at address 0 and, at address 1, one whose descriptor "gone.desktop" is no
longer installed. -/
def example_world_stale : World :=
  { example_world with
    next_app := 2
    apps := fun p =>
      if p = 0 then
        { shell_app_init with
          info := some { desktop_id := "fedora-foo", name := "Foo", startup_wm_class := none } }
      else if p = 1 then
        { shell_app_init with
          info := some { desktop_id := "gone.desktop", name := "Gone", startup_wm_class := none } }
      else shell_app_init
    system :=
      { example_world.system with id_to_app := [("fedora-foo", 0), ("gone.desktop", 1)] } }

/-- Two descriptors that declare the same startup class "foo.desktop"; the second has
the class as its id. -/
def example_descriptors_same_class : List GDesktopAppInfo :=
  [{ desktop_id := "bar.desktop", name := "Bar", startup_wm_class := some "foo.desktop" },
   { desktop_id := "foo.desktop", name := "Foo", startup_wm_class := some "foo.desktop" }]

/-- The example world after the lookup of "fedora-foo", which allocates the
application at address 0. -/
def example_world_looked_up : World :=
  match shell_app_system_lookup_app example_world "fedora-foo" with
  | some r => r.1
  | none => example_world

/-- The world after the successful launch of that application. -/
def example_world_launched : World :=
  match EntityOp.apply example_world_looked_up 0 (EntityOp.launch 5 (-1) true) with
  | some s => s
  | none => example_world_looked_up

/-- The world after window 1 has been added to the launched application. -/
def example_world_window_added : World :=
  match EntityOp.apply example_world_launched 0 (EntityOp.add_window 1) with
  | some s => s
  | none => example_world_launched

/-- The example world with two application objects in use: a Stopped one at address 0
and a Starting one, member of `starting_apps`, at address 1. -/
def example_world_stopped_starting : World :=
  { example_world with
    next_app := 2
    apps := Function.update example_world.apps 1
      { shell_app_init with state := SHELL_APP_STATE_STARTING }
    system := { example_world.system with starting_apps := [(1, ())] } }

/-- The example world with two Running applications at addresses 0 and 1 whose single
windows 11 and 12 were last used at times 0 and 2147483648. -/
def example_world_half_range : World :=
  { example_world with
    next_app := 2
    apps := fun p =>
      if p = 0 then example_running_app [11]
      else if p = 1 then example_running_app [12]
      else shell_app_init
    system := { example_world.system with running_apps := [(0, ()), (1, ())] }
    windows := fun w =>
      { example_world.windows w with user_time := if w = 12 then 2147483648 else 0 } }

/-- The example world in which the windows 41 and 42 belong to a GApplication: they
carry a unique bus name and the object paths of the application and of its menu. -/
def example_world_busy : World :=
  { example_world with
    next_app := 1
    windows := fun w =>
      if w = 41 ∨ w = 42 then
        { example_world.windows w with
          gtk_unique_bus_name := some ":1.41"
          gtk_application_object_path := some "/org/example/App"
          gtk_app_menu_object_path := some "/org/example/App/menus/appmenu" }
      else example_world.windows w }

/-- The world after window 41 has been added to the application at address 0: the
busy-watch request is in flight. -/
def example_world_request_issued : World :=
  match _shell_app_add_window example_world_busy 0 41 with
  | some s => s
  | none => example_world_busy

/-- The world after window 41 has been removed again: the running state is torn
down and the request cancelled. -/
def example_world_torn_down : World :=
  match _shell_app_remove_window example_world_request_issued 0 41 with
  | some s => s
  | none => example_world_request_issued

/-- The world after window 42 has then been added: a new running state with a
request of its own in flight. -/
def example_world_new_sub_state : World :=
  match _shell_app_add_window example_world_torn_down 0 42 with
  | some s => s
  | none => example_world_torn_down

/-- Three operations on the application at address 0: window 1 arrives, window 2
arrives, window 1 goes. -/
def example_ops : List (AppPtr × EntityOp) :=
  [(0, EntityOp.add_window 1), (0, EntityOp.add_window 2), (0, EntityOp.remove_window 1)]

/-- Operations on the application at address 0: a startup sequence begins, the launch
splash (window 51) arrives, the startup sequence completes. -/
def example_ops_startup : List (AppPtr × EntityOp) :=
  [(0, EntityOp.handle_startup_sequence { completed := false, timestamp := 7, workspace := 0 }),
   (0, EntityOp.add_window 51),
   (0, EntityOp.handle_startup_sequence { completed := true, timestamp := 7, workspace := 0 })]

/-- A display on which no window has transients, every window is a normal window,
the last user interaction was at time 0, the current time is 1 and times are ordered
as numbers. -/
def example_display : MetaDisplay :=
  { last_user_time := 0
    current_time_roundtrip := 1
    xserver_time_is_before := fun a b => decide (a < b)
    foreach_transient := fun _ => []
    sort_windows_by_stacking := fun l => l
    window_type := fun _ => MetaWindowType.META_WINDOW_NORMAL }

/-- The example world of the two windows 21 (time 1000) and 22 (time 3000000000) with
the window list of the Running application at address 0 in the order 22, 21 and
flagged stale. -/
def example_world_unsorted : World :=
  example_world_two_windows.set_app 0 (example_running_app [22, 21])

/-- The window manager sets the skip-taskbar hint of `window`; the notification of
the property is delivered by a call of `shell_app_on_skip_taskbar_changed`. -/
def set_skip_taskbar (s : World) (window : MetaWindow) (skip_taskbar : Bool) : World :=
  { s with
    windows := Function.update s.windows window
      { s.windows window with skip_taskbar := skip_taskbar } }

/-- The example world in which window 51 is a launch splash: its role is
"eos-speedwagon"; it is not flagged skip-taskbar. -/
def example_world_speedwagon : World :=
  { example_world with
    next_app := 1
    windows := fun w =>
      if w = 51 then { example_world.windows w with role := some "eos-speedwagon" }
      else example_world.windows w }

/-- The world after window 51 has been added to the application at address 0. -/
def example_world_speedwagon_added : World :=
  match _shell_app_add_window example_world_speedwagon 0 51 with
  | some s => s
  | none => example_world_speedwagon

/-- The world after the skip-taskbar hint of window 51 has then been set and the
notification delivered. -/
def example_world_speedwagon_notified : World :=
  match shell_app_on_skip_taskbar_changed
      (set_skip_taskbar example_world_speedwagon_added 51 true) 0 51 with
  | some s => s
  | none => example_world_speedwagon_added

/-- The windows of the spec's ordering example in the list of the Running
application at address 0, flagged stale: window 31 is on another workspace and was
last used at time 5, window 32 is on the active workspace, showing, and was last used
at time 1. -/
def example_world_spec_windows : World :=
  { example_world with
    next_app := 1
    apps := Function.update example_world.apps 0 (example_running_app [31, 32])
    system := { example_world.system with running_apps := [(0, ())] }
    windows := fun w =>
      { example_world.windows w with
        user_time := if w = 31 then 5 else 1
        workspace := if w = 31 then 1 else 0 } }

/-! ## Auxiliary definitions used to state the theorems -/

/-- State stored by a transition request. -/
def transition_target (old new : ShellAppState) : ShellAppState :=
  if old = SHELL_APP_STATE_RUNNING ∧ new = SHELL_APP_STATE_STARTING then old else new

/-- State in which `shell_app_sync_running_state` leaves an application. -/
def sync_target (a : ShellApp) : ShellAppState :=
  match a.running_state with
  | none => a.state
  | some rs =>
    if rs.interesting_windows = 0 then
      if a.state = SHELL_APP_STATE_STARTING then SHELL_APP_STATE_STARTING
      else SHELL_APP_STATE_STOPPED
    else SHELL_APP_STATE_RUNNING

/-- The second running state differs from the first in its IPC handles only. -/
def same_windows (rs rs1 : ShellAppRunningState) : Prop :=
  rs1.windows = rs.windows ∧ rs1.interesting_windows = rs.interesting_windows ∧
    rs1.refcount = rs.refcount ∧ rs1.window_sort_stale = rs.window_sort_stale

/-- Running state an application works with when a window is added: its own, or a
new one. -/
def running_state_or_new (a : ShellApp) : ShellAppRunningState :=
  a.running_state.getD new_running_state

/-- Running state after the removal of a member window, before the emptiness test. -/
def running_state_without (rs : ShellAppRunningState) (window : MetaWindow) (interesting : Bool) :
    ShellAppRunningState :=
  { rs with
    windows := g_slist_remove rs.windows window
    interesting_windows :=
      if interesting then guint_dec rs.interesting_windows else rs.interesting_windows }

/-- A call of one of the two window-set operations. -/
inductive WindowOp
  | add (window : MetaWindow)
  | remove (window : MetaWindow)
  deriving DecidableEq, Repr

/-- Perform one window-set operation on the application at `app`. -/
def WindowOp.apply (s : World) (app : AppPtr) : WindowOp → Option World
  | WindowOp.add window => _shell_app_add_window s app window
  | WindowOp.remove window => _shell_app_remove_window s app window

/-- Perform a sequence of window-set operations, first operation first. -/
def run_window_ops (s : World) (app : AppPtr) : List WindowOp → Option World
  | [] => some s
  | op :: ops =>
    match op.apply s app with
    | some s1 => run_window_ops s1 app ops
    | none => none

/-- The window set the calls of a sequence leave, computed from the calls alone: an
add puts the window in front unless it is already there, a remove takes the window
out. -/
def windows_after : List WindowOp → List MetaWindow → List MetaWindow
  | [], ws => ws
  | WindowOp.add window :: ops, ws =>
    windows_after ops (if window ∈ ws then ws else window :: ws)
  | WindowOp.remove window :: ops, ws => windows_after ops (ws.erase window)

/-- Every remove of the sequence is issued while the windows left by the calls before
it are not all gone (so that the application has running state), judged from the
calls alone. -/
def removes_while_windows : List WindowOp → List MetaWindow → Bool
  | [], _ => true
  | WindowOp.add window :: ops, ws =>
    removes_while_windows ops (if window ∈ ws then ws else window :: ws)
  | WindowOp.remove window :: ops, ws =>
    !ws.isEmpty && removes_while_windows ops (ws.erase window)

/-- The final interesting-window count of a sequence of calls on a fresh application:
the number of interesting windows among the windows the calls leave. -/
def final_interesting_count (s : World) (ops : List WindowOp) : Nat :=
  ((windows_after ops []).filter (shell_app_is_interesting_window s)).length

/-- Every remove of the sequence is issued while the application has running state. -/
def removes_have_running_state (s : World) (app : AppPtr) : List WindowOp → Bool
  | [] => true
  | op :: ops =>
    (match op with
      | WindowOp.remove _ => (s.apps app).running_state.isSome
      | WindowOp.add _ => true) &&
    (match op.apply s app with
      | some s1 => removes_have_running_state s1 app ops
      | none => true)

/-- The interesting-window counter of an application, 0 without running state. -/
def interesting_count (a : ShellApp) : Nat :=
  match a.running_state with
  | none => 0
  | some rs => rs.interesting_windows

/-- The window list of an application, empty without running state. -/
def window_list (a : ShellApp) : List MetaWindow :=
  match a.running_state with
  | none => []
  | some rs => rs.windows

/-- What holds of an application that only ever saw window additions and removals. -/
structure WindowOpsInv (s : World) (app : AppPtr) : Prop where
  not_starting : (s.apps app).state ≠ SHELL_APP_STATE_STARTING
  running_iff : (s.apps app).state = SHELL_APP_STATE_RUNNING ↔ 0 < interesting_count (s.apps app)
  refcount : ∀ rs, (s.apps app).running_state = some rs → rs.refcount ≠ 0
  counter : interesting_count (s.apps app) =
    ((window_list (s.apps app)).filter (shell_app_is_interesting_window s)).length % G_MAXUINT_SUCC
  nodup : (window_list (s.apps app)).Nodup

/-- The character-wise map the canonical form is described by: an ASCII uppercase
letter becomes the corresponding lowercase letter, a space becomes a hyphen, every
other character is kept. -/
def canonical_char (c : Char) : Char :=
  if 'A'.toNat ≤ c.toNat ∧ c.toNat ≤ 'Z'.toNat then Char.ofNat (c.toNat + 32)
  else if c = ' ' then '-'
  else c

/-- The canonical form as described: map every character, then rewrite the one
special case "gimp-2.8" to "gimp". -/
def canonical_wmclass (wmclass : String) : String :=
  if String.mk (wmclass.data.map canonical_char) = "gimp-2.8" then "gimp"
  else String.mk (wmclass.data.map canonical_char)

/-- The startup-class index `table` is the one the descriptors `infos` call for: a
class is a key iff a descriptor declares it, the value is the id of a descriptor
declaring it, and it is the class itself whenever a descriptor declaring the class
has the class as its id. -/
def startup_index_reflects (table : GHashTable String String) (infos : List GDesktopAppInfo) :
    Prop :=
  ∀ h : String,
    (g_hash_table_lookup table h = none ↔ ∀ info ∈ infos, info.startup_wm_class ≠ some h) ∧
    (∀ id, g_hash_table_lookup table h = some id →
      ∃ info ∈ infos, info.startup_wm_class = some h ∧ info.desktop_id = id) ∧
    ((∃ info ∈ infos, info.startup_wm_class = some h ∧ info.desktop_id = h) →
      g_hash_table_lookup table h = some h)

/-- Whether reconciliation keeps a cached application: it is window-backed, or the
id of its descriptor still resolves in the application database. -/
def survives_reconciliation (s : World) (app : AppPtr) : Bool :=
  match (s.apps app).info with
  | none => true
  | some info => (g_desktop_app_info_new s info.desktop_id).isSome

/-- Every entry of `id_to_app` is a descriptor-backed application stored under the id
of its descriptor (the form in which `shell_app_system_lookup_app` writes entries). -/
def cache_keys_are_ids (s : World) : Prop :=
  ∀ e ∈ s.system.id_to_app, ∃ info, (s.apps e.2).info = some info ∧ info.desktop_id = e.1

/-- The two membership sets of the registry mirror the states: an application is a
member of `running_apps` iff it is Running and of `starting_apps` iff it is
Starting. -/
def registry_mirrors_states (s : World) : Prop :=
  ∀ e : AppPtr,
    (g_hash_table_contains s.system.running_apps e = true ↔
      (s.apps e).state = SHELL_APP_STATE_RUNNING) ∧
    (g_hash_table_contains s.system.starting_apps e = true ↔
      (s.apps e).state = SHELL_APP_STATE_STARTING)

/-- Addresses that have not been handed out hold no application in use: the object
there is Stopped. -/
def unused_are_stopped (s : World) : Prop :=
  ∀ p, s.next_app ≤ p → (s.apps p).state = SHELL_APP_STATE_STOPPED

/-- A world that arises from `s` by changes that leave states, membership sets and
allocation alone, and by calls of `shell_app_state_transition` on allocated
applications. -/
inductive Evolves (s : World) : World → Prop
  | refl : Evolves s s
  | quiet (x y : World) : Evolves s x →
      y.system.running_apps = x.system.running_apps →
      y.system.starting_apps = x.system.starting_apps →
      (∀ p, (y.apps p).state = (x.apps p).state) →
      y.next_app = x.next_app → Evolves s y
  | transition (x : World) (app : AppPtr) (state : ShellAppState) : Evolves s x →
      app < x.next_app → Evolves s (shell_app_state_transition x app state)

/-- The worlds reachable from `s0`: by operations on allocated applications, by
registry lookups (which allocate), by install-change reconciliation, by reading the
sorted window list, and by changes of the environment (window data, installed
descriptors, workspace, time) that leave application objects and registry alone. -/
inductive Reachable (s0 : World) : World → Prop
  | start : Reachable s0 s0
  | operation (s s1 : World) (app : AppPtr) (op : EntityOp) : Reachable s0 s →
      app < s.next_app → EntityOp.apply s app op = some s1 → Reachable s0 s1
  | lookup (s s1 : World) (id : String) (r : Option AppPtr) : Reachable s0 s →
      shell_app_system_lookup_app s id = some (s1, r) → Reachable s0 s1
  | reconcile (s : World) : Reachable s0 s → Reachable s0 (installed_changed s)
  | get_windows (s : World) (app : AppPtr) : Reachable s0 s →
      Reachable s0 (shell_app_get_windows s app).1
  | environment (s s1 : World) : Reachable s0 s → s1.apps = s.apps → s1.system = s.system →
      s1.next_app = s.next_app → Reachable s0 s1

/-- The telemetry calls as the contract words them: a usage-start record when the
new state is Running and the application has a descriptor (whose id the record
carries), a usage-stop record when the new state is Stopped, the application was a
member of `running_apps` and it has a descriptor, and none otherwise. -/
def telemetry_calls (s : World) (app : AppPtr) : List Event :=
  match (s.apps app).info with
  | none => []
  | some info =>
    if (s.apps app).state = SHELL_APP_STATE_RUNNING then
      [Event.record_start app info.desktop_id]
    else if (s.apps app).state = SHELL_APP_STATE_STOPPED ∧
        g_hash_table_contains s.system.running_apps app = true then
      [Event.record_stop app]
    else []

/-- The maximum of the user-interaction times of the windows of an application, 0
without windows. -/
def max_user_time (s : World) (app : AppPtr) : Nat :=
  (window_list (s.apps app)).foldl (fun m w => max m (s.windows w).user_time) 0

/-- Perform a sequence of operations, each on the application named with it, first
operation first. -/
def run_entity_ops (s : World) : List (AppPtr × EntityOp) → Option World
  | [] => some s
  | (app, op) :: ops =>
    match EntityOp.apply s app op with
    | some s1 => run_entity_ops s1 ops
    | none => none

/-- The running state of an application object is present iff its window set is not
empty, and it is present when the state is Running. -/
def sub_state_consistent (a : ShellApp) : Prop :=
  (a.running_state.isSome = true ↔ window_list a ≠ []) ∧
  (a.state = SHELL_APP_STATE_RUNNING → a.running_state.isSome = true)

/-- The example world after `example_ops`. -/
def example_world_after_ops : World :=
  match run_entity_ops example_world example_ops with
  | some s => s
  | none => example_world

/-- The world of the launch splash after `example_ops_startup`. -/
def example_world_after_startup : World :=
  match run_entity_ops example_world_speedwagon example_ops_startup with
  | some s => s
  | none => example_world_speedwagon

/-- The order of 32-bit X server times, which wrap around: the time `ta` is not before
the time `tb` when it is at most `2 ^ 31` ahead of it modulo `2 ^ 32`. -/
def x_time_not_before (ta tb : Nat) : Prop :=
  (ta + G_MAXUINT_SUCC - tb % G_MAXUINT_SUCC) % G_MAXUINT_SUCC ≤ 2 ^ 31

/-- Window `a` may stand before window `b` in the sorted window list: `a` is on the
active workspace and `b` is not; or they agree in that and `a` is showing on its
workspace while `b` is not; or they agree in both and the user time of `a` is not
before the user time of `b`, in the order of times given by `not_before`. -/
def window_may_precede (s : World) (not_before : Nat → Nat → Prop) (a b : MetaWindow) : Prop :=
  ((s.windows a).workspace = s.active_workspace ∧
      ¬ (s.windows b).workspace = s.active_workspace) ∨
    (((s.windows a).workspace = s.active_workspace ↔
        (s.windows b).workspace = s.active_workspace) ∧
      (((s.windows a).showing_on_its_workspace = true ∧
          ¬ (s.windows b).showing_on_its_workspace = true) ∨
        (((s.windows a).showing_on_its_workspace = true ↔
            (s.windows b).showing_on_its_workspace = true) ∧
          not_before (s.windows a).user_time (s.windows b).user_time)))

/-! ## Theorems -/

@[simp] theorem World.emit_apps (s : World) (e : Event) : (s.emit e).apps = s.apps := rfl
@[simp] theorem World.emit_windows (s : World) (e : Event) : (s.emit e).windows = s.windows := rfl
@[simp] theorem World.emit_system (s : World) (e : Event) : (s.emit e).system = s.system := rfl
@[simp] theorem World.set_app_apps (s : World) (app : AppPtr) (a : ShellApp) :
    (s.set_app app a).apps = Function.update s.apps app a := rfl
@[simp] theorem World.set_app_windows (s : World) (app : AppPtr) (a : ShellApp) :
    (s.set_app app a).windows = s.windows := rfl
@[simp] theorem World.set_app_system (s : World) (app : AppPtr) (a : ShellApp) :
    (s.set_app app a).system = s.system := rfl
@[simp] theorem World.set_app_log (s : World) (app : AppPtr) (a : ShellApp) :
    (s.set_app app a).log = s.log := rfl

theorem ShellApp.with_state_self (a : ShellApp) (st : ShellAppState) (h : a.state = st) :
    { a with state := st } = a := by
  cases a; simp_all

theorem notify_apps (s : World) (app : AppPtr) :
    (_shell_app_system_notify_app_state_changed s app).apps = s.apps := by
  unfold _shell_app_system_notify_app_state_changed
  simp only [World.emit_apps]
  split
  · split <;> rfl
  · rfl
  · split <;> rfl

theorem notify_windows (s : World) (app : AppPtr) :
    (_shell_app_system_notify_app_state_changed s app).windows = s.windows := by
  unfold _shell_app_system_notify_app_state_changed
  simp only [World.emit_windows]
  split
  · split <;> rfl
  · rfl
  · split <;> rfl

theorem ShellApp.with_running_state_self (a : ShellApp) (rs : Option ShellAppRunningState)
    (h : a.running_state = rs) : { a with running_state := rs } = a := by
  cases a; simp_all

theorem transition_apps (s : World) (app : AppPtr) (st : ShellAppState) :
    (shell_app_state_transition s app st).apps =
      Function.update s.apps app
        { s.apps app with state := transition_target (s.apps app).state st } := by
  unfold shell_app_state_transition transition_target
  by_cases h1 : (s.apps app).state = st
  · rw [if_pos h1, ShellApp.with_state_self]
    · simp
    · split <;> simp [h1]
  · rw [if_neg h1]
    by_cases h2 : (s.apps app).state = SHELL_APP_STATE_RUNNING ∧ st = SHELL_APP_STATE_STARTING
    · rw [if_pos h2, if_pos h2, ShellApp.with_state_self _ _ rfl]
      simp
    · rw [if_neg h2, if_neg h2]
      simp [notify_apps]

theorem transition_windows (s : World) (app : AppPtr) (st : ShellAppState) :
    (shell_app_state_transition s app st).windows = s.windows := by
  unfold shell_app_state_transition
  split
  · rfl
  · split
    · rfl
    · simp [notify_windows]

theorem sync_windows (s : World) (app : AppPtr) :
    (shell_app_sync_running_state s app).windows = s.windows := by
  unfold shell_app_sync_running_state
  split
  · rfl
  · split
    · split
      · exact transition_windows _ _ _
      · rfl
    · exact transition_windows _ _ _

theorem sync_apps (s : World) (app : AppPtr) :
    (shell_app_sync_running_state s app).apps =
      Function.update s.apps app { s.apps app with state := sync_target (s.apps app) } := by
  unfold shell_app_sync_running_state sync_target
  cases h : (s.apps app).running_state with
  | none =>
    simp only [World.emit_apps]
    rw [ShellApp.with_state_self _ _ rfl]; simp
  | some rs =>
    simp only
    by_cases h0 : rs.interesting_windows = 0
    · rw [if_pos h0, if_pos h0]
      by_cases h1 : (s.apps app).state = SHELL_APP_STATE_STARTING
      · rw [if_neg (not_not.mpr h1), if_pos h1, ShellApp.with_state_self _ _ h1]; simp
      · rw [if_pos h1, if_neg h1, transition_apps]
        simp [transition_target]
    · rw [if_neg h0, if_neg h0, transition_apps]
      simp [transition_target]

theorem update_app_menu_spec (s : World) (app : AppPtr) (window : MetaWindow)
    (rs : ShellAppRunningState) (h : (s.apps app).running_state = some rs) :
    ∃ s1 rs1, shell_app_update_app_menu s app window = some s1 ∧ same_windows rs rs1 ∧
      s1.apps = Function.update s.apps app { s.apps app with running_state := some rs1 } ∧
      s1.windows = s.windows ∧ s1.system = s.system := by
  have hself : s.apps = Function.update s.apps app { s.apps app with running_state := some rs } := by
    rw [← h]; simp
  unfold shell_app_update_app_menu
  rw [h]
  simp only
  split
  · split
    · rename_i p1 p2 bus hp1 hp2 hb
      exact ⟨_, { rs with unique_bus_name := some bus, remote_menu := some (bus, p2) }, rfl,
        ⟨rfl, rfl, rfl, rfl⟩, rfl, rfl, rfl⟩
    · exact ⟨s, rs, rfl, ⟨rfl, rfl, rfl, rfl⟩, hself, rfl, rfl⟩
  · exact ⟨s, rs, rfl, ⟨rfl, rfl, rfl, rfl⟩, hself, rfl, rfl⟩

theorem ensure_busy_watch_spec (s : World) (app : AppPtr)
    (rs : ShellAppRunningState) (h : (s.apps app).running_state = some rs)
    (hw : rs.windows ≠ []) :
    ∃ s1 rs1, shell_app_ensure_busy_watch s app = some s1 ∧ same_windows rs rs1 ∧
      s1.apps = Function.update s.apps app { s.apps app with running_state := some rs1 } ∧
      s1.windows = s.windows ∧ s1.system = s.system := by
  have hself : s.apps = Function.update s.apps app { s.apps app with running_state := some rs } := by
    rw [← h]; simp
  unfold shell_app_ensure_busy_watch
  rw [h]
  simp only
  split
  · exact ⟨s, rs, rfl, ⟨rfl, rfl, rfl, rfl⟩, hself, rfl, rfl⟩
  · split
    · exact ⟨s, rs, rfl, ⟨rfl, rfl, rfl, rfl⟩, hself, rfl, rfl⟩
    · cases hws : rs.windows.head? with
      | none => exact absurd (List.head?_eq_none_iff.mp hws) hw
      | some w =>
        simp only
        split
        · exact ⟨s, rs, rfl, ⟨rfl, rfl, rfl, rfl⟩, hself, rfl, rfl⟩
        · exact ⟨_, { rs with cancellable := true }, rfl, ⟨rfl, rfl, rfl, rfl⟩, rfl, rfl, rfl⟩

theorem add_window_spec (s : World) (app : AppPtr) (window : MetaWindow)
    (hnew : window ∉ (running_state_or_new (s.apps app)).windows) :
    ∃ s1 rs1, _shell_app_add_window s app window = some s1 ∧
      s1.windows = s.windows ∧
      rs1.windows = window :: (running_state_or_new (s.apps app)).windows ∧
      rs1.interesting_windows =
        (if shell_app_is_interesting_window s window then
          guint_inc (running_state_or_new (s.apps app)).interesting_windows
         else (running_state_or_new (s.apps app)).interesting_windows) ∧
      rs1.refcount = (running_state_or_new (s.apps app)).refcount ∧
      rs1.window_sort_stale = true ∧
      s1.apps = Function.update s.apps app
        { s.apps app with
          running_state := some rs1
          state := sync_target { s.apps app with running_state := some rs1 } } := by
  obtain ⟨s1, hs1, hw1, ha1⟩ : ∃ s1,
      (if (s.apps app).running_state.isNone then create_running_state s app else some s) = some s1 ∧
      s1.windows = s.windows ∧
      s1.apps = Function.update s.apps app
        { s.apps app with running_state := some (running_state_or_new (s.apps app)) } := by
    cases h : (s.apps app).running_state with
    | none =>
      refine ⟨s.set_running_state app (some new_running_state),
        by simp [create_running_state, h], rfl, ?_⟩
      simp [World.set_running_state, running_state_or_new, h]
    | some rs =>
      refine ⟨s, by simp, rfl, ?_⟩
      have hrs : running_state_or_new (s.apps app) = rs := by simp [running_state_or_new, h]
      rw [hrs, ShellApp.with_running_state_self _ _ h]
      simp
  unfold _shell_app_add_window
  have hguard : (match (s.apps app).running_state with
      | some rs => g_slist_find rs.windows window
      | none => false) = false := by
    cases h : (s.apps app).running_state with
    | none => rfl
    | some rs => simpa [g_slist_find, running_state_or_new, h] using hnew
  rw [hguard]
  simp only [Bool.false_eq_true, if_false, hs1, Option.bind_eq_bind, Option.some_bind]
  have hrs1 : (s1.apps app).running_state = some (running_state_or_new (s.apps app)) := by
    rw [ha1]; simp
  rw [hrs1]
  simp only [Option.some_bind]
  generalize hrs0 : running_state_or_new (s.apps app) = rs0 at *
  obtain ⟨s3, rs3, hs3, ⟨hwin3, hint3, href3, hst3⟩, ha3, hw3, -⟩ :=
    update_app_menu_spec
      (s1.set_running_state app (some
        { rs0 with window_sort_stale := true, windows := window :: rs0.windows }))
      app window { rs0 with window_sort_stale := true, windows := window :: rs0.windows }
      (by simp [World.set_running_state])
  rw [hs3]
  simp only [Option.some_bind]
  have hrs3 : (s3.apps app).running_state = some rs3 := by rw [ha3]; simp
  obtain ⟨s4, rs4, hs4, ⟨hwin4, hint4, href4, hst4⟩, ha4, hw4, -⟩ :=
    ensure_busy_watch_spec s3 app rs3 hrs3 (by rw [hwin3]; simp)
  rw [hs4]
  simp only [Option.some_bind]
  have hrs4 : (s4.apps app).running_state = some rs4 := by rw [ha4]; simp
  rw [hrs4]
  simp only [Option.some_bind]
  have hint : shell_app_is_interesting_window s4 window = shell_app_is_interesting_window s window := by
    simp [shell_app_is_interesting_window, shell_app_is_speedwagon_window,
      shell_window_tracker_is_window_interesting, hw4, hw3, World.set_running_state, hw1]
  rw [hint]
  simp only [World.set_running_state, World.set_app_apps, Function.update_same,
    Function.update_idem] at ha3
  rw [ha1] at ha3
  simp only [Function.update_same, Function.update_idem] at ha3
  rw [ha3] at ha4
  simp only [Function.update_same, Function.update_idem] at ha4
  by_cases hi : shell_app_is_interesting_window s window = true
  · refine ⟨_, { rs4 with interesting_windows := guint_inc rs4.interesting_windows }, rfl, ?_⟩
    simp only [hi, if_true, World.emit_windows, sync_windows, World.set_running_state,
      World.set_app_windows, hw4, hw3, hw1, World.emit_apps, sync_apps, World.set_app_apps, ha4,
      Function.update_same, Function.update_idem, hwin4, hwin3, hint4, hint3, href4, href3,
      hst4, hst3, true_and]
  · refine ⟨_, rs4, rfl, ?_⟩
    simp only [hi, if_false, World.emit_windows, sync_windows, World.set_running_state,
      World.set_app_windows, hw4, hw3, hw1, World.emit_apps, sync_apps, World.set_app_apps, ha4,
      Function.update_same, Function.update_idem, hwin4, hwin3, hint4, hint3, href4, href3,
      hst4, hst3, true_and, Bool.false_eq_true]

theorem unref_running_state_spec (s : World) (state : ShellAppRunningState)
    (h : state.refcount ≠ 0) :
    ∃ s1, unref_running_state s state = some s1 ∧ s1.apps = s.apps ∧ s1.windows = s.windows ∧
      s1.system = s.system := by
  unfold unref_running_state
  rw [if_neg h]
  split
  · exact ⟨s, rfl, rfl, rfl, rfl⟩
  · split
    · exact ⟨_, rfl, rfl, rfl, rfl⟩
    · exact ⟨s, rfl, rfl, rfl, rfl⟩

theorem remove_window_absent (s : World) (app : AppPtr) (window : MetaWindow)
    (rs : ShellAppRunningState) (h : (s.apps app).running_state = some rs)
    (hmem : window ∉ rs.windows) :
    _shell_app_remove_window s app window = some s := by
  unfold _shell_app_remove_window
  rw [h]
  simp [g_slist_find, hmem]

theorem remove_window_last (s : World) (app : AppPtr) (window : MetaWindow)
    (rs : ShellAppRunningState) (h : (s.apps app).running_state = some rs)
    (hmem : window ∈ rs.windows) (href : rs.refcount ≠ 0)
    (hlast : g_slist_remove rs.windows window = []) :
    ∃ s1, _shell_app_remove_window s app window = some s1 ∧ s1.windows = s.windows ∧
      s1.apps = Function.update s.apps app
        { s.apps app with
          running_state := none
          state := if (s.apps app).state = SHELL_APP_STATE_STARTING then SHELL_APP_STATE_STARTING
                   else SHELL_APP_STATE_STOPPED } := by
  obtain ⟨s3, hs3, ha3, hw3, -⟩ := unref_running_state_spec
    ((s.set_running_state app (some (running_state_without rs window
      (shell_app_is_interesting_window s window)))).set_running_state app none)
    (running_state_without rs window (shell_app_is_interesting_window s window)) href
  have hdef : _shell_app_remove_window s app window =
      some ((if (s3.apps app).state ≠ SHELL_APP_STATE_STARTING then
              if (s3.apps app).running_state.isNone = true then
                shell_app_state_transition s3 app SHELL_APP_STATE_STOPPED
              else shell_app_sync_running_state s3 app
            else s3).emit (Event.windows_changed app)) := by
    unfold _shell_app_remove_window
    rw [h]
    simp only [g_slist_find, hmem, decide_True, Bool.not_true, Bool.false_eq_true, if_false,
      Option.bind_eq_bind]
    cases hi : shell_app_is_interesting_window s window <;>
      simp only [hi, running_state_without, if_true, if_false, Bool.false_eq_true, hlast]
        at hs3 ⊢ <;>
      simp only [hs3, Option.some_bind]
  refine ⟨_, hdef, ?_, ?_⟩
  · simp only [World.emit_windows]
    split
    · split
      · rw [transition_windows, hw3]; rfl
      · rw [sync_windows, hw3]; rfl
    · rw [hw3]; rfl
  · simp only [World.set_running_state, World.set_app_apps, Function.update_same,
      Function.update_idem] at ha3
    by_cases hst : (s.apps app).state = SHELL_APP_STATE_STARTING
    · simp [ha3, hst]
    · simp [ha3, hst, transition_apps, transition_target]

theorem remove_window_more (s : World) (app : AppPtr) (window : MetaWindow)
    (rs : ShellAppRunningState) (h : (s.apps app).running_state = some rs)
    (hmem : window ∈ rs.windows)
    (hmore : g_slist_remove rs.windows window ≠ []) :
    ∃ s1, _shell_app_remove_window s app window = some s1 ∧ s1.windows = s.windows ∧
      s1.apps = Function.update s.apps app
        { s.apps app with
          running_state := some (running_state_without rs window
            (shell_app_is_interesting_window s window))
          state :=
            if (s.apps app).state = SHELL_APP_STATE_STARTING then SHELL_APP_STATE_STARTING
            else sync_target { s.apps app with
              running_state := some (running_state_without rs window
                (shell_app_is_interesting_window s window)) } } := by
  have hdef : _shell_app_remove_window s app window =
      some ((if ((s.set_running_state app (some (running_state_without rs window
                (shell_app_is_interesting_window s window)))).apps app).state
                  ≠ SHELL_APP_STATE_STARTING then
              shell_app_sync_running_state (s.set_running_state app (some
                (running_state_without rs window (shell_app_is_interesting_window s window)))) app
            else (s.set_running_state app (some (running_state_without rs window
                (shell_app_is_interesting_window s window))))).emit
              (Event.windows_changed app)) := by
    unfold _shell_app_remove_window
    rw [h]
    simp only [g_slist_find, hmem, decide_True, Bool.not_true, Bool.false_eq_true, if_false,
      Option.bind_eq_bind]
    cases hi : shell_app_is_interesting_window s window <;>
      simp [hi, running_state_without, hmore, World.set_running_state]
  refine ⟨_, hdef, ?_, ?_⟩
  · simp only [World.emit_windows]
    split
    · rw [sync_windows]; rfl
    · rfl
  · simp only [World.set_running_state, World.set_app_apps, Function.update_same,
      World.emit_apps]
    by_cases hst : (s.apps app).state = SHELL_APP_STATE_STARTING
    · simp [hst]
    · simp [hst, sync_apps]

theorem filter_erase_length_pos (p : MetaWindow → Bool) (w : MetaWindow) (ws : List MetaWindow)
    (hmem : w ∈ ws) (hp : p w = true) :
    ((ws.erase w).filter p).length + 1 = (ws.filter p).length := by
  induction ws with
  | nil => cases hmem
  | cons x xs ih =>
    by_cases hx : x = w
    · subst hx
      simp [hp]
    · have hmem1 : w ∈ xs := by
        rcases List.mem_cons.mp hmem with h | h
        · exact absurd h.symm hx
        · exact h
      rw [List.erase_cons_tail (by simpa using hx)]
      by_cases hpx : p x = true
      · simp [List.filter_cons, hpx, ← ih hmem1]
      · simp [List.filter_cons, hpx, ← ih hmem1]

theorem filter_erase_length_neg (p : MetaWindow → Bool) (w : MetaWindow) (ws : List MetaWindow)
    (hp : p w = false) :
    ((ws.erase w).filter p).length = (ws.filter p).length := by
  induction ws with
  | nil => rfl
  | cons x xs ih =>
    by_cases hx : x = w
    · subst hx
      simp [hp]
    · rw [List.erase_cons_tail (by simpa using hx)]
      by_cases hpx : p x = true
      · simp [List.filter_cons, hpx, ih]
      · simp [List.filter_cons, hpx, ih]

theorem is_interesting_window_congr (s s1 : World) (h : s1.windows = s.windows) :
    shell_app_is_interesting_window s1 = shell_app_is_interesting_window s := by
  funext w
  simp [shell_app_is_interesting_window, shell_app_is_speedwagon_window,
    shell_window_tracker_is_window_interesting, h]

theorem add_window_present (s : World) (app : AppPtr) (window : MetaWindow)
    (h : window ∈ window_list (s.apps app)) :
    _shell_app_add_window s app window = some s := by
  unfold _shell_app_add_window
  unfold window_list at h
  cases hrs : (s.apps app).running_state with
  | none => rw [hrs] at h; cases h
  | some rs =>
    rw [hrs] at h
    simp [g_slist_find, h]

theorem guint_inc_mod (n : Nat) : guint_inc (n % G_MAXUINT_SUCC) = (n + 1) % G_MAXUINT_SUCC := by
  unfold guint_inc G_MAXUINT_SUCC
  omega

theorem guint_dec_mod (n : Nat) : guint_dec ((n + 1) % G_MAXUINT_SUCC) = n % G_MAXUINT_SUCC := by
  unfold guint_dec G_MAXUINT_SUCC
  omega

theorem add_window_inv (s : World) (app : AppPtr) (window : MetaWindow)
    (inv : WindowOpsInv s app) :
    ∃ s1, _shell_app_add_window s app window = some s1 ∧ s1.windows = s.windows ∧
      WindowOpsInv s1 app := by
  by_cases hmem : window ∈ window_list (s.apps app)
  · exact ⟨s, add_window_present s app window hmem, rfl, inv⟩
  · have hwl : (running_state_or_new (s.apps app)).windows = window_list (s.apps app) := by
      unfold running_state_or_new window_list
      cases (s.apps app).running_state <;> rfl
    have hic : (running_state_or_new (s.apps app)).interesting_windows =
        interesting_count (s.apps app) := by
      unfold running_state_or_new interesting_count
      cases (s.apps app).running_state <;> rfl
    have hrc : (running_state_or_new (s.apps app)).refcount ≠ 0 := by
      unfold running_state_or_new
      cases hrs : (s.apps app).running_state with
      | none => simp [new_running_state]
      | some rs => simpa using inv.refcount rs hrs
    obtain ⟨s1, rs1, hs1, hw1, hwin, hint, href, -, ha1⟩ :=
      add_window_spec s app window (by rw [hwl]; exact hmem)
    have hrs1 : (s1.apps app).running_state = some rs1 := by rw [ha1]; simp
    have hst1 : (s1.apps app).state =
        if rs1.interesting_windows = 0 then SHELL_APP_STATE_STOPPED
        else SHELL_APP_STATE_RUNNING := by
      rw [ha1]
      simp [sync_target, inv.not_starting]
    have hcnt1 : interesting_count (s1.apps app) = rs1.interesting_windows := by
      simp [interesting_count, hrs1]
    have hwl1 : window_list (s1.apps app) = window :: window_list (s.apps app) := by
      simp [window_list, hrs1, hwin, hwl]
    refine ⟨s1, hs1, hw1, ?_, ?_, ?_, ?_, ?_⟩
    · rw [hst1]; split <;> simp
    · rw [hst1, hcnt1]; split <;> simp <;> omega
    · intro rs hrs
      rw [hrs1] at hrs
      cases hrs
      rw [href]; exact hrc
    · rw [hcnt1, hwl1, is_interesting_window_congr s s1 hw1, hint, hic, inv.counter]
      by_cases hi : shell_app_is_interesting_window s window = true
      · simp [hi, List.filter_cons, guint_inc_mod]
      · simp [hi, List.filter_cons]
    · rw [hwl1]
      exact List.nodup_cons.mpr ⟨hmem, inv.nodup⟩

theorem remove_window_inv (s : World) (app : AppPtr) (window : MetaWindow)
    (inv : WindowOpsInv s app) (hrs : (s.apps app).running_state.isSome = true) :
    ∃ s1, _shell_app_remove_window s app window = some s1 ∧ s1.windows = s.windows ∧
      WindowOpsInv s1 app := by
  obtain ⟨rs, hrs⟩ := Option.isSome_iff_exists.mp hrs
  have hwl : window_list (s.apps app) = rs.windows := by simp [window_list, hrs]
  have hic : interesting_count (s.apps app) = rs.interesting_windows := by
    simp [interesting_count, hrs]
  by_cases hmem : window ∈ rs.windows
  · by_cases hlast : g_slist_remove rs.windows window = []
    · obtain ⟨s1, hs1, hw1, ha1⟩ :=
        remove_window_last s app window rs hrs hmem (inv.refcount rs hrs) hlast
      have hrs1 : (s1.apps app).running_state = none := by rw [ha1]; simp
      have hst1 : (s1.apps app).state = SHELL_APP_STATE_STOPPED := by
        rw [ha1]; simp [inv.not_starting]
      refine ⟨s1, hs1, hw1, ?_, ?_, ?_, ?_, ?_⟩
      · rw [hst1]; simp
      · rw [hst1]; simp [interesting_count, hrs1]
      · intro rs2 h2; rw [hrs1] at h2; cases h2
      · simp [interesting_count, window_list, hrs1]
      · simp [window_list, hrs1]
    · obtain ⟨s1, hs1, hw1, ha1⟩ := remove_window_more s app window rs hrs hmem hlast
      have hrs1 : (s1.apps app).running_state = some (running_state_without rs window
          (shell_app_is_interesting_window s window)) := by rw [ha1]; simp
      have hst1 : (s1.apps app).state =
          if (running_state_without rs window
            (shell_app_is_interesting_window s window)).interesting_windows = 0 then
            SHELL_APP_STATE_STOPPED
          else SHELL_APP_STATE_RUNNING := by
        rw [ha1]
        simp [sync_target, inv.not_starting]
      have hcnt1 : interesting_count (s1.apps app) = (running_state_without rs window
          (shell_app_is_interesting_window s window)).interesting_windows := by
        simp [interesting_count, hrs1]
      have hwl1 : window_list (s1.apps app) = rs.windows.erase window := by
        simp [window_list, hrs1, running_state_without, g_slist_remove]
      have hnd : rs.windows.Nodup := by rw [← hwl]; exact inv.nodup
      have hc := inv.counter
      rw [hic, hwl] at hc
      refine ⟨s1, hs1, hw1, ?_, ?_, ?_, ?_, ?_⟩
      · rw [hst1]; split <;> simp
      · rw [hst1, hcnt1]; split <;> simp <;> omega
      · intro rs2 h2
        rw [hrs1] at h2
        cases h2
        exact inv.refcount rs hrs
      · rw [hcnt1, hwl1, is_interesting_window_congr s s1 hw1]
        cases hi : shell_app_is_interesting_window s window
        · simp only [running_state_without, Bool.false_eq_true, if_false]
          rw [filter_erase_length_neg _ _ _ hi]
          exact hc
        · simp only [running_state_without, if_true]
          rw [hc, ← filter_erase_length_pos _ _ _ hmem hi, guint_dec_mod]
      · rw [hwl1]
        exact hnd.erase window
  · exact ⟨s, remove_window_absent s app window rs hrs hmem, rfl, inv⟩

theorem run_window_ops_inv (ops : List WindowOp) (s : World) (app : AppPtr)
    (inv : WindowOpsInv s app) (hrem : removes_have_running_state s app ops = true) :
    ∃ s1, run_window_ops s app ops = some s1 ∧ WindowOpsInv s1 app ∧ s1.windows = s.windows := by
  induction ops generalizing s with
  | nil => exact ⟨s, rfl, inv, rfl⟩
  | cons op ops ih =>
    unfold removes_have_running_state at hrem
    rw [Bool.and_eq_true] at hrem
    obtain ⟨hop, hrest⟩ := hrem
    obtain ⟨s1, hs1, inv1, hw1⟩ : ∃ s1, op.apply s app = some s1 ∧ WindowOpsInv s1 app ∧
        s1.windows = s.windows := by
      cases op with
      | add window =>
        obtain ⟨s1, h1, w1, i1⟩ := add_window_inv s app window inv
        exact ⟨s1, h1, i1, w1⟩
      | remove window =>
        obtain ⟨s1, h1, w1, i1⟩ := remove_window_inv s app window inv hop
        exact ⟨s1, h1, i1, w1⟩
    rw [hs1] at hrest
    obtain ⟨s2, hs2, inv2, hw2⟩ := ih s1 inv1 hrest
    refine ⟨s2, ?_, inv2, hw2.trans hw1⟩
    unfold run_window_ops
    rw [hs1]
    exact hs2

theorem remove_window_none (s : World) (app : AppPtr) (window : MetaWindow)
    (h : (s.apps app).running_state = none) :
    _shell_app_remove_window s app window = none := by
  unfold _shell_app_remove_window
  rw [h]

theorem remove_window_last_abort (s : World) (app : AppPtr) (window : MetaWindow)
    (rs : ShellAppRunningState) (h : (s.apps app).running_state = some rs)
    (hmem : window ∈ rs.windows) (href : rs.refcount = 0)
    (hlast : g_slist_remove rs.windows window = []) :
    _shell_app_remove_window s app window = none := by
  unfold _shell_app_remove_window
  rw [h]
  simp only [g_slist_find, hmem, decide_True, Bool.not_true, Bool.false_eq_true, if_false,
    Option.bind_eq_bind]
  cases hi : shell_app_is_interesting_window s window <;>
    simp [hlast, unref_running_state, href]

/-- An operation that returns leaves an application that was not Starting not
Starting, and touches no other application object. -/
theorem add_window_not_starting (s s1 : World) (app : AppPtr) (window : MetaWindow)
    (h : _shell_app_add_window s app window = some s1) (p : AppPtr)
    (hp : (s.apps p).state ≠ SHELL_APP_STATE_STARTING) :
    (s1.apps p).state ≠ SHELL_APP_STATE_STARTING := by
  by_cases hmem : window ∈ window_list (s.apps app)
  · rw [add_window_present s app window hmem] at h
    cases h
    exact hp
  · have hwl : (running_state_or_new (s.apps app)).windows = window_list (s.apps app) := by
      unfold running_state_or_new window_list
      cases (s.apps app).running_state <;> rfl
    obtain ⟨s2, rs2, hs2, -, -, -, -, -, ha2⟩ :=
      add_window_spec s app window (by rw [hwl]; exact hmem)
    rw [h] at hs2
    cases hs2
    rw [ha2]
    by_cases hpa : p = app
    · subst hpa
      simp only [Function.update_same, sync_target]
      split <;> simp_all
    · rw [Function.update_noteq hpa]
      exact hp

theorem remove_window_not_starting (s s1 : World) (app : AppPtr) (window : MetaWindow)
    (h : _shell_app_remove_window s app window = some s1) (p : AppPtr)
    (hp : (s.apps p).state ≠ SHELL_APP_STATE_STARTING) :
    (s1.apps p).state ≠ SHELL_APP_STATE_STARTING := by
  cases hrs : (s.apps app).running_state with
  | none => rw [remove_window_none s app window hrs] at h; cases h
  | some rs =>
    by_cases hmem : window ∈ rs.windows
    · by_cases hlast : g_slist_remove rs.windows window = []
      · by_cases href : rs.refcount = 0
        · rw [remove_window_last_abort s app window rs hrs hmem href hlast] at h; cases h
        · obtain ⟨s2, hs2, -, ha2⟩ := remove_window_last s app window rs hrs hmem href hlast
          rw [h] at hs2
          cases hs2
          rw [ha2]
          by_cases hpa : p = app
          · subst hpa
            simp only [Function.update_same]
            split <;> simp_all
          · rw [Function.update_noteq hpa]
            exact hp
      · obtain ⟨s2, hs2, -, ha2⟩ := remove_window_more s app window rs hrs hmem hlast
        rw [h] at hs2
        cases hs2
        rw [ha2]
        by_cases hpa : p = app
        · subst hpa
          simp only [Function.update_same, sync_target]
          split
          · simp_all
          · split <;> simp
        · rw [Function.update_noteq hpa]
          exact hp
    · rw [remove_window_absent s app window rs hrs hmem] at h
      cases h
      exact hp

theorem skip_taskbar_changed_not_starting (s s1 : World) (app : AppPtr) (window : MetaWindow)
    (h : shell_app_on_skip_taskbar_changed s app window = some s1) (p : AppPtr)
    (hp : (s.apps p).state ≠ SHELL_APP_STATE_STARTING) :
    (s1.apps p).state ≠ SHELL_APP_STATE_STARTING := by
  unfold shell_app_on_skip_taskbar_changed at h
  cases hrs : (s.apps app).running_state with
  | none => rw [hrs] at h; cases h
  | some rs =>
    rw [hrs] at h
    simp only [Option.some.injEq] at h
    rw [← h, sync_apps]
    by_cases hpa : p = app
    · subst hpa
      simp only [World.set_running_state, World.set_app_apps, Function.update_same,
        sync_target]
      split <;> simp_all <;> split <;> simp
    · simp [World.set_running_state, Function.update_noteq hpa, hp]

theorem handle_startup_sequence_from_running (s : World) (app : AppPtr)
    (sequence : SnStartupSequence) (p : AppPtr)
    (hp : (s.apps p).state = SHELL_APP_STATE_RUNNING) :
    ((_shell_app_handle_startup_sequence s app sequence).apps p).state ≠
      SHELL_APP_STATE_STARTING := by
  unfold _shell_app_handle_startup_sequence shell_app_get_state
  by_cases hpa : p = app
  · subst hpa
    cases hc : sequence.completed
    · simp [hp]
    · simp only [Bool.not_true, Bool.false_and, Bool.false_eq_true, if_false, Bool.not_false,
        if_true]
      split <;> simp [transition_apps, transition_target]
  · cases hc : sequence.completed
    · simp only [Bool.not_false, Bool.true_and, decide_eq_true_eq, Bool.not_true,
        Bool.false_eq_true, if_false]
      split
      · simp [transition_apps, Function.update_noteq hpa, hp]
      · simp [hp]
    · simp only [Bool.not_true, Bool.false_and, Bool.false_eq_true, if_false, Bool.not_false,
        if_true]
      split <;> simp [transition_apps, Function.update_noteq hpa, hp]

theorem launch_from_running (s : World) (app : AppPtr) (timestamp : Nat) (workspace : Int)
    (ret : Bool) (r : World × Bool)
    (h : shell_app_launch s app timestamp workspace ret = some r) (p : AppPtr)
    (hp : (s.apps p).state = SHELL_APP_STATE_RUNNING) :
    (r.1.apps p).state ≠ SHELL_APP_STATE_STARTING := by
  unfold shell_app_launch at h
  cases hinfo : (s.apps app).info with
  | none =>
    rw [hinfo] at h
    cases hw : window_backed_app_get_window s app with
    | none => simp [hw] at h
    | some w =>
      simp [hw] at h
      rw [← h]
      simp [hp]
  | some info =>
    rw [hinfo] at h
    simp only [Option.some.injEq] at h
    rw [← h]
    simp only [World.emit_apps]
    by_cases hpa : p = app
    · subst hpa
      simp [hp]
    · split
      · simp [transition_apps, Function.update_noteq hpa, hp]
      · simp [hp]

/-- C2: Running to Starting is not reachable.  For every application object `p`
whose state is Running, no operation on any application `app` (add window, remove
window, skip-taskbar change, startup sequence, launch) that returns leaves `p` in
state Starting; and a direct `shell_app_state_transition` request for Starting on a
Running application only logs the critical message of the failed guard: the state
field, every application object and the registry are as before. -/
theorem running_to_starting_unreachable (s : World) (app p : AppPtr)
    (hp : (s.apps p).state = SHELL_APP_STATE_RUNNING) :
    (∀ op s1, EntityOp.apply s app op = some s1 →
      (s1.apps p).state ≠ SHELL_APP_STATE_STARTING) ∧
    shell_app_state_transition s p SHELL_APP_STATE_STARTING =
      s.emit (Event.g_critical "shell_app_state_transition") ∧
    ((shell_app_state_transition s p SHELL_APP_STATE_STARTING).apps p).state =
      SHELL_APP_STATE_RUNNING ∧
    (shell_app_state_transition s p SHELL_APP_STATE_STARTING).system = s.system := by
  have hns : (s.apps p).state ≠ SHELL_APP_STATE_STARTING := by rw [hp]; simp
  have htr : shell_app_state_transition s p SHELL_APP_STATE_STARTING =
      s.emit (Event.g_critical "shell_app_state_transition") := by
    unfold shell_app_state_transition
    simp [hp]
  refine ⟨?_, htr, by rw [htr]; exact hp, by rw [htr]; rfl⟩
  intro op s1 h
  cases op with
  | add_window window => exact add_window_not_starting s s1 app window h p hns
  | remove_window window => exact remove_window_not_starting s s1 app window h p hns
  | skip_taskbar_changed window =>
    exact skip_taskbar_changed_not_starting s s1 app window h p hns
  | handle_startup_sequence sequence =>
    simp only [EntityOp.apply, Option.some.injEq] at h
    rw [← h]
    exact handle_startup_sequence_from_running s app sequence p hp
  | launch timestamp workspace ret =>
    simp only [EntityOp.apply, Option.map_eq_some'] at h
    obtain ⟨r, hr, hr1⟩ := h
    rw [← hr1]
    exact launch_from_running s app timestamp workspace ret r hr p hp

/-- Witness of C2: the application at address 0 is Running with windows 1 and 3. -/
theorem running_to_starting_unreachable_witness :
    ((example_world_with SHELL_APP_STATE_RUNNING [1, 3]).apps 0).state =
        SHELL_APP_STATE_RUNNING ∧
    ((∀ op s1, EntityOp.apply (example_world_with SHELL_APP_STATE_RUNNING [1, 3]) 0 op =
        some s1 → (s1.apps 0).state ≠ SHELL_APP_STATE_STARTING) ∧
    shell_app_state_transition (example_world_with SHELL_APP_STATE_RUNNING [1, 3]) 0
        SHELL_APP_STATE_STARTING =
      (example_world_with SHELL_APP_STATE_RUNNING [1, 3]).emit
        (Event.g_critical "shell_app_state_transition") ∧
    ((shell_app_state_transition (example_world_with SHELL_APP_STATE_RUNNING [1, 3]) 0
        SHELL_APP_STATE_STARTING).apps 0).state = SHELL_APP_STATE_RUNNING ∧
    (shell_app_state_transition (example_world_with SHELL_APP_STATE_RUNNING [1, 3]) 0
        SHELL_APP_STATE_STARTING).system =
      (example_world_with SHELL_APP_STATE_RUNNING [1, 3]).system) :=
  ⟨by decide,
    running_to_starting_unreachable (example_world_with SHELL_APP_STATE_RUNNING [1, 3]) 0 0
      (by decide)⟩

/-- C3: for an application in state Starting whose window list is exactly `[w]` (its
running state being live, that is with a positive reference count),
`_shell_app_remove_window` of `w` returns, leaves the state Starting, the window set
empty and the running state absent; the registry is untouched and the only events
are the windows-changed signal and possibly the cancellation of the busy-watch
request (no state notification, no registry signal). -/
theorem remove_last_window_while_starting (s : World) (app : AppPtr) (w : MetaWindow)
    (rs : ShellAppRunningState)
    (hstate : (s.apps app).state = SHELL_APP_STATE_STARTING)
    (hrs : (s.apps app).running_state = some rs)
    (hwin : rs.windows = [w])
    (href : rs.refcount ≠ 0) :
    ∃ s1, _shell_app_remove_window s app w = some s1 ∧
      (s1.apps app).state = SHELL_APP_STATE_STARTING ∧
      (s1.apps app).running_state = none ∧
      window_list (s1.apps app) = [] ∧
      s1.system = s.system ∧
      ∃ evs, s1.log = evs ++ s.log ∧
        ∀ e ∈ evs, e = Event.windows_changed app ∨ e = Event.g_cancellable_cancel := by
  have hlast : g_slist_remove rs.windows w = [] := by simp [g_slist_remove, hwin]
  have hmem : w ∈ rs.windows := by simp [hwin]
  unfold _shell_app_remove_window
  rw [hrs]
  simp only [g_slist_find, hmem, decide_True, Bool.not_true, Bool.false_eq_true, if_false,
    Option.bind_eq_bind]
  cases hi : shell_app_is_interesting_window s w <;>
    simp only [hlast, if_true, if_false, Bool.false_eq_true, unref_running_state, href] <;>
    split <;> try split
  all_goals
    simp only [Option.some_bind, World.set_running_state, World.set_app_apps, World.emit_apps,
      Function.update_same, Function.update_idem, hstate, ne_eq, not_true_eq_false, if_false]
    refine ⟨_, rfl, ?_, ?_, ?_, ?_, ?_⟩
    · simp [hstate]
    · simp
    · simp [window_list]
    · rfl
  · exact ⟨[Event.windows_changed app], rfl, by simp⟩
  · exact ⟨[Event.windows_changed app, Event.g_cancellable_cancel], rfl, by simp⟩
  · exact ⟨[Event.windows_changed app], rfl, by simp⟩
  · exact ⟨[Event.windows_changed app], rfl, by simp⟩
  · exact ⟨[Event.windows_changed app, Event.g_cancellable_cancel], rfl, by simp⟩
  · exact ⟨[Event.windows_changed app], rfl, by simp⟩

/-- Witness of C3: the application at address 0 is Starting with the single
window 1. -/
theorem remove_last_window_while_starting_witness :
    (((example_world_with SHELL_APP_STATE_STARTING [1]).apps 0).state =
        SHELL_APP_STATE_STARTING ∧
      ((example_world_with SHELL_APP_STATE_STARTING [1]).apps 0).running_state =
        some { new_running_state with windows := [1], interesting_windows := 1 }) ∧
    ∃ s1, _shell_app_remove_window (example_world_with SHELL_APP_STATE_STARTING [1]) 0 1 =
        some s1 ∧
      (s1.apps 0).state = SHELL_APP_STATE_STARTING ∧
      (s1.apps 0).running_state = none ∧
      window_list (s1.apps 0) = [] ∧
      s1.system = (example_world_with SHELL_APP_STATE_STARTING [1]).system ∧
      ∃ evs, s1.log = evs ++ (example_world_with SHELL_APP_STATE_STARTING [1]).log ∧
        ∀ e ∈ evs, e = Event.windows_changed 0 ∨ e = Event.g_cancellable_cancel :=
  ⟨⟨by decide, by decide⟩,
    remove_last_window_while_starting (example_world_with SHELL_APP_STATE_STARTING [1]) 0 1
      { new_running_state with windows := [1], interesting_windows := 1 }
      (by decide) (by decide) rfl (by decide)⟩

/-- C4: for an application in state Starting, `_shell_app_handle_startup_sequence`
with a completed sequence sets the state to Running when the application has at
least one window and to Stopped when it has none. -/
theorem completed_sequence_while_starting (s : World) (app : AppPtr)
    (sequence : SnStartupSequence)
    (hstate : (s.apps app).state = SHELL_APP_STATE_STARTING)
    (hcompleted : sequence.completed = true) :
    (window_list (s.apps app) ≠ [] →
      ((_shell_app_handle_startup_sequence s app sequence).apps app).state =
        SHELL_APP_STATE_RUNNING) ∧
    (window_list (s.apps app) = [] →
      ((_shell_app_handle_startup_sequence s app sequence).apps app).state =
        SHELL_APP_STATE_STOPPED) := by
  unfold _shell_app_handle_startup_sequence window_list
  simp only [hcompleted, Bool.not_true, Bool.false_and, Bool.false_eq_true, if_false,
    Bool.not_false, if_true]
  cases hrs : (s.apps app).running_state with
  | none => simp [transition_apps, transition_target, hstate]
  | some rs =>
    by_cases hw : rs.windows = []
    · simp [hw, transition_apps, transition_target, hstate]
    · simp [hw, transition_apps, transition_target, hstate]

/-- Witness of C4: the application at address 0 is Starting with window 1, the
sequence is completed. -/
theorem completed_sequence_while_starting_witness :
    (((example_world_with SHELL_APP_STATE_STARTING [1]).apps 0).state =
        SHELL_APP_STATE_STARTING ∧
      ({ completed := true, timestamp := 7, workspace := 2 } : SnStartupSequence).completed =
        true) ∧
    ((window_list ((example_world_with SHELL_APP_STATE_STARTING [1]).apps 0) ≠ [] →
      ((_shell_app_handle_startup_sequence (example_world_with SHELL_APP_STATE_STARTING [1]) 0
        { completed := true, timestamp := 7, workspace := 2 }).apps 0).state =
        SHELL_APP_STATE_RUNNING) ∧
    (window_list ((example_world_with SHELL_APP_STATE_STARTING [1]).apps 0) = [] →
      ((_shell_app_handle_startup_sequence (example_world_with SHELL_APP_STATE_STARTING [1]) 0
        { completed := true, timestamp := 7, workspace := 2 }).apps 0).state =
        SHELL_APP_STATE_STOPPED)) :=
  ⟨⟨by decide, rfl⟩,
    completed_sequence_while_starting (example_world_with SHELL_APP_STATE_STARTING [1]) 0
      { completed := true, timestamp := 7, workspace := 2 } (by decide) rfl⟩

/-- C5: `_shell_app_handle_startup_sequence` with a sequence that is not yet
completed moves a Stopped application to Starting and stores the workspace of the
sequence in `started_on_workspace`; for an application that is Starting or Running
the call changes nothing at all. -/
theorem starting_sequence (s : World) (app : AppPtr) (sequence : SnStartupSequence)
    (hcompleted : sequence.completed = false) :
    ((s.apps app).state = SHELL_APP_STATE_STOPPED →
      ((_shell_app_handle_startup_sequence s app sequence).apps app).state =
          SHELL_APP_STATE_STARTING ∧
        ((_shell_app_handle_startup_sequence s app sequence).apps app).started_on_workspace =
          sequence.workspace) ∧
    ((s.apps app).state ≠ SHELL_APP_STATE_STOPPED →
      _shell_app_handle_startup_sequence s app sequence = s) := by
  unfold _shell_app_handle_startup_sequence shell_app_get_state
  simp only [hcompleted, Bool.not_false, Bool.true_and, decide_eq_true_eq, Bool.not_true,
    Bool.false_eq_true, if_false]
  constructor
  · intro hst
    simp [hst, transition_apps, transition_target]
  · intro hst
    simp [hst]

/-- Witness of C5: a sequence for workspace 2 that is not completed, on the Stopped
application at address 0 of the example world. -/
theorem starting_sequence_witness :
    ({ completed := false, timestamp := 7, workspace := 2 } : SnStartupSequence).completed =
      false ∧
    (((example_world.apps 0).state = SHELL_APP_STATE_STOPPED →
      ((_shell_app_handle_startup_sequence example_world 0
          { completed := false, timestamp := 7, workspace := 2 }).apps 0).state =
          SHELL_APP_STATE_STARTING ∧
        ((_shell_app_handle_startup_sequence example_world 0
          { completed := false, timestamp := 7, workspace := 2 }).apps 0).started_on_workspace =
          ({ completed := false, timestamp := 7, workspace := 2 } :
            SnStartupSequence).workspace) ∧
    ((example_world.apps 0).state ≠ SHELL_APP_STATE_STOPPED →
      _shell_app_handle_startup_sequence example_world 0
        { completed := false, timestamp := 7, workspace := 2 } = example_world)) :=
  ⟨rfl, starting_sequence example_world 0
    { completed := false, timestamp := 7, workspace := 2 } rfl⟩

theorem g_hash_table_remove_absent {K V : Type} [DecidableEq K] (t : GHashTable K V) (key : K)
    (h : g_hash_table_lookup t key = none) : (g_hash_table_remove t key).1 = t := by
  induction t with
  | nil => rfl
  | cons e rest ih =>
    obtain ⟨k, v⟩ := e
    unfold g_hash_table_lookup at h
    by_cases hk : k = key
    · simp [hk] at h
    · simp only [hk, if_false] at h
      have ih1 := ih h
      simp only [g_hash_table_remove] at ih1 ⊢
      rw [List.filter_cons]
      simp only [ne_eq, hk, not_false_eq_true, decide_True, if_true]
      rw [ih1]

theorem g_desktop_app_info_new_id (s : World) (desktop_id : String) (info : GDesktopAppInfo)
    (h : g_desktop_app_info_new s desktop_id = some info) : info.desktop_id = desktop_id := by
  unfold g_desktop_app_info_new at h
  simpa using List.find?_some h

theorem lookup_app_cached (s : World) (id : String) (app : AppPtr)
    (h : g_hash_table_lookup s.system.id_to_app id = some app) :
    shell_app_system_lookup_app s id = some (s, some app) := by
  unfold shell_app_system_lookup_app
  rw [h]

theorem lookup_app_missing (s : World) (id : String)
    (h : g_hash_table_lookup s.system.id_to_app id = none)
    (hinfo : g_desktop_app_info_new s id = none) :
    shell_app_system_lookup_app s id = some (s, none) := by
  unfold shell_app_system_lookup_app
  rw [h, hinfo]

theorem lookup_app_created (s : World) (id : String) (info : GDesktopAppInfo)
    (h : g_hash_table_lookup s.system.id_to_app id = none)
    (hinfo : g_desktop_app_info_new s id = some info) :
    ∃ s1, shell_app_system_lookup_app s id = some (s1, some s.next_app) ∧
      (s1.apps s.next_app).state = SHELL_APP_STATE_STOPPED ∧
      (s1.apps s.next_app).info = some info ∧
      (s1.apps s.next_app).running_state = none ∧
      g_hash_table_lookup s.system.id_to_app info.desktop_id = none ∧
      s1.system.id_to_app = (info.desktop_id, s.next_app) :: s.system.id_to_app ∧
      s1.system.running_apps = s.system.running_apps ∧
      s1.system.starting_apps = s.system.starting_apps ∧
      s1.system.startup_wm_class_to_id = s.system.startup_wm_class_to_id ∧
      s1.next_app = s.next_app + 1 ∧
      (∀ p, p ≠ s.next_app → s1.apps p = s.apps p) ∧
      s1.log = s.log := by
  have hid := g_desktop_app_info_new_id s id info hinfo
  have hkey : g_hash_table_lookup s.system.id_to_app info.desktop_id = none := by
    rw [hid]; exact h
  unfold shell_app_system_lookup_app
  rw [h, hinfo]
  simp only [_shell_app_new, _shell_app_set_app_info, shell_app_get_id, World.set_app_apps,
    Function.update_same, World.set_app_system]
  refine ⟨_, rfl, ?_, ?_, ?_, hkey, ?_, rfl, rfl, rfl, rfl, ?_, rfl⟩
  · simp [shell_app_init]
  · simp
  · simp [shell_app_init]
  · simp only [g_hash_table_insert, World.set_app_system]
    rw [g_hash_table_remove_absent _ _ hkey]
  · intro p hp
    simp [Function.update_noteq hp]

theorem lookup_app_total (s : World) (id : String) :
    ∃ r, shell_app_system_lookup_app s id = some r := by
  cases h : g_hash_table_lookup s.system.id_to_app id with
  | some app => exact ⟨_, lookup_app_cached s id app h⟩
  | none =>
    cases hinfo : g_desktop_app_info_new s id with
    | none => exact ⟨_, lookup_app_missing s id h hinfo⟩
    | some info =>
      obtain ⟨s1, h1, -⟩ := lookup_app_created s id info h hinfo
      exact ⟨_, h1⟩

theorem lookup_app_not_found_world (s s1 : World) (id : String)
    (h : shell_app_system_lookup_app s id = some (s1, none)) : s1 = s := by
  cases hl : g_hash_table_lookup s.system.id_to_app id with
  | some app =>
    rw [lookup_app_cached s id app hl] at h
    simp at h
  | none =>
    cases hinfo : g_desktop_app_info_new s id with
    | none =>
      rw [lookup_app_missing s id hl hinfo] at h
      simp at h
      exact h.symm
    | some info =>
      obtain ⟨s2, h2, -⟩ := lookup_app_created s id info hl hinfo
      rw [h2] at h
      simp at h

/-- C6: `shell_app_system_lookup_app` never aborts.  When `id` is a key of `id_to_app`
it returns the cached application and the world is unchanged.  Otherwise, when the
application database resolves `id` to a descriptor, it returns a new application
object (at the next free address) which is Stopped, carries that descriptor and has
no running state; `id_to_app` is the old table plus the one entry that maps the
descriptor's id (a key the table did not have) to the new object, the other tables
of the registry and all other application objects are unchanged.  Otherwise it
returns not-found and the world is unchanged. -/
theorem lookup_app_spec (s : World) (id : String) :
    (∃ r, shell_app_system_lookup_app s id = some r) ∧
    (∀ app, g_hash_table_lookup s.system.id_to_app id = some app →
      shell_app_system_lookup_app s id = some (s, some app)) ∧
    (∀ info, g_hash_table_lookup s.system.id_to_app id = none →
      g_desktop_app_info_new s id = some info →
      ∃ s1, shell_app_system_lookup_app s id = some (s1, some s.next_app) ∧
        (s1.apps s.next_app).state = SHELL_APP_STATE_STOPPED ∧
        (s1.apps s.next_app).info = some info ∧
        (s1.apps s.next_app).running_state = none ∧
        g_hash_table_lookup s.system.id_to_app info.desktop_id = none ∧
        s1.system.id_to_app = (info.desktop_id, s.next_app) :: s.system.id_to_app ∧
        s1.system.running_apps = s.system.running_apps ∧
        s1.system.starting_apps = s.system.starting_apps ∧
        s1.system.startup_wm_class_to_id = s.system.startup_wm_class_to_id ∧
        s1.next_app = s.next_app + 1 ∧
        (∀ p, p ≠ s.next_app → s1.apps p = s.apps p) ∧
        s1.log = s.log) ∧
    (g_hash_table_lookup s.system.id_to_app id = none →
      g_desktop_app_info_new s id = none →
      shell_app_system_lookup_app s id = some (s, none)) :=
  ⟨lookup_app_total s id, lookup_app_cached s id, lookup_app_created s id,
    lookup_app_missing s id⟩

/-- Witness of C6: on the example world the lookup of "fedora-foo" creates the
application at address 0 and caches it. -/
theorem lookup_app_spec_witness :
    (g_hash_table_lookup example_world.system.id_to_app "fedora-foo" = none ∧
      g_desktop_app_info_new example_world "fedora-foo" =
        some { desktop_id := "fedora-foo", name := "Foo", startup_wm_class := none }) ∧
    ∃ s1, shell_app_system_lookup_app example_world "fedora-foo" = some (s1, some 0) ∧
      (s1.apps 0).state = SHELL_APP_STATE_STOPPED ∧
      s1.system.id_to_app = [("fedora-foo", 0)] ∧
      shell_app_system_lookup_app s1 "fedora-foo" = some (s1, some 0) := by
  refine ⟨⟨by decide, by decide⟩, ?_⟩
  obtain ⟨s1, h1, hst, -, -, -, htab, -⟩ :=
    (lookup_app_spec example_world "fedora-foo").2.2.1
      { desktop_id := "fedora-foo", name := "Foo", startup_wm_class := none }
      (by decide) (by decide)
  refine ⟨s1, h1, hst, htab, ?_⟩
  exact (lookup_app_spec s1 "fedora-foo").2.1 0 (by rw [htab]; decide)

theorem lookup_vendor_prefixes_skip (s : World) (name : String) (pre rest : List String)
    (h : ∀ q ∈ pre, shell_app_system_lookup_app s (q ++ name) = some (s, none)) :
    lookup_vendor_prefixes s name (pre ++ rest) = lookup_vendor_prefixes s name rest := by
  induction pre with
  | nil => rfl
  | cons q qs ih =>
    have hq := h q (List.mem_cons_self q qs)
    simp only [List.cons_append, lookup_vendor_prefixes, hq]
    exact ih (fun r hr => h r (List.mem_cons_of_mem q hr))

theorem lookup_vendor_prefixes_not_found (s s1 : World) (name : String) (ps : List String) :
    lookup_vendor_prefixes s name ps = some (s1, none) ↔
      s1 = s ∧ ∀ p ∈ ps, shell_app_system_lookup_app s (p ++ name) = some (s, none) := by
  induction ps with
  | nil => simp [lookup_vendor_prefixes, eq_comm]
  | cons p ps ih =>
    obtain ⟨r, hr⟩ := lookup_app_total s (p ++ name)
    obtain ⟨s2, res⟩ := r
    cases res with
    | some app =>
      simp [lookup_vendor_prefixes, hr]
    | none =>
      have hs2 := lookup_app_not_found_world s s2 _ hr
      subst hs2
      simp [lookup_vendor_prefixes, hr, ih]

theorem lookup_heuristic_basename_total (s : World) (name : String) :
    ∃ r, shell_app_system_lookup_heuristic_basename s name = some r := by
  obtain ⟨r, hr⟩ := lookup_app_total s name
  obtain ⟨s2, res⟩ := r
  cases res with
  | some app =>
    exact ⟨(s2, some app), by simp [shell_app_system_lookup_heuristic_basename, hr]⟩
  | none =>
    have hs2 := lookup_app_not_found_world s s2 _ hr
    subst hs2
    simp only [shell_app_system_lookup_heuristic_basename, hr]
    generalize vendor_prefixes = ps
    induction ps with
    | nil => exact ⟨_, rfl⟩
    | cons p ps ih =>
      obtain ⟨r1, hr1⟩ := lookup_app_total s2 (p ++ name)
      obtain ⟨s3, res1⟩ := r1
      cases res1 with
      | some app => exact ⟨(s3, some app), by simp [lookup_vendor_prefixes, hr1]⟩
      | none =>
        have hs3 := lookup_app_not_found_world s2 s3 _ hr1
        subst hs3
        simp only [lookup_vendor_prefixes, hr1]
        exact ih

theorem lookup_heuristic_basename_not_found_world (s s1 : World) (name : String)
    (h : shell_app_system_lookup_heuristic_basename s name = some (s1, none)) : s1 = s := by
  obtain ⟨r, hr⟩ := lookup_app_total s name
  obtain ⟨s2, res⟩ := r
  cases res with
  | some app => simp [shell_app_system_lookup_heuristic_basename, hr] at h
  | none =>
    have hs2 := lookup_app_not_found_world s s2 _ hr
    subst hs2
    simp only [shell_app_system_lookup_heuristic_basename, hr] at h
    exact ((lookup_vendor_prefixes_not_found s2 s1 name vendor_prefixes).mp h).1

theorem lookup_app_miss (s : World) (id : String) (info : GDesktopAppInfo)
    (hdb : s.desktop_files = [info]) (hcache : s.system.id_to_app = [])
    (hid : info.desktop_id ≠ id) :
    shell_app_system_lookup_app s id = some (s, none) := by
  apply lookup_app_missing s id
  · rw [hcache]; rfl
  · simp [g_desktop_app_info_new, hdb, hid]

/-- C7: `shell_app_system_lookup_heuristic_basename` never aborts; it returns what
`shell_app_system_lookup_app` returns for `name` when that lookup succeeds; when it
fails, it returns what the lookup of `p ++ name` returns for the first `p` of
"gnome-", "fedora-", "mozilla-", "debian-" (in this order) for which that lookup
succeeds; it returns not-found iff the lookup fails for `name` and for the four
prefixed names.  In a world whose database holds only the descriptor "fedora-foo"
(and whose cache is empty) the name "foo" yields the new application of that
descriptor. -/
theorem lookup_heuristic_basename_spec (s : World) (name : String) :
    (∃ r, shell_app_system_lookup_heuristic_basename s name = some r) ∧
    (∀ s1 app, shell_app_system_lookup_app s name = some (s1, some app) →
      shell_app_system_lookup_heuristic_basename s name = some (s1, some app)) ∧
    vendor_prefixes = ["gnome-", "fedora-", "mozilla-", "debian-"] ∧
    (∀ pre p post s1 app, vendor_prefixes = pre ++ p :: post →
      shell_app_system_lookup_app s name = some (s, none) →
      (∀ q ∈ pre, shell_app_system_lookup_app s (q ++ name) = some (s, none)) →
      shell_app_system_lookup_app s (p ++ name) = some (s1, some app) →
      shell_app_system_lookup_heuristic_basename s name = some (s1, some app)) ∧
    ((∃ s1, shell_app_system_lookup_heuristic_basename s name = some (s1, none)) ↔
      (shell_app_system_lookup_app s name = some (s, none) ∧
        ∀ p ∈ vendor_prefixes, shell_app_system_lookup_app s (p ++ name) = some (s, none))) ∧
    (∀ info, s.desktop_files = [info] → info.desktop_id = "fedora-foo" →
      s.system.id_to_app = [] → name = "foo" →
      ∃ s1, shell_app_system_lookup_heuristic_basename s name = some (s1, some s.next_app) ∧
        (s1.apps s.next_app).info = some info) := by
  have hfirst : ∀ s1 app, shell_app_system_lookup_app s name = some (s1, some app) →
      shell_app_system_lookup_heuristic_basename s name = some (s1, some app) := by
    intro s1 app h
    simp [shell_app_system_lookup_heuristic_basename, h]
  have hlater : ∀ pre p post s1 app, vendor_prefixes = pre ++ p :: post →
      shell_app_system_lookup_app s name = some (s, none) →
      (∀ q ∈ pre, shell_app_system_lookup_app s (q ++ name) = some (s, none)) →
      shell_app_system_lookup_app s (p ++ name) = some (s1, some app) →
      shell_app_system_lookup_heuristic_basename s name = some (s1, some app) := by
    intro pre p post s1 app hvp hname hpre hp
    simp only [shell_app_system_lookup_heuristic_basename, hname, hvp]
    rw [lookup_vendor_prefixes_skip s name pre (p :: post) hpre]
    simp [lookup_vendor_prefixes, hp]
  refine ⟨lookup_heuristic_basename_total s name, hfirst, rfl, hlater, ?_, ?_⟩
  · obtain ⟨r, hr⟩ := lookup_app_total s name
    obtain ⟨s2, res⟩ := r
    cases res with
    | some app =>
      simp [shell_app_system_lookup_heuristic_basename, hr]
    | none =>
      have hs2 := lookup_app_not_found_world s s2 _ hr
      subst hs2
      simp only [shell_app_system_lookup_heuristic_basename, hr,
        lookup_vendor_prefixes_not_found, true_and]
      constructor
      · rintro ⟨s1, -, h⟩
        exact h
      · intro h
        exact ⟨s2, rfl, h⟩
  · intro info hdb hid hcache hname
    subst hname
    have hinfo : g_desktop_app_info_new s ("fedora-" ++ "foo") = some info := by
      simp [g_desktop_app_info_new, hdb, hid]
    obtain ⟨s1, h1, -, hi1, -⟩ := lookup_app_created s ("fedora-" ++ "foo") info
      (by rw [hcache]; rfl) hinfo
    refine ⟨s1, ?_, hi1⟩
    apply hlater ["gnome-"] "fedora-" ["mozilla-", "debian-"] s1 s.next_app rfl
    · exact lookup_app_miss s _ info hdb hcache (by rw [hid]; decide)
    · intro q hq
      simp only [List.mem_singleton] at hq
      subst hq
      exact lookup_app_miss s _ info hdb hcache (by rw [hid]; decide)
    · exact h1

/-- Witness of C7: on the example world, whose database holds only "fedora-foo", the
name "foo" yields the application created for "fedora-foo" and the name "bar" is
not found. -/
theorem lookup_heuristic_basename_spec_witness :
    (example_world.desktop_files =
        [{ desktop_id := "fedora-foo", name := "Foo", startup_wm_class := none }] ∧
      example_world.system.id_to_app = []) ∧
    (∃ s1, shell_app_system_lookup_heuristic_basename example_world "foo" =
        some (s1, some 0) ∧
      (s1.apps 0).info =
        some { desktop_id := "fedora-foo", name := "Foo", startup_wm_class := none }) ∧
    shell_app_system_lookup_heuristic_basename example_world "bar" =
      some (example_world, none) :=
  ⟨⟨rfl, rfl⟩,
    (lookup_heuristic_basename_spec example_world "foo").2.2.2.2.2
      { desktop_id := "fedora-foo", name := "Foo", startup_wm_class := none } rfl rfl rfl rfl,
    rfl⟩

theorem strdelimit_tolower (c : Char) :
    (if g_ascii_tolower c ∈ " ".data then '-' else g_ascii_tolower c) = canonical_char c := by
  unfold g_ascii_tolower canonical_char
  by_cases h : 'A'.toNat ≤ c.toNat ∧ c.toNat ≤ 'Z'.toNat
  · rw [if_pos h, if_pos h]
    obtain ⟨h1, h2⟩ := h
    have h1 : 65 ≤ c.toNat := h1
    have h2 : c.toNat ≤ 90 := h2
    generalize c.toNat = n at h1 h2
    interval_cases n <;> decide
  · rw [if_neg h, if_neg h]
    by_cases hc : c = ' '
    · subst hc; decide
    · rw [if_neg hc, if_neg]
      simpa using hc

/-- C8: `canonicalize_and_sanitize_wmclass` is a function of its argument alone and
equals, for every string, the described canonical form: every ASCII uppercase letter
lowercased, every space replaced by a hyphen, every other character unchanged, and
the result "gimp-2.8" rewritten to "gimp".  "Fedora Eclipse" maps to
"fedora-eclipse" and "GIMP-2.8" to "gimp". -/
theorem canonicalize_and_sanitize_wmclass_spec (wmclass : String) :
    canonicalize_and_sanitize_wmclass wmclass = canonical_wmclass wmclass ∧
    canonicalize_and_sanitize_wmclass "Fedora Eclipse" = "fedora-eclipse" ∧
    canonicalize_and_sanitize_wmclass "GIMP-2.8" = "gimp" := by
  refine ⟨?_, by decide, by decide⟩
  have hmap : g_strdelimit (g_ascii_strdown wmclass) " " '-' =
      String.mk (wmclass.data.map canonical_char) := by
    unfold g_strdelimit g_ascii_strdown
    simp only [List.map_map]
    congr 1
    apply List.map_congr_left
    intro c _
    exact strdelimit_tolower c
  unfold canonicalize_and_sanitize_wmclass canonical_wmclass
  simp only [hmap]

/-- C9: `shell_app_system_lookup_desktop_wmclass` never aborts; for a `NULL` class it
returns not-found and changes nothing; otherwise, when the heuristic lookup of
`wmclass ++ ".desktop"` (the class exactly as given) succeeds, it returns that
result, and only when that lookup fails (which leaves the world unchanged) it
returns the result of the heuristic lookup of the canonicalized class followed by
".desktop". -/
theorem lookup_desktop_wmclass_spec (s : World) :
    (∀ wmclass, ∃ r, shell_app_system_lookup_desktop_wmclass s wmclass = some r) ∧
    shell_app_system_lookup_desktop_wmclass s none = some (s, none) ∧
    (∀ wmclass s1 app,
      shell_app_system_lookup_heuristic_basename s (wmclass ++ ".desktop") =
        some (s1, some app) →
      shell_app_system_lookup_desktop_wmclass s (some wmclass) = some (s1, some app)) ∧
    (∀ wmclass s1,
      shell_app_system_lookup_heuristic_basename s (wmclass ++ ".desktop") = some (s1, none) →
      s1 = s ∧
      shell_app_system_lookup_desktop_wmclass s (some wmclass) =
        shell_app_system_lookup_heuristic_basename s
          (canonicalize_and_sanitize_wmclass wmclass ++ ".desktop")) := by
  have h3 : ∀ wmclass s1 app,
      shell_app_system_lookup_heuristic_basename s (wmclass ++ ".desktop") =
        some (s1, some app) →
      shell_app_system_lookup_desktop_wmclass s (some wmclass) = some (s1, some app) := by
    intro wmclass s1 app h
    simp [shell_app_system_lookup_desktop_wmclass, h]
  have h4 : ∀ wmclass s1,
      shell_app_system_lookup_heuristic_basename s (wmclass ++ ".desktop") = some (s1, none) →
      s1 = s ∧
      shell_app_system_lookup_desktop_wmclass s (some wmclass) =
        shell_app_system_lookup_heuristic_basename s
          (canonicalize_and_sanitize_wmclass wmclass ++ ".desktop") := by
    intro wmclass s1 h
    have hs1 := lookup_heuristic_basename_not_found_world s s1 _ h
    subst hs1
    exact ⟨rfl, by simp [shell_app_system_lookup_desktop_wmclass, h]⟩
  refine ⟨?_, rfl, h3, h4⟩
  intro wmclass
  cases wmclass with
  | none => exact ⟨_, rfl⟩
  | some w =>
    obtain ⟨r, hr⟩ := lookup_heuristic_basename_total s (w ++ ".desktop")
    obtain ⟨s1, res⟩ := r
    cases res with
    | some app => exact ⟨_, h3 w s1 app hr⟩
    | none =>
      obtain ⟨-, h⟩ := h4 w s1 hr
      rw [h]
      exact lookup_heuristic_basename_total s _

/-- Witness of C9: with the desktop files "gimp.desktop", "fedora-eclipse.desktop" and
"org.example.Foo.desktop" installed, the class "org.example.Foo" is found in phase 1
and the class "GIMP-2.8" only in phase 2. -/
theorem lookup_desktop_wmclass_spec_witness :
    (shell_app_system_lookup_heuristic_basename example_world_desktop
        ("GIMP-2.8" ++ ".desktop") = some (example_world_desktop, none) ∧
      (shell_app_system_lookup_heuristic_basename example_world_desktop
        ("org.example.Foo" ++ ".desktop")).map (fun r => r.2) = some (some 0)) ∧
    (shell_app_system_lookup_desktop_wmclass example_world_desktop (some "GIMP-2.8") =
        shell_app_system_lookup_heuristic_basename example_world_desktop
          (canonicalize_and_sanitize_wmclass "GIMP-2.8" ++ ".desktop") ∧
      (shell_app_system_lookup_desktop_wmclass example_world_desktop
        (some "GIMP-2.8")).map (fun r => (r.1.system.id_to_app, r.2)) =
          some ([("gimp.desktop", 0)], some 0) ∧
      (shell_app_system_lookup_desktop_wmclass example_world_desktop
        (some "org.example.Foo")).map (fun r => (r.1.system.id_to_app, r.2)) =
          some ([("org.example.Foo.desktop", 0)], some 0)) :=
  ⟨⟨rfl, by decide⟩,
    ((lookup_desktop_wmclass_spec example_world_desktop).2.2.2 "GIMP-2.8"
      example_world_desktop rfl).2,
    by decide, by decide⟩

/-- C10: `shell_app_system_lookup_startup_wmclass` returns not-found and leaves the
world as it is when the class is `NULL` or is not a key of `startup_wm_class_to_id`;
when the index maps the class to `id`, the call is `shell_app_system_lookup_app` of
`id`: same result, same world afterwards. -/
theorem lookup_startup_wmclass_spec (s : World) :
    shell_app_system_lookup_startup_wmclass s none = some (s, none) ∧
    (∀ wmclass, g_hash_table_lookup s.system.startup_wm_class_to_id wmclass = none →
      shell_app_system_lookup_startup_wmclass s (some wmclass) = some (s, none)) ∧
    (∀ wmclass id, g_hash_table_lookup s.system.startup_wm_class_to_id wmclass = some id →
      shell_app_system_lookup_startup_wmclass s (some wmclass) =
        shell_app_system_lookup_app s id) := by
  refine ⟨rfl, ?_, ?_⟩
  · intro wmclass h
    simp [shell_app_system_lookup_startup_wmclass, h]
  · intro wmclass id h
    simp [shell_app_system_lookup_startup_wmclass, h]

/-- Witness of C10: the index of the example maps "Gimp" to "gimp.desktop" and has no
entry for "Foo". -/
theorem lookup_startup_wmclass_spec_witness :
    (g_hash_table_lookup example_world_desktop.system.startup_wm_class_to_id "Gimp" =
        some "gimp.desktop" ∧
      g_hash_table_lookup example_world_desktop.system.startup_wm_class_to_id "Foo" = none) ∧
    shell_app_system_lookup_startup_wmclass example_world_desktop (some "Gimp") =
      shell_app_system_lookup_app example_world_desktop "gimp.desktop" ∧
    (shell_app_system_lookup_startup_wmclass example_world_desktop (some "Gimp")).map
      (fun r => (r.1.system.id_to_app, r.2)) = some ([("gimp.desktop", 0)], some 0) ∧
    shell_app_system_lookup_startup_wmclass example_world_desktop (some "Foo") =
      some (example_world_desktop, none) :=
  ⟨⟨by decide, by decide⟩,
    (lookup_startup_wmclass_spec example_world_desktop).2.2 "Gimp" "gimp.desktop" (by decide),
    by decide,
    (lookup_startup_wmclass_spec example_world_desktop).2.1 "Foo" (by decide)⟩

/-- C13: `shell_app_compare` answers -1 when the first application is Running and
the second is not, 1 when the second is Running and the first is not, and 0 when
both are in the same state other than Running; for two Running applications (whose
running state is therefore present) the one with at least one window compares
before (-1) the one with none, and after (1) with the arguments exchanged. -/
theorem shell_app_compare_by_state (s : World) (a b : AppPtr) :
    ((s.apps a).state = SHELL_APP_STATE_RUNNING → (s.apps b).state ≠ SHELL_APP_STATE_RUNNING →
      shell_app_compare s a b = some (-1)) ∧
    ((s.apps b).state = SHELL_APP_STATE_RUNNING → (s.apps a).state ≠ SHELL_APP_STATE_RUNNING →
      shell_app_compare s a b = some 1) ∧
    ((s.apps a).state = (s.apps b).state → (s.apps a).state ≠ SHELL_APP_STATE_RUNNING →
      shell_app_compare s a b = some 0) ∧
    (∀ rs_a rs_b, (s.apps a).state = SHELL_APP_STATE_RUNNING →
      (s.apps b).state = SHELL_APP_STATE_RUNNING →
      (s.apps a).running_state = some rs_a → (s.apps b).running_state = some rs_b →
      rs_a.windows ≠ [] → rs_b.windows = [] →
      shell_app_compare s a b = some (-1) ∧ shell_app_compare s b a = some 1) := by
  refine ⟨?_, ?_, ?_, ?_⟩
  · intro ha hb
    have hne : (s.apps a).state ≠ (s.apps b).state := by rw [ha]; exact fun h => hb h.symm
    unfold shell_app_compare
    rw [if_pos hne, if_pos ha]
  · intro hb ha
    have hne : (s.apps a).state ≠ (s.apps b).state := by rw [hb]; exact ha
    unfold shell_app_compare
    rw [if_pos hne, if_neg ha]
  · intro hab ha
    unfold shell_app_compare
    rw [if_neg (not_not.mpr hab), if_neg ha]
  · intro rs_a rs_b ha hb hra hrb hwa hwb
    constructor
    · simp [shell_app_compare, ha, hb, hra, hrb, hwa, hwb]
    · simp [shell_app_compare, ha, hb, hra, hrb, hwa, hwb]

/-- Witness of C13: application 0 is Running with window 11, application 3 is
Stopped, and a Running application with an empty window list is put at address 1. -/
theorem shell_app_compare_by_state_witness :
    shell_app_compare example_world_three_running 0 3 = some (-1) ∧
    shell_app_compare example_world_three_running 3 0 = some 1 ∧
    shell_app_compare example_world_three_running 3 4 = some 0 ∧
    shell_app_compare (example_world_three_running.set_app 1 (example_running_app [])) 0 1 =
      some (-1) ∧
    shell_app_compare (example_world_three_running.set_app 1 (example_running_app [])) 1 0 =
      some 1 :=
  ⟨(shell_app_compare_by_state example_world_three_running 0 3).1 (by decide) (by decide),
    (shell_app_compare_by_state example_world_three_running 3 0).2.1 (by decide) (by decide),
    (shell_app_compare_by_state example_world_three_running 3 4).2.2.1 (by decide) (by decide),
    (shell_app_compare_by_state
      (example_world_three_running.set_app 1 (example_running_app [])) 0 1).2.2.2
      { new_running_state with
        windows := [11], interesting_windows := 1, window_sort_stale := true }
      { new_running_state with
        windows := [], interesting_windows := 0, window_sort_stale := true }
      (by decide) (by decide) (by decide) (by decide) (by decide) (by decide)⟩

theorem add_window_nodup (s s1 : World) (app : AppPtr) (window : MetaWindow)
    (hnd : (window_list (s.apps app)).Nodup)
    (h : _shell_app_add_window s app window = some s1) :
    (window_list (s1.apps app)).Nodup := by
  by_cases hmem : window ∈ window_list (s.apps app)
  · rw [add_window_present s app window hmem] at h
    cases h
    exact hnd
  · have hwl : (running_state_or_new (s.apps app)).windows = window_list (s.apps app) := by
      unfold running_state_or_new window_list
      cases (s.apps app).running_state <;> rfl
    obtain ⟨s2, rs2, hs2, -, hwin, -, -, -, ha2⟩ :=
      add_window_spec s app window (by rw [hwl]; exact hmem)
    rw [h] at hs2
    cases hs2
    have hwl1 : window_list (s1.apps app) = window :: window_list (s.apps app) := by
      rw [ha2]
      simp [window_list, hwin, hwl]
    rw [hwl1]
    exact List.nodup_cons.mpr ⟨hmem, hnd⟩

/-- C17: when the window is already in the window list of the application,
`_shell_app_add_window` returns with the world exactly as it was: window list,
interesting-window counter, stale flag, state, registry and event log (so no
windows-changed signal and no state notification) are unchanged.  Hence a window
list without duplicates stays without duplicates under every `_shell_app_add_window`
that returns. -/
theorem add_window_present_noop (s : World) (app : AppPtr) (window : MetaWindow)
    (h : window ∈ window_list (s.apps app)) :
    _shell_app_add_window s app window = some s ∧
    (∀ w s1, (window_list (s.apps app)).Nodup → _shell_app_add_window s app w = some s1 →
      (window_list (s1.apps app)).Nodup) :=
  ⟨add_window_present s app window h, fun w s1 hnd h1 => add_window_nodup s s1 app w hnd h1⟩

/-- Witness of C17: window 1 is added again to the application at address 0, which
holds windows 1 and 3. -/
theorem add_window_present_noop_witness :
    (1 : MetaWindow) ∈ window_list ((example_world_with SHELL_APP_STATE_RUNNING [1, 3]).apps 0) ∧
    (_shell_app_add_window (example_world_with SHELL_APP_STATE_RUNNING [1, 3]) 0 1 =
        some (example_world_with SHELL_APP_STATE_RUNNING [1, 3]) ∧
      (∀ w s1,
        (window_list ((example_world_with SHELL_APP_STATE_RUNNING [1, 3]).apps 0)).Nodup →
        _shell_app_add_window (example_world_with SHELL_APP_STATE_RUNNING [1, 3]) 0 w =
          some s1 →
        (window_list (s1.apps 0)).Nodup)) :=
  ⟨by decide,
    add_window_present_noop (example_world_with SHELL_APP_STATE_RUNNING [1, 3]) 0 1
      (by decide)⟩

/-- C18, as stated, fails: the application at address 0 of the example world has no
running state and window 1 is not in its (empty) window set, yet
`_shell_app_remove_window` does not complete: its assertion fails. -/
theorem remove_window_without_running_state_aborts :
    (example_world.apps 0).running_state = none ∧
    (1 : MetaWindow) ∉ window_list (example_world.apps 0) ∧
    _shell_app_remove_window example_world 0 1 = none :=
  ⟨rfl, by decide, rfl⟩

/-- C18, amended: for every application that has running state and every window
that is not in its window list, `_shell_app_remove_window` completes and returns the
world exactly as it was (window set, interesting-window counter, state, registry
and event log unchanged); on an application without running state the call fails
the assertion at the head of the function. -/
theorem remove_window_absent_noop (s : World) (app : AppPtr) (window : MetaWindow) :
    (∀ rs, (s.apps app).running_state = some rs → window ∉ rs.windows →
      _shell_app_remove_window s app window = some s) ∧
    ((s.apps app).running_state = none → _shell_app_remove_window s app window = none) :=
  ⟨fun rs hrs hmem => remove_window_absent s app window rs hrs hmem,
    fun h => remove_window_none s app window h⟩

/-- Witness of the amended C18: window 2 is not among the windows 1 and 3 of the
application at address 0. -/
theorem remove_window_absent_noop_witness :
    _shell_app_remove_window (example_world_with SHELL_APP_STATE_RUNNING [1, 3]) 0 2 =
      some (example_world_with SHELL_APP_STATE_RUNNING [1, 3]) :=
  (remove_window_absent_noop (example_world_with SHELL_APP_STATE_RUNNING [1, 3]) 0 2).1
    { new_running_state with windows := [1, 3], interesting_windows := 2 }
    (by decide) (by decide)

theorem launch_from_stopped (s : World) (app : AppPtr) (timestamp : Nat) (workspace : Int)
    (ret : Bool) (info : GDesktopAppInfo)
    (hinfo : (s.apps app).info = some info)
    (hstate : (s.apps app).state = SHELL_APP_STATE_STOPPED) :
    ∃ s1, shell_app_launch s app timestamp workspace ret = some (s1, ret) ∧
      (s1.apps app).state = SHELL_APP_STATE_STARTING ∧
      g_hash_table_contains s1.system.starting_apps app = true := by
  unfold shell_app_launch
  rw [hinfo]
  simp only [hstate, if_true]
  refine ⟨_, rfl, ?_, ?_⟩
  · simp [transition_apps, transition_target, hstate]
  · simp [shell_app_state_transition, hstate, _shell_app_system_notify_app_state_changed,
      g_hash_table_contains, g_hash_table_insert]

/-- C20, as stated, fails: the descriptor-backed application at address 0 is
Stopped, the launch primitive fails, `shell_app_launch` returns `FALSE` and the
application is left in state Starting. -/
theorem launch_failure_leaves_starting :
    (example_world_installed.apps 0).info ≠ none ∧
    (example_world_installed.apps 0).state = SHELL_APP_STATE_STOPPED ∧
    (shell_app_launch example_world_installed 0 5 (-1) false).map
      (fun r => (r.2, (r.1.apps 0).state)) = some (false, SHELL_APP_STATE_STARTING) := by
  decide

/-- C20, amended: when the launch primitive fails for a descriptor-backed
application that was Stopped, `shell_app_launch` returns `FALSE` to its caller; it
does not undo the transition it made before calling the primitive: after the failed
call the application is in state Starting and a member of `starting_apps` (bringing
it back to Stopped is left to the caller). -/
theorem launch_failure_reported (s : World) (app : AppPtr) (timestamp : Nat) (workspace : Int)
    (info : GDesktopAppInfo)
    (hinfo : (s.apps app).info = some info)
    (hstate : (s.apps app).state = SHELL_APP_STATE_STOPPED) :
    ∃ s1, shell_app_launch s app timestamp workspace false = some (s1, false) ∧
      (s1.apps app).state = SHELL_APP_STATE_STARTING ∧
      g_hash_table_contains s1.system.starting_apps app = true :=
  launch_from_stopped s app timestamp workspace false info hinfo hstate

/-- Witness of the amended C20: the failed launch of the example application. -/
theorem launch_failure_reported_witness :
    ((example_world_installed.apps 0).info =
        some { desktop_id := "fedora-foo", name := "Foo", startup_wm_class := none } ∧
      (example_world_installed.apps 0).state = SHELL_APP_STATE_STOPPED) ∧
    ∃ s1, shell_app_launch example_world_installed 0 5 (-1) false = some (s1, false) ∧
      (s1.apps 0).state = SHELL_APP_STATE_STARTING ∧
      g_hash_table_contains s1.system.starting_apps 0 = true :=
  ⟨⟨by decide, by decide⟩,
    launch_failure_reported example_world_installed 0 5 (-1)
      { desktop_id := "fedora-foo", name := "Foo", startup_wm_class := none }
      (by decide) (by decide)⟩

theorem g_hash_table_lookup_remove_ne {K V : Type} [DecidableEq K] (t : GHashTable K V)
    (key k : K) (h : key ≠ k) :
    g_hash_table_lookup (g_hash_table_remove t key).1 k = g_hash_table_lookup t k := by
  induction t with
  | nil => rfl
  | cons e rest ih =>
    obtain ⟨k1, v1⟩ := e
    simp only [g_hash_table_remove] at ih ⊢
    by_cases hk : k1 = key
    · subst hk
      simp only [List.filter_cons, ne_eq, not_true_eq_false, decide_False, Bool.false_eq_true,
        if_false]
      rw [ih]
      simp [g_hash_table_lookup, h]
    · simp only [List.filter_cons, ne_eq, hk, not_false_eq_true, decide_True, if_true]
      unfold g_hash_table_lookup
      rw [ih]

theorem g_hash_table_lookup_insert {K V : Type} [DecidableEq K] (t : GHashTable K V)
    (key k : K) (value : V) :
    g_hash_table_lookup (g_hash_table_insert t key value) k =
      if key = k then some value else g_hash_table_lookup t k := by
  unfold g_hash_table_insert
  rw [g_hash_table_lookup]
  by_cases h : key = k
  · simp [h]
  · simp only [h, if_false]
    exact g_hash_table_lookup_remove_ne t key k h

theorem g_hash_table_contains_iff {K V : Type} [DecidableEq K] (t : GHashTable K V) (k : K) :
    g_hash_table_contains t k = true ↔ g_hash_table_lookup t k ≠ none := by
  induction t with
  | nil => simp [g_hash_table_contains, g_hash_table_lookup]
  | cons e rest ih =>
    obtain ⟨k1, v1⟩ := e
    unfold g_hash_table_lookup
    by_cases hk : k1 = k
    · simp [g_hash_table_contains, hk]
    · simp only [hk, if_false]
      rw [← ih]
      simp [g_hash_table_contains, hk]

theorem scan_step_reflects (table : GHashTable String String) (infos : List GDesktopAppInfo)
    (info : GDesktopAppInfo) (hP : startup_index_reflects table infos) :
    startup_index_reflects (scan_startup_wm_class_step table info) (infos ++ [info]) := by
  intro h
  obtain ⟨h1, h2, h3⟩ := hP h
  unfold scan_startup_wm_class_step
  cases hc : info.startup_wm_class with
  | none =>
    simp only
    refine ⟨?_, ?_, ?_⟩
    · rw [h1]
      constructor
      · intro hall i hi
        rcases List.mem_append.mp hi with hi | hi
        · exact hall i hi
        · simp only [List.mem_singleton] at hi
          subst hi
          rw [hc]; simp
      · intro hall i hi
        exact hall i (List.mem_append_left _ hi)
    · intro id hid
      obtain ⟨i, hi, hh, hd⟩ := h2 id hid
      exact ⟨i, List.mem_append_left _ hi, hh, hd⟩
    · rintro ⟨i, hi, hh, hd⟩
      apply h3
      rcases List.mem_append.mp hi with hi | hi
      · exact ⟨i, hi, hh, hd⟩
      · simp only [List.mem_singleton] at hi
        subst hi
        rw [hc] at hh; cases hh
  | some c =>
    simp only
    by_cases hch : c = h
    · subst hch
      by_cases hcond : g_hash_table_lookup table c = none ∨ info.desktop_id = c
      · rw [if_pos hcond, g_hash_table_lookup_insert]
        simp only [if_true]
        refine ⟨?_, ?_, ?_⟩
        · constructor
          · intro hx; cases hx
          · intro hall
            exact absurd hc (hall info (List.mem_append_right _ (List.mem_singleton_self _)))
        · intro id hid
          cases hid
          exact ⟨info, List.mem_append_right _ (List.mem_singleton_self _), hc, rfl⟩
        · rintro ⟨i, hi, hh, hd⟩
          rcases hcond with hnone | hid
          · rcases List.mem_append.mp hi with hi | hi
            · exact absurd hh (h1.mp hnone i hi)
            · simp only [List.mem_singleton] at hi
              subst hi
              rw [hd]
          · rw [hid]
      · rw [if_neg hcond]
        have hsome : g_hash_table_lookup table c ≠ none := fun hx => hcond (Or.inl hx)
        have hne : info.desktop_id ≠ c := fun hx => hcond (Or.inr hx)
        refine ⟨?_, ?_, ?_⟩
        · constructor
          · intro hx; exact absurd hx hsome
          · intro hall
            exact absurd hc (hall info (List.mem_append_right _ (List.mem_singleton_self _)))
        · intro id hid
          obtain ⟨i, hi, hh, hd⟩ := h2 id hid
          exact ⟨i, List.mem_append_left _ hi, hh, hd⟩
        · rintro ⟨i, hi, hh, hd⟩
          apply h3
          rcases List.mem_append.mp hi with hi | hi
          · exact ⟨i, hi, hh, hd⟩
          · simp only [List.mem_singleton] at hi
            subst hi
            exact absurd hd hne
    · have hkeep : g_hash_table_lookup
          (if g_hash_table_lookup table c = none ∨ info.desktop_id = c then
            g_hash_table_insert table c info.desktop_id else table) h =
          g_hash_table_lookup table h := by
        split
        · rw [g_hash_table_lookup_insert, if_neg hch]
        · rfl
      rw [hkeep]
      have hinfo : info.startup_wm_class ≠ some h := by
        rw [hc]; intro hx; cases hx; exact hch rfl
      refine ⟨?_, ?_, ?_⟩
      · rw [h1]
        constructor
        · intro hall i hi
          rcases List.mem_append.mp hi with hi | hi
          · exact hall i hi
          · simp only [List.mem_singleton] at hi
            subst hi
            exact hinfo
        · intro hall i hi
          exact hall i (List.mem_append_left _ hi)
      · intro id hid
        obtain ⟨i, hi, hh, hd⟩ := h2 id hid
        exact ⟨i, List.mem_append_left _ hi, hh, hd⟩
      · rintro ⟨i, hi, hh, hd⟩
        apply h3
        rcases List.mem_append.mp hi with hi | hi
        · exact ⟨i, hi, hh, hd⟩
        · simp only [List.mem_singleton] at hi
          subst hi
          exact absurd hh hinfo

theorem scan_foldl_reflects (l : List GDesktopAppInfo) (table : GHashTable String String)
    (infos : List GDesktopAppInfo) (hP : startup_index_reflects table infos) :
    startup_index_reflects (l.foldl scan_startup_wm_class_step table) (infos ++ l) := by
  induction l generalizing table infos with
  | nil => simpa using hP
  | cons info rest ih =>
    have h := ih (scan_startup_wm_class_step table info) (infos ++ [info])
      (scan_step_reflects table infos info hP)
    simpa using h

theorem scan_reflects (s : World) :
    startup_index_reflects (scan_startup_wm_class_to_id s).system.startup_wm_class_to_id
      s.desktop_files := by
  have h := scan_foldl_reflects s.desktop_files [] [] (by
    intro h
    simp [g_hash_table_lookup])
  simpa [scan_startup_wm_class_to_id] using h

/-- C15: after `installed_changed` the startup-class index has a key `h` iff some
installed descriptor declares startup class `h`, whatever the index held before; the
value stored for `h` is the id of an installed descriptor declaring `h`; and whenever
an installed descriptor declaring `h` has the id `h`, the value is `h`, also for
every other order of the same descriptors. -/
theorem startup_index_after_reconciliation (s : World) :
    (∀ h, g_hash_table_contains (installed_changed s).system.startup_wm_class_to_id h = true ↔
      ∃ info ∈ s.desktop_files, info.startup_wm_class = some h) ∧
    (∀ old, (installed_changed
        { s with system := { s.system with startup_wm_class_to_id := old } }
        ).system.startup_wm_class_to_id =
      (installed_changed s).system.startup_wm_class_to_id) ∧
    (∀ h id, g_hash_table_lookup (installed_changed s).system.startup_wm_class_to_id h = some id →
      ∃ info ∈ s.desktop_files, info.startup_wm_class = some h ∧ info.desktop_id = id) ∧
    (∀ h, (∃ info ∈ s.desktop_files, info.startup_wm_class = some h ∧ info.desktop_id = h) →
      ∀ s2 : World, s2.desktop_files.Perm s.desktop_files →
      g_hash_table_lookup (installed_changed s2).system.startup_wm_class_to_id h = some h) := by
  have htab : ∀ x : World, (installed_changed x).system.startup_wm_class_to_id =
      (scan_startup_wm_class_to_id x).system.startup_wm_class_to_id := fun _ => rfl
  refine ⟨?_, fun _ => rfl, ?_, ?_⟩
  · intro h
    rw [htab, g_hash_table_contains_iff, ne_eq, ((scan_reflects s) h).1]
    constructor
    · intro hx
      by_contra hcon
      exact hx (fun i hi hh => hcon ⟨i, hi, hh⟩)
    · rintro ⟨i, hi, hh⟩ hall
      exact hall i hi hh
  · intro h id hid
    rw [htab] at hid
    exact ((scan_reflects s) h).2.1 id hid
  · rintro h ⟨i, hi, hh, hd⟩ s2 hperm
    rw [htab]
    exact ((scan_reflects s2) h).2.2 ⟨i, hperm.mem_iff.mpr hi, hh, hd⟩

/-- Witness of C15: the index of the example is rebuilt from its three desktop
files; with two descriptors declaring the class "foo.desktop" the one whose id is the
class wins in both orders. -/
theorem startup_index_after_reconciliation_witness :
    (installed_changed
      { example_world_desktop with
        system := { example_world_desktop.system with
                    startup_wm_class_to_id := [("Old", "old.desktop")] } }
      ).system.startup_wm_class_to_id = [("Gimp", "gimp.desktop")] ∧
    g_hash_table_lookup (installed_changed
      { example_world with desktop_files := example_descriptors_same_class }
      ).system.startup_wm_class_to_id "foo.desktop" = some "foo.desktop" ∧
    g_hash_table_lookup (installed_changed
      { example_world with desktop_files := example_descriptors_same_class.reverse }
      ).system.startup_wm_class_to_id "foo.desktop" = some "foo.desktop" :=
  ⟨by decide,
    (startup_index_after_reconciliation
      { example_world with desktop_files := example_descriptors_same_class }).2.2.2
      "foo.desktop"
      ⟨{ desktop_id := "foo.desktop", name := "Foo", startup_wm_class := some "foo.desktop" },
        by decide, rfl, rfl⟩
      { example_world with desktop_files := example_descriptors_same_class }
      (List.Perm.refl _),
    (startup_index_after_reconciliation
      { example_world with desktop_files := example_descriptors_same_class }).2.2.2
      "foo.desktop"
      ⟨{ desktop_id := "foo.desktop", name := "Foo", startup_wm_class := some "foo.desktop" },
        by decide, rfl, rfl⟩
      { example_world with desktop_files := example_descriptors_same_class.reverse }
      (List.reverse_perm _)⟩

theorem g_hash_table_lookup_mem {K V : Type} [DecidableEq K] (t : GHashTable K V) (k : K)
    (v : V) (h : g_hash_table_lookup t k = some v) : (k, v) ∈ t := by
  induction t with
  | nil => simp [g_hash_table_lookup] at h
  | cons e rest ih =>
    obtain ⟨k1, v1⟩ := e
    unfold g_hash_table_lookup at h
    by_cases hk : k1 = k
    · simp only [hk, if_true, Option.some.injEq] at h
      subst hk; subst h
      exact List.mem_cons_self _ _
    · simp only [hk, if_false] at h
      exact List.mem_cons_of_mem _ (ih h)

theorem app_is_stale_scan (s : World) (app : AppPtr) :
    app_is_stale (scan_startup_wm_class_to_id s) app = !survives_reconciliation s app := by
  unfold app_is_stale survives_reconciliation shell_app_is_window_backed shell_app_get_id
  have happs : (scan_startup_wm_class_to_id s).apps = s.apps := rfl
  rw [happs]
  cases hinfo : (s.apps app).info with
  | none => simp
  | some info =>
    simp only [Option.isNone_some, Bool.false_eq_true, if_false]
    have hnew : g_desktop_app_info_new (scan_startup_wm_class_to_id s) info.desktop_id =
        g_desktop_app_info_new s info.desktop_id := rfl
    rw [hnew]
    cases g_desktop_app_info_new s info.desktop_id <;> rfl

theorem installed_changed_id_to_app (s : World) :
    (installed_changed s).system.id_to_app =
      s.system.id_to_app.filter (fun e => survives_reconciliation s e.2) := by
  unfold installed_changed g_hash_table_foreach_remove
  simp only [World.emit_system, app_is_stale_scan, Bool.not_not]
  rfl

theorem lookup_after_eviction (s s2 : World) (x : AppPtr) (info : GDesktopAppInfo)
    (r : World × Option AppPtr)
    (hinfo : (s.apps x).info = some info)
    (hgone : g_desktop_app_info_new s info.desktop_id = none)
    (halloc : x < s.next_app)
    (htab : s2.system.id_to_app = (installed_changed s).system.id_to_app)
    (hnext : s2.next_app = s.next_app)
    (hr : shell_app_system_lookup_app s2 info.desktop_id = some r) :
    r.2 ≠ some x ∧
    (cache_keys_are_ids s →
      r.2 = none ∨
      (r.2 = some s2.next_app ∧
        g_hash_table_lookup s2.system.id_to_app info.desktop_id = none)) := by
  have hxgone : survives_reconciliation s x = false := by
    simp [survives_reconciliation, hinfo, hgone]
  cases hl : g_hash_table_lookup s2.system.id_to_app info.desktop_id with
  | some a =>
    rw [lookup_app_cached s2 _ a hl] at hr
    cases hr
    have hmem := g_hash_table_lookup_mem _ _ _ hl
    rw [htab, installed_changed_id_to_app, List.mem_filter] at hmem
    obtain ⟨hmem, ha⟩ := hmem
    simp only at ha
    constructor
    · intro hax
      simp only [Option.some.injEq] at hax
      rw [hax, hxgone] at ha
      cases ha
    · intro hkeys
      obtain ⟨ia, hia, hid⟩ := hkeys _ hmem
      simp only at hia hid
      simp only [survives_reconciliation, hia, hid, hgone, Option.isSome_none] at ha
      cases ha
  | none =>
    cases hdb : g_desktop_app_info_new s2 info.desktop_id with
    | none =>
      rw [lookup_app_missing s2 _ hl hdb] at hr
      cases hr
      exact ⟨by simp, fun _ => Or.inl rfl⟩
    | some i2 =>
      obtain ⟨s3, h3, -⟩ := lookup_app_created s2 _ i2 hl hdb
      rw [h3] at hr
      cases hr
      constructor
      · simp only [ne_eq, Option.some.injEq]
        intro hx
        rw [hnext] at hx
        rw [hx] at halloc
        exact Nat.lt_irrefl _ halloc
      · intro _
        exact Or.inr ⟨rfl, rfl⟩

/-- C16: after `installed_changed`, `id_to_app` consists of exactly the entries it
had whose application is window-backed or has a descriptor whose id still resolves
in the application database, in their old order (the others are evicted, none is
added); application objects, allocation and the membership sets are untouched.
Consequently, for an allocated descriptor-backed application `x` whose id no longer
resolves, a later `shell_app_system_lookup_app` of that id (in any world with the
reconciled cache, whatever the database holds by then) never returns `x`; when the
cache stores every application under the id of its descriptor, the lookup misses
the cache and returns not-found or the newly allocated object. -/
theorem id_to_app_after_reconciliation (s : World) :
    (installed_changed s).system.id_to_app =
      s.system.id_to_app.filter (fun e => survives_reconciliation s e.2) ∧
    (installed_changed s).apps = s.apps ∧
    (installed_changed s).next_app = s.next_app ∧
    (installed_changed s).system.running_apps = s.system.running_apps ∧
    (installed_changed s).system.starting_apps = s.system.starting_apps ∧
    (∀ x info s2 r, (s.apps x).info = some info →
      g_desktop_app_info_new s info.desktop_id = none →
      x < s.next_app →
      s2.system.id_to_app = (installed_changed s).system.id_to_app →
      s2.next_app = s.next_app →
      shell_app_system_lookup_app s2 info.desktop_id = some r →
      r.2 ≠ some x ∧
      (cache_keys_are_ids s →
        r.2 = none ∨
        (r.2 = some s2.next_app ∧
          g_hash_table_lookup s2.system.id_to_app info.desktop_id = none))) :=
  ⟨installed_changed_id_to_app s, rfl, rfl, rfl, rfl,
    fun x info s2 r h1 h2 h3 h4 h5 h6 => lookup_after_eviction s s2 x info r h1 h2 h3 h4 h5 h6⟩

/-- Witness of C16: the application of "gone.desktop" at address 1 is evicted, the
one of "fedora-foo" stays, and the lookup of "gone.desktop" afterwards is not
found. -/
theorem id_to_app_after_reconciliation_witness :
    (example_world_stale.system.id_to_app = [("fedora-foo", 0), ("gone.desktop", 1)] ∧
      (installed_changed example_world_stale).system.id_to_app = [("fedora-foo", 0)] ∧
      shell_app_system_lookup_app (installed_changed example_world_stale) "gone.desktop" =
        some (installed_changed example_world_stale, none)) ∧
    ((installed_changed example_world_stale, (none : Option AppPtr)).2 ≠ some 1 ∧
      (cache_keys_are_ids example_world_stale →
        (installed_changed example_world_stale, (none : Option AppPtr)).2 = none ∨
        ((installed_changed example_world_stale, (none : Option AppPtr)).2 =
            some (installed_changed example_world_stale).next_app ∧
          g_hash_table_lookup (installed_changed example_world_stale).system.id_to_app
            "gone.desktop" = none))) :=
  ⟨⟨rfl, by decide, rfl⟩,
    (id_to_app_after_reconciliation example_world_stale).2.2.2.2.2 1
      { desktop_id := "gone.desktop", name := "Gone", startup_wm_class := none }
      (installed_changed example_world_stale)
      (installed_changed example_world_stale, none)
      (by decide) (by decide) (by decide) rfl rfl rfl⟩

theorem g_hash_table_lookup_remove_self {K V : Type} [DecidableEq K] (t : GHashTable K V)
    (key : K) : g_hash_table_lookup (g_hash_table_remove t key).1 key = none := by
  induction t with
  | nil => rfl
  | cons e rest ih =>
    obtain ⟨k1, v1⟩ := e
    simp only [g_hash_table_remove] at ih ⊢
    by_cases hk : k1 = key
    · simp only [List.filter_cons, ne_eq, hk, not_true_eq_false, decide_False,
        Bool.false_eq_true, if_false]
      exact ih
    · simp only [List.filter_cons, ne_eq, hk, not_false_eq_true, decide_True, if_true]
      unfold g_hash_table_lookup
      simp only [hk, if_false]
      exact ih

theorem g_hash_table_contains_insert {K V : Type} [DecidableEq K] (t : GHashTable K V)
    (key k : K) (value : V) :
    g_hash_table_contains (g_hash_table_insert t key value) k = true ↔
      k = key ∨ g_hash_table_contains t k = true := by
  rw [g_hash_table_contains_iff, g_hash_table_contains_iff, g_hash_table_lookup_insert]
  by_cases h : key = k
  · simp [h]
  · simp only [h, if_false]
    constructor
    · intro hx; exact Or.inr hx
    · rintro (hx | hx)
      · exact absurd hx.symm h
      · exact hx

theorem g_hash_table_contains_remove {K V : Type} [DecidableEq K] (t : GHashTable K V)
    (key k : K) :
    g_hash_table_contains (g_hash_table_remove t key).1 k = true ↔
      k ≠ key ∧ g_hash_table_contains t k = true := by
  rw [g_hash_table_contains_iff, g_hash_table_contains_iff]
  by_cases h : key = k
  · subst h
    simp [g_hash_table_lookup_remove_self]
  · rw [g_hash_table_lookup_remove_ne t key k h]
    constructor
    · intro hx; exact ⟨fun hk => h hk.symm, hx⟩
    · intro hx; exact hx.2

theorem notify_next_app (s : World) (app : AppPtr) :
    (_shell_app_system_notify_app_state_changed s app).next_app = s.next_app := by
  unfold _shell_app_system_notify_app_state_changed
  simp only [World.emit]
  split
  · split <;> rfl
  · rfl
  · split <;> rfl

theorem notify_sets_running (s : World) (app : AppPtr)
    (h : (s.apps app).state = SHELL_APP_STATE_RUNNING) :
    (_shell_app_system_notify_app_state_changed s app).system.running_apps =
        g_hash_table_insert s.system.running_apps app () ∧
    (_shell_app_system_notify_app_state_changed s app).system.starting_apps =
        (g_hash_table_remove s.system.starting_apps app).1 := by
  unfold _shell_app_system_notify_app_state_changed
  simp only [h]
  split <;> exact ⟨rfl, rfl⟩

theorem notify_sets_starting (s : World) (app : AppPtr)
    (h : (s.apps app).state = SHELL_APP_STATE_STARTING) :
    (_shell_app_system_notify_app_state_changed s app).system.running_apps =
        s.system.running_apps ∧
    (_shell_app_system_notify_app_state_changed s app).system.starting_apps =
        g_hash_table_insert s.system.starting_apps app () := by
  unfold _shell_app_system_notify_app_state_changed
  simp only [h]
  exact ⟨rfl, rfl⟩

theorem notify_sets_stopped (s : World) (app : AppPtr)
    (h : (s.apps app).state = SHELL_APP_STATE_STOPPED) :
    (_shell_app_system_notify_app_state_changed s app).system.running_apps =
        (g_hash_table_remove s.system.running_apps app).1 ∧
    (_shell_app_system_notify_app_state_changed s app).system.starting_apps =
        (g_hash_table_remove s.system.starting_apps app).1 := by
  unfold _shell_app_system_notify_app_state_changed
  simp only [h]
  split <;> exact ⟨rfl, rfl⟩

theorem transition_next_app (s : World) (app : AppPtr) (st : ShellAppState) :
    (shell_app_state_transition s app st).next_app = s.next_app := by
  unfold shell_app_state_transition
  split
  · rfl
  · split
    · rfl
    · simp only [World.emit]
      rw [notify_next_app]
      rfl

theorem transition_mirrors (s : World) (app : AppPtr) (st : ShellAppState)
    (hm : registry_mirrors_states s) :
    registry_mirrors_states (shell_app_state_transition s app st) := by
  by_cases h1 : (s.apps app).state = st
  · have : shell_app_state_transition s app st = s := by
      unfold shell_app_state_transition; rw [if_pos h1]
    rw [this]; exact hm
  · by_cases h2 : (s.apps app).state = SHELL_APP_STATE_RUNNING ∧ st = SHELL_APP_STATE_STARTING
    · have : shell_app_state_transition s app st =
          s.emit (Event.g_critical "shell_app_state_transition") := by
        unfold shell_app_state_transition; rw [if_neg h1, if_pos h2]
      rw [this]; exact hm
    · have hsys : (shell_app_state_transition s app st).system =
          (_shell_app_system_notify_app_state_changed
            (s.set_app app { s.apps app with state := st }) app).system := by
        unfold shell_app_state_transition; rw [if_neg h1, if_neg h2]; rfl
      have hst : ((s.set_app app { s.apps app with state := st }).apps app).state = st := by
        simp
      have happs : (shell_app_state_transition s app st).apps =
          Function.update s.apps app { s.apps app with state := st } := by
        rw [transition_apps]
        simp [transition_target, h2]
      intro e
      obtain ⟨hr, hs⟩ := hm e
      obtain ⟨hra, hsa⟩ := hm app
      rw [hsys, happs]
      by_cases he : e = app
      · subst he
        simp only [Function.update_same]
        cases st with
        | SHELL_APP_STATE_STOPPED =>
          obtain ⟨q1, q2⟩ := notify_sets_stopped _ e hst
          rw [q1, q2, g_hash_table_contains_remove, g_hash_table_contains_remove]
          simp
        | SHELL_APP_STATE_STARTING =>
          obtain ⟨q1, q2⟩ := notify_sets_starting _ e hst
          rw [q1, q2, g_hash_table_contains_insert]
          have hnr : (s.apps e).state ≠ SHELL_APP_STATE_RUNNING := fun hx => h2 ⟨hx, rfl⟩
          simp only [World.set_app_system, true_or, iff_true, reduceCtorEq, iff_false]
          exact ⟨fun hx => hnr (hr.mp hx), trivial⟩
        | SHELL_APP_STATE_RUNNING =>
          obtain ⟨q1, q2⟩ := notify_sets_running _ e hst
          rw [q1, q2, g_hash_table_contains_insert, g_hash_table_contains_remove]
          simp
      · rw [Function.update_noteq he]
        cases st with
        | SHELL_APP_STATE_STOPPED =>
          obtain ⟨q1, q2⟩ := notify_sets_stopped _ app hst
          rw [q1, q2, g_hash_table_contains_remove, g_hash_table_contains_remove]
          simp only [World.set_app_system, ne_eq, he, not_false_eq_true, true_and]
          exact ⟨hr, hs⟩
        | SHELL_APP_STATE_STARTING =>
          obtain ⟨q1, q2⟩ := notify_sets_starting _ app hst
          rw [q1, q2, g_hash_table_contains_insert]
          simp only [World.set_app_system, he, false_or]
          exact ⟨hr, hs⟩
        | SHELL_APP_STATE_RUNNING =>
          obtain ⟨q1, q2⟩ := notify_sets_running _ app hst
          rw [q1, q2, g_hash_table_contains_insert, g_hash_table_contains_remove]
          simp only [World.set_app_system, he, false_or, ne_eq, not_false_eq_true, true_and]
          exact ⟨hr, hs⟩

theorem transition_unused (s : World) (app : AppPtr) (st : ShellAppState)
    (happ : app < s.next_app) (hu : unused_are_stopped s) :
    unused_are_stopped (shell_app_state_transition s app st) := by
  intro p hp
  rw [transition_next_app] at hp
  rw [transition_apps, Function.update_noteq (Nat.lt_of_lt_of_le happ hp).ne']
  exact hu p hp

theorem evolves_invariant (s s1 : World) (h : Evolves s s1)
    (hm : registry_mirrors_states s) (hu : unused_are_stopped s) :
    registry_mirrors_states s1 ∧ unused_are_stopped s1 := by
  induction h with
  | refl => exact ⟨hm, hu⟩
  | quiet x y _ hr hs hst hn ih =>
    obtain ⟨ihm, ihu⟩ := ih
    constructor
    · intro e
      rw [hr, hs, hst e]
      exact ihm e
    · intro p hp
      rw [hn] at hp
      rw [hst p]
      exact ihu p hp
  | transition x app st _ happ ih =>
    obtain ⟨ihm, ihu⟩ := ih
    exact ⟨transition_mirrors x app st ihm, transition_unused x app st happ ihu⟩

theorem evolves_next_app (s x : World) (h : Evolves s x) : x.next_app = s.next_app := by
  induction h with
  | refl => rfl
  | quiet x y _ _ _ _ hn ih => rw [hn, ih]
  | transition x app st _ _ ih => rw [transition_next_app, ih]

theorem evolves_emit (s x : World) (e : Event) (h : Evolves s x) : Evolves s (x.emit e) :=
  Evolves.quiet x _ h rfl rfl (fun _ => rfl) rfl

theorem set_running_state_state (x : World) (app : AppPtr) (rs : Option ShellAppRunningState)
    (p : AppPtr) : ((x.set_running_state app rs).apps p).state = (x.apps p).state := by
  unfold World.set_running_state
  by_cases hp : p = app
  · subst hp; simp
  · simp [Function.update_noteq hp]

theorem evolves_set_running_state (s x : World) (app : AppPtr)
    (rs : Option ShellAppRunningState) (h : Evolves s x) :
    Evolves s (x.set_running_state app rs) :=
  Evolves.quiet x _ h rfl rfl (set_running_state_state x app rs) rfl

theorem evolves_sync (s x : World) (app : AppPtr) (h : Evolves s x) (happ : app < x.next_app) :
    Evolves s (shell_app_sync_running_state x app) := by
  unfold shell_app_sync_running_state
  split
  · exact evolves_emit s x _ h
  · split
    · split
      · exact Evolves.transition x app _ h happ
      · exact h
    · exact Evolves.transition x app _ h happ

theorem evolves_update_app_menu (s x y : World) (app : AppPtr) (window : MetaWindow)
    (h : Evolves s x) (hy : shell_app_update_app_menu x app window = some y) :
    Evolves s y := by
  unfold shell_app_update_app_menu at hy
  split at hy
  · cases hy
  · dsimp only at hy
    split at hy
    · split at hy
      · cases hy
        exact evolves_set_running_state s x app _ h
      · cases hy
        exact h
    · cases hy
      exact h

theorem evolves_ensure_busy_watch (s x y : World) (app : AppPtr)
    (h : Evolves s x) (hy : shell_app_ensure_busy_watch x app = some y) :
    Evolves s y := by
  unfold shell_app_ensure_busy_watch at hy
  split at hy
  · cases hy
  · split at hy
    · cases hy; exact h
    · split at hy
      · cases hy; exact h
      · split at hy
        · cases hy
        · split at hy
          · cases hy; exact h
          · cases hy
            exact evolves_emit s _ _ (evolves_set_running_state s x app _ h)

theorem evolves_unref (s x y : World) (rs : ShellAppRunningState)
    (h : Evolves s x) (hy : unref_running_state x rs = some y) :
    Evolves s y := by
  unfold unref_running_state at hy
  split at hy
  · cases hy
  · split at hy
    · cases hy; exact h
    · split at hy
      · cases hy; exact evolves_emit s x _ h
      · cases hy; exact h

theorem add_window_evolves (s s1 : World) (app : AppPtr) (window : MetaWindow)
    (h : _shell_app_add_window s app window = some s1) (happ : app < s.next_app) :
    Evolves s s1 := by
  unfold _shell_app_add_window at h
  split at h
  · cases h
    exact Evolves.refl
  · simp only [Option.bind_eq_bind, Option.bind_eq_some] at h
    obtain ⟨x1, h1, rs1, -, x3, h3, x4, h4, rs4, -, h5⟩ := h
    have e1 : Evolves s x1 := by
      split at h1
      · unfold create_running_state at h1
        split at h1
        · cases h1
        · cases h1
          exact evolves_set_running_state s s app _ Evolves.refl
      · cases h1
        exact Evolves.refl
    have e3 := evolves_update_app_menu s _ x3 app window
      (evolves_set_running_state s x1 app _ e1) h3
    have e4 := evolves_ensure_busy_watch s x3 x4 app e3 h4
    simp only [Option.some.injEq] at h5
    rw [← h5]
    apply evolves_emit
    split
    · apply evolves_sync
      · exact evolves_set_running_state s x4 app _ e4
      · show app < x4.next_app
        rw [evolves_next_app s x4 e4]
        exact happ
    · apply evolves_sync _ _ _ e4
      rw [evolves_next_app s x4 e4]
      exact happ

theorem remove_window_evolves (s s1 : World) (app : AppPtr) (window : MetaWindow)
    (h : _shell_app_remove_window s app window = some s1) (happ : app < s.next_app) :
    Evolves s s1 := by
  unfold _shell_app_remove_window at h
  split at h
  · cases h
  · split at h
    · cases h
      exact Evolves.refl
    · simp only [Option.bind_eq_bind, Option.bind_eq_some] at h
      obtain ⟨x3, h3, h4⟩ := h
      have e3 : Evolves s x3 := by
        split at h3 <;> split at h3
        all_goals first
          | exact evolves_unref s _ x3 _
              (evolves_set_running_state s _ app _
                (evolves_set_running_state s s app _ Evolves.refl)) h3
          | (cases h3
             exact evolves_set_running_state s s app _ Evolves.refl)
      have hn3 : app < x3.next_app := by
        rw [evolves_next_app s x3 e3]; exact happ
      simp only [Option.some.injEq] at h4
      rw [← h4]
      apply evolves_emit
      split
      · split
        · exact Evolves.transition x3 app _ e3 hn3
        · exact evolves_sync s x3 app e3 hn3
      · exact e3

theorem skip_taskbar_changed_evolves (s s1 : World) (app : AppPtr) (window : MetaWindow)
    (h : shell_app_on_skip_taskbar_changed s app window = some s1) (happ : app < s.next_app) :
    Evolves s s1 := by
  unfold shell_app_on_skip_taskbar_changed at h
  split at h
  · cases h
  · cases h
    exact evolves_sync s _ app (evolves_set_running_state s s app _ Evolves.refl) happ

theorem evolves_set_started_on_workspace (s x : World) (app : AppPtr) (workspace : Int)
    (h : Evolves s x) :
    Evolves s (x.set_app app { x.apps app with started_on_workspace := workspace }) := by
  refine Evolves.quiet x _ h rfl rfl ?_ rfl
  intro p
  by_cases hp : p = app
  · subst hp; simp
  · simp [Function.update_noteq hp]

theorem handle_startup_sequence_evolves (s : World) (app : AppPtr)
    (sequence : SnStartupSequence) (happ : app < s.next_app) :
    Evolves s (_shell_app_handle_startup_sequence s app sequence) := by
  unfold _shell_app_handle_startup_sequence
  cases hc : sequence.completed
  · simp only [Bool.not_false, Bool.true_and, decide_eq_true_eq, Bool.not_true,
      Bool.false_eq_true, if_false]
    split
    · exact evolves_set_started_on_workspace s _ app _
        (evolves_emit s _ _ (Evolves.transition s app _ Evolves.refl happ))
    · exact Evolves.refl
  · simp only [Bool.not_true, Bool.false_and, Bool.false_eq_true, if_false, Bool.not_false,
      if_true]
    split
    · exact Evolves.transition s app _ Evolves.refl happ
    · exact Evolves.transition s app _ Evolves.refl happ

theorem launch_evolves (s : World) (app : AppPtr) (timestamp : Nat) (workspace : Int)
    (ret : Bool) (r : World × Bool)
    (h : shell_app_launch s app timestamp workspace ret = some r) (happ : app < s.next_app) :
    Evolves s r.1 := by
  unfold shell_app_launch at h
  split at h
  · simp only [Option.bind_eq_bind, Option.bind_eq_some] at h
    obtain ⟨w, -, h2⟩ := h
    cases h2
    exact evolves_emit s s _ Evolves.refl
  · cases h
    apply evolves_emit
    split
    · exact Evolves.transition s app _ Evolves.refl happ
    · exact Evolves.refl

theorem entity_op_evolves (s s1 : World) (app : AppPtr) (op : EntityOp)
    (h : EntityOp.apply s app op = some s1) (happ : app < s.next_app) :
    Evolves s s1 := by
  cases op with
  | add_window window => exact add_window_evolves s s1 app window h happ
  | remove_window window => exact remove_window_evolves s s1 app window h happ
  | skip_taskbar_changed window => exact skip_taskbar_changed_evolves s s1 app window h happ
  | handle_startup_sequence sequence =>
    simp only [EntityOp.apply, Option.some.injEq] at h
    rw [← h]
    exact handle_startup_sequence_evolves s app sequence happ
  | launch timestamp workspace ret =>
    simp only [EntityOp.apply, Option.map_eq_some'] at h
    obtain ⟨r, hr, hr1⟩ := h
    rw [← hr1]
    exact launch_evolves s app timestamp workspace ret r hr happ

theorem lookup_app_invariant (s s1 : World) (id : String) (r : Option AppPtr)
    (h : shell_app_system_lookup_app s id = some (s1, r))
    (hm : registry_mirrors_states s) (hu : unused_are_stopped s) :
    registry_mirrors_states s1 ∧ unused_are_stopped s1 := by
  cases hl : g_hash_table_lookup s.system.id_to_app id with
  | some a =>
    rw [lookup_app_cached s id a hl] at h
    cases h
    exact ⟨hm, hu⟩
  | none =>
    cases hdb : g_desktop_app_info_new s id with
    | none =>
      rw [lookup_app_missing s id hl hdb] at h
      cases h
      exact ⟨hm, hu⟩
    | some info =>
      obtain ⟨s2, h2, hst, -, -, -, -, hrun, hstart, -, hnext, hother, -⟩ :=
        lookup_app_created s id info hl hdb
      rw [h2] at h
      cases h
      constructor
      · intro e
        rw [hrun, hstart]
        by_cases he : e = s.next_app
        · subst he
          have hold := hu s.next_app (Nat.le_refl _)
          have hme := hm s.next_app
          rw [hold] at hme
          rw [hst]
          exact hme
        · rw [hother e he]
          exact hm e
      · intro p hp
        rw [hnext] at hp
        have hne : p ≠ s.next_app := by
          intro hx; rw [hx] at hp; exact Nat.lt_irrefl _ (Nat.lt_of_succ_le hp)
        rw [hother p hne]
        exact hu p (Nat.le_of_succ_le hp)

theorem get_windows_state (s : World) (app p : AppPtr) :
    (shell_app_get_windows s app).1.system = s.system ∧
    (shell_app_get_windows s app).1.next_app = s.next_app ∧
    (((shell_app_get_windows s app).1).apps p).state = (s.apps p).state := by
  unfold shell_app_get_windows
  split
  · exact ⟨rfl, rfl, rfl⟩
  · split
    · split
      · exact ⟨rfl, rfl, set_running_state_state s app _ p⟩
      · exact ⟨rfl, rfl, rfl⟩
    · exact ⟨rfl, rfl, rfl⟩

theorem reachable_invariant (s0 s : World) (hr : Reachable s0 s)
    (hm : registry_mirrors_states s0) (hu : unused_are_stopped s0) :
    registry_mirrors_states s ∧ unused_are_stopped s := by
  induction hr with
  | start => exact ⟨hm, hu⟩
  | operation x y app op _ happ hop ih =>
    exact evolves_invariant x y (entity_op_evolves x y app op hop happ) ih.1 ih.2
  | lookup x y id r _ hl ih => exact lookup_app_invariant x y id r hl ih.1 ih.2
  | reconcile x _ ih => exact ih
  | get_windows x app _ ih =>
    obtain ⟨ihm, ihu⟩ := ih
    constructor
    · intro e
      obtain ⟨h1, -, h3⟩ := get_windows_state x app e
      rw [h1, h3]
      exact ihm e
    · intro p hp
      obtain ⟨-, h2, h3⟩ := get_windows_state x app p
      rw [h2] at hp
      rw [h3]
      exact ihu p hp
  | environment x y _ ha hs hn ih =>
    obtain ⟨ihm, ihu⟩ := ih
    constructor
    · intro e
      rw [hs, ha]
      exact ihm e
    · intro p hp
      rw [hn] at hp
      rw [ha]
      exact ihu p hp

/-- C11: in every world reachable from a world whose membership sets mirror the
states (for instance the world in which the registry has just been constructed: both
sets empty, every object Stopped), every application `e` is a member of
`running_apps` iff its state is Running and a member of `starting_apps` iff its
state is Starting; so no application is a member of both sets. -/
theorem registry_sets_mirror_states (s0 s : World)
    (hm : registry_mirrors_states s0) (hu : unused_are_stopped s0) (hr : Reachable s0 s) :
    ∀ e : AppPtr,
      (g_hash_table_contains s.system.running_apps e = true ↔
        (s.apps e).state = SHELL_APP_STATE_RUNNING) ∧
      (g_hash_table_contains s.system.starting_apps e = true ↔
        (s.apps e).state = SHELL_APP_STATE_STARTING) ∧
      ¬(g_hash_table_contains s.system.running_apps e = true ∧
        g_hash_table_contains s.system.starting_apps e = true) := by
  intro e
  obtain ⟨h1, h2⟩ := (reachable_invariant s0 s hr hm hu).1 e
  refine ⟨h1, h2, ?_⟩
  rintro ⟨hrun, hstart⟩
  have hx := h1.mp hrun
  rw [h2.mp hstart] at hx
  cases hx

/-- Witness of C11: from the example world (registry empty, every object Stopped) the
lookup of "fedora-foo", the launch of the application found and the arrival of its
window 1 lead to a world in which that application is Running and a member of
`running_apps` only. -/
theorem registry_sets_mirror_states_witness :
    (registry_mirrors_states example_world ∧ unused_are_stopped example_world ∧
      Reachable example_world example_world_window_added) ∧
    (example_world_window_added.apps 0).state = SHELL_APP_STATE_RUNNING ∧
    ((g_hash_table_contains example_world_window_added.system.running_apps 0 = true ↔
        (example_world_window_added.apps 0).state = SHELL_APP_STATE_RUNNING) ∧
      (g_hash_table_contains example_world_window_added.system.starting_apps 0 = true ↔
        (example_world_window_added.apps 0).state = SHELL_APP_STATE_STARTING) ∧
      ¬(g_hash_table_contains example_world_window_added.system.running_apps 0 = true ∧
        g_hash_table_contains example_world_window_added.system.starting_apps 0 = true)) := by
  have hm : registry_mirrors_states example_world := by
    intro e
    constructor <;> simp [example_world, g_hash_table_contains, shell_app_init]
  have hu : unused_are_stopped example_world := fun _ _ => rfl
  have h1 : Reachable example_world example_world_looked_up :=
    Reachable.lookup example_world example_world_looked_up "fedora-foo" (some 0)
      Reachable.start rfl
  have h2 : Reachable example_world example_world_launched :=
    Reachable.operation example_world_looked_up example_world_launched 0
      (EntityOp.launch 5 (-1) true) h1 (by decide) rfl
  have h3 : Reachable example_world example_world_window_added :=
    Reachable.operation example_world_launched example_world_window_added 0
      (EntityOp.add_window 1) h2 (by decide) rfl
  exact ⟨⟨hm, hu, h3⟩, by decide, registry_sets_mirror_states example_world
    example_world_window_added hm hu h3 0⟩

theorem remove_window_keeps_starting (s s1 : World) (app : AppPtr) (window : MetaWindow)
    (h : _shell_app_remove_window s app window = some s1)
    (hst : (s.apps app).state = SHELL_APP_STATE_STARTING) :
    (s1.apps app).state = SHELL_APP_STATE_STARTING := by
  cases hrs : (s.apps app).running_state with
  | none => rw [remove_window_none s app window hrs] at h; cases h
  | some rs =>
    by_cases hmem : window ∈ rs.windows
    · by_cases hlast : g_slist_remove rs.windows window = []
      · by_cases href : rs.refcount = 0
        · rw [remove_window_last_abort s app window rs hrs hmem href hlast] at h; cases h
        · obtain ⟨s2, hs2, -, ha2⟩ := remove_window_last s app window rs hrs hmem href hlast
          rw [h] at hs2
          cases hs2
          rw [ha2]
          simp [hst]
      · obtain ⟨s2, hs2, -, ha2⟩ := remove_window_more s app window rs hrs hmem hlast
        rw [h] at hs2
        cases hs2
        rw [ha2]
        simp [hst]
    · rw [remove_window_absent s app window rs hrs hmem] at h
      cases h
      exact hst

theorem dispose_drain_keeps_starting (fuel : Nat) (s s1 : World) (app : AppPtr)
    (h : shell_app_dispose_drain fuel s app = some s1)
    (hst : (s.apps app).state = SHELL_APP_STATE_STARTING) :
    (s1.apps app).state = SHELL_APP_STATE_STARTING := by
  induction fuel generalizing s with
  | zero =>
    unfold shell_app_dispose_drain at h
    split at h
    · cases h; exact hst
    · cases h
  | succ n ih =>
    unfold shell_app_dispose_drain at h
    split at h
    · cases h; exact hst
    · dsimp only at h
      split at h
      · cases h
      · split at h
        · cases h
        · rename_i s2 hrem
          exact ih s2 h (remove_window_keeps_starting s s2 app _ hrem hst)

/-- The disposal of an application in state Starting never passes its first
assertion, whatever its windows are. -/
theorem dispose_starting_aborts (s : World) (app : AppPtr)
    (hst : (s.apps app).state = SHELL_APP_STATE_STARTING) :
    shell_app_dispose s app = none := by
  unfold shell_app_dispose
  dsimp only
  split
  · rfl
  · rename_i s2 hdrain
    have h2 := dispose_drain_keeps_starting _ _ s2 app hdrain (by simp [hst])
    simp [h2]

/-- C12, the failing input: three Running applications, all members of
`running_apps`, whose windows were last used at times 100000000, 1500000000 and
3000000000.  In `shell_app_compare` the difference of the last two times as `int`
overflows, so application 0 compares after 1, 1 after 2 and 2 after 0; the list
returned, `[2, 1, 0]`, has an element (2) that compares greater than a later one
(0).  With the times 10 and 20 of the spec's example the order is right. -/
theorem get_running_not_ordered :
    shell_app_system_get_running example_world_three_running = some [2, 1, 0] ∧
    shell_app_get_last_user_time example_world_three_running 0 = 100000000 ∧
    shell_app_get_last_user_time example_world_three_running 1 = 1500000000 ∧
    shell_app_get_last_user_time example_world_three_running 2 = 3000000000 - 2 ^ 32 ∧
    shell_app_compare example_world_three_running 0 1 = some 1400000000 ∧
    shell_app_compare example_world_three_running 1 2 = some 1500000000 ∧
    shell_app_compare example_world_three_running 2 0 = some 1394967296 ∧
    shell_app_system_get_running
      { example_world_three_running with
        system := { example_world_three_running.system with
                    running_apps := [(0, ()), (1, ())] }
        windows := fun w =>
          { example_world.windows w with user_time := if w = 11 then 10 else 20 } } =
      some [1, 0] := by
  decide

/-- C14, the counterexample: the windows 21 and 22 of one application, both showing
on the active workspace, last used at times 1000 and 3000000000, the stale flag set.
The times are more than `2 ^ 31` apart, so in the wrap-around order of X server
times 1000 is the later one: the difference of the times modulo `2 ^ 32`, read as an
`int`, is negative and `shell_app_get_windows` returns `[21, 22]`, which is not
descending in the timestamps as numbers.  With the windows of the spec's example
(window 31 on another workspace, time 5; window 32 on the active workspace, showing,
time 1) the list returned is `[32, 31]`. -/
theorem get_windows_not_descending :
    (example_world_two_windows.windows 21).user_time = 1000 ∧
    (example_world_two_windows.windows 22).user_time = 3000000000 ∧
    shell_app_compare_windows example_world_two_windows 0 21 22 = -1294968296 ∧
    (shell_app_get_windows example_world_two_windows 0).2 = [21, 22] ∧
    (shell_app_get_windows
      (example_world_two_windows.set_app 0 (example_running_app [22, 21])) 0).2 = [21, 22] ∧
    (shell_app_get_windows
      { example_world_two_windows with
        apps := Function.update example_world.apps 0 (example_running_app [31, 32])
        windows := fun w =>
          { example_world.windows w with
            user_time := if w = 31 then 5 else 1
            workspace := if w = 31 then 1 else 0 } } 0).2 = [32, 31] := by
  decide

theorem notify_log (s : World) (app : AppPtr) :
    (_shell_app_system_notify_app_state_changed s app).log =
      Event.app_state_changed app :: (telemetry_calls s app ++ s.log) := by
  unfold _shell_app_system_notify_app_state_changed telemetry_calls g_hash_table_contains
    g_hash_table_remove
  cases hst : (s.apps app).state <;> cases hi : (s.apps app).info <;>
    simp [World.emit]
  split <;> simp

/-- C25: `_shell_app_system_notify_app_state_changed` appends to the log the
telemetry calls and then the app-state-changed broadcast.  A usage-start record is
made only if the new state is Running and the application has a descriptor, whose id
it carries; a usage-stop record only if the new state is Stopped, the application was
a member of `running_apps` and it has a descriptor.  For an application without
descriptor the broadcast is the only event.  In every case the membership sets are
updated for the new state and no application object changes. -/
theorem notify_app_state_changed_telemetry (s : World) (app : AppPtr) :
    (_shell_app_system_notify_app_state_changed s app).log =
      Event.app_state_changed app :: (telemetry_calls s app ++ s.log) ∧
    (∀ e ∈ telemetry_calls s app,
      (∃ info, e = Event.record_start app info.desktop_id ∧
        (s.apps app).state = SHELL_APP_STATE_RUNNING ∧ (s.apps app).info = some info) ∨
      (e = Event.record_stop app ∧ (s.apps app).state = SHELL_APP_STATE_STOPPED ∧
        g_hash_table_contains s.system.running_apps app = true ∧
        (s.apps app).info.isSome = true)) ∧
    ((s.apps app).info = none →
      (_shell_app_system_notify_app_state_changed s app).log =
        Event.app_state_changed app :: s.log) ∧
    ((s.apps app).state = SHELL_APP_STATE_RUNNING →
      (_shell_app_system_notify_app_state_changed s app).system.running_apps =
          g_hash_table_insert s.system.running_apps app () ∧
      (_shell_app_system_notify_app_state_changed s app).system.starting_apps =
          (g_hash_table_remove s.system.starting_apps app).1) ∧
    ((s.apps app).state = SHELL_APP_STATE_STARTING →
      (_shell_app_system_notify_app_state_changed s app).system.running_apps =
          s.system.running_apps ∧
      (_shell_app_system_notify_app_state_changed s app).system.starting_apps =
          g_hash_table_insert s.system.starting_apps app ()) ∧
    ((s.apps app).state = SHELL_APP_STATE_STOPPED →
      (_shell_app_system_notify_app_state_changed s app).system.running_apps =
          (g_hash_table_remove s.system.running_apps app).1 ∧
      (_shell_app_system_notify_app_state_changed s app).system.starting_apps =
          (g_hash_table_remove s.system.starting_apps app).1) ∧
    (_shell_app_system_notify_app_state_changed s app).apps = s.apps := by
  refine ⟨notify_log s app, ?_, ?_, notify_sets_running s app, notify_sets_starting s app,
    notify_sets_stopped s app, notify_apps s app⟩
  · intro e he
    unfold telemetry_calls at he
    cases hi : (s.apps app).info with
    | none => rw [hi] at he; cases he
    | some info =>
      rw [hi] at he
      simp only at he
      split at he
      · rename_i hr
        simp only [List.mem_singleton] at he
        exact Or.inl ⟨info, he, hr, rfl⟩
      · split at he
        · rename_i hr
          simp only [List.mem_singleton] at he
          exact Or.inr ⟨he, hr.1, hr.2, rfl⟩
        · cases he
  · intro hi
    rw [notify_log]
    simp [telemetry_calls, hi]

/-- Witness of C25: the notification for the Running application "fedora-foo" at
address 0 records a usage start with that id. -/
theorem notify_app_state_changed_telemetry_witness :
    (_shell_app_system_notify_app_state_changed example_world_window_added 0).log =
      Event.app_state_changed 0 ::
        (telemetry_calls example_world_window_added 0 ++ example_world_window_added.log) ∧
    telemetry_calls example_world_window_added 0 = [Event.record_start 0 "fedora-foo"] :=
  ⟨(notify_app_state_changed_telemetry example_world_window_added 0).1, by decide⟩

/-- C24, the counterexample: a request for the current state.  The Running
application at address 0 is asked to become Running: the log stays empty (no call
of the registry, no state notification) and state and registry are as before. -/
theorem same_state_request_is_silent :
    ((example_world_with SHELL_APP_STATE_RUNNING [1, 3]).apps 0).state =
      SHELL_APP_STATE_RUNNING ∧
    (example_world_with SHELL_APP_STATE_RUNNING [1, 3]).log = [] ∧
    (shell_app_state_transition (example_world_with SHELL_APP_STATE_RUNNING [1, 3]) 0
      SHELL_APP_STATE_RUNNING).log = [] ∧
    (shell_app_state_transition (example_world_with SHELL_APP_STATE_RUNNING [1, 3]) 0
      SHELL_APP_STATE_RUNNING).system =
      (example_world_with SHELL_APP_STATE_RUNNING [1, 3]).system := by
  decide

/-- C24 as amended: a call of `shell_app_state_transition` that requests the current
state returns at once and changes nothing: no registry call, no notification.  A call
that requests a different state and is not the forbidden Running to Starting request
writes the state field, lets the registry record the change (membership sets,
telemetry, app-state-changed broadcast) and then emits the notification of the
"state" property. -/
theorem state_transition_notifies (s : World) (app : AppPtr) (state : ShellAppState) :
    ((s.apps app).state = state → shell_app_state_transition s app state = s) ∧
    ((s.apps app).state ≠ state →
      ¬((s.apps app).state = SHELL_APP_STATE_RUNNING ∧ state = SHELL_APP_STATE_STARTING) →
      ((shell_app_state_transition s app state).apps app).state = state ∧
      (shell_app_state_transition s app state).system =
        (_shell_app_system_notify_app_state_changed
          (s.set_app app { s.apps app with state := state }) app).system ∧
      (shell_app_state_transition s app state).log =
        Event.g_object_notify app "state" :: Event.app_state_changed app ::
          (telemetry_calls (s.set_app app { s.apps app with state := state }) app ++ s.log)) := by
  constructor
  · intro h
    unfold shell_app_state_transition
    rw [if_pos h]
  · intro h1 h2
    refine ⟨?_, ?_, ?_⟩
    · rw [transition_apps]
      simp [transition_target, h2]
    · unfold shell_app_state_transition
      rw [if_neg h1, if_neg h2]
      rfl
    · unfold shell_app_state_transition
      rw [if_neg h1, if_neg h2]
      simp only [World.emit, notify_log]
      rfl

/-- Witness of C24: the Starting application "fedora-foo" at address 0 is asked to
become Running; the registry records a usage start and broadcasts, then the "state"
property is notified. -/
theorem state_transition_notifies_witness :
    (example_world_launched.apps 0).state = SHELL_APP_STATE_STARTING ∧
    (shell_app_state_transition example_world_launched 0 SHELL_APP_STATE_RUNNING).log =
      Event.g_object_notify 0 "state" :: Event.app_state_changed 0 ::
        Event.record_start 0 "fedora-foo" :: example_world_launched.log :=
  ⟨by decide,
    ((state_transition_notifies example_world_launched 0 SHELL_APP_STATE_RUNNING).2
      (by decide) (by decide)).2.2⟩

/-- C23, the counterexample: the application at address 0 is Starting and has no
window (interesting count 0), respectively the single uninteresting window 2; adding
the interesting window 1 moves it to Running. -/
theorem add_window_while_starting_runs :
    ((example_world_with SHELL_APP_STATE_STARTING []).apps 0).state =
      SHELL_APP_STATE_STARTING ∧
    interesting_count ((example_world_with SHELL_APP_STATE_STARTING []).apps 0) = 0 ∧
    shell_app_is_interesting_window (example_world_with SHELL_APP_STATE_STARTING []) 1 = true ∧
    (_shell_app_add_window (example_world_with SHELL_APP_STATE_STARTING []) 0 1).map
      (fun s => ((s.apps 0).state, interesting_count (s.apps 0))) =
      some (SHELL_APP_STATE_RUNNING, 1) ∧
    interesting_count ((example_world_with SHELL_APP_STATE_STARTING [2]).apps 0) = 0 ∧
    (_shell_app_add_window (example_world_with SHELL_APP_STATE_STARTING [2]) 0 1).map
      (fun s => ((s.apps 0).state, interesting_count (s.apps 0))) =
      some (SHELL_APP_STATE_RUNNING, 1) := by
  decide

/-- C23 as amended: the count-driven transition to Running has no guard.  For an
application in state Starting with interesting count 0, `_shell_app_add_window` of a
window that is not yet in the window set returns; if the window is interesting the
count becomes 1 and the application is Running afterwards, if it is not interesting
the count stays 0 and the application stays Starting (the guard "not Starting" is on
the transition to Stopped only). -/
theorem add_window_while_starting (s : World) (app : AppPtr) (window : MetaWindow)
    (hstate : (s.apps app).state = SHELL_APP_STATE_STARTING)
    (hcount : interesting_count (s.apps app) = 0)
    (hnew : window ∉ window_list (s.apps app)) :
    ∃ s1, _shell_app_add_window s app window = some s1 ∧
      (shell_app_is_interesting_window s window = true →
        (s1.apps app).state = SHELL_APP_STATE_RUNNING ∧ interesting_count (s1.apps app) = 1) ∧
      (shell_app_is_interesting_window s window = false →
        (s1.apps app).state = SHELL_APP_STATE_STARTING ∧
          interesting_count (s1.apps app) = 0) := by
  have hwl : (running_state_or_new (s.apps app)).windows = window_list (s.apps app) := by
    unfold running_state_or_new window_list
    cases (s.apps app).running_state <;> rfl
  have hic : (running_state_or_new (s.apps app)).interesting_windows = 0 := by
    rw [← hcount]
    unfold running_state_or_new interesting_count
    cases (s.apps app).running_state <;> rfl
  obtain ⟨s1, rs1, hs1, -, -, hint, -, -, ha1⟩ :=
    add_window_spec s app window (by rw [hwl]; exact hnew)
  rw [hic] at hint
  refine ⟨s1, hs1, ?_, ?_⟩
  · intro hi
    rw [hi] at hint
    simp only [if_true] at hint
    have h1 : rs1.interesting_windows = 1 := by rw [hint]; rfl
    rw [ha1]
    simp [sync_target, interesting_count, h1]
  · intro hi
    rw [hi] at hint
    simp only [Bool.false_eq_true, if_false] at hint
    rw [ha1]
    simp [sync_target, interesting_count, hint, hstate]

/-- Witness of C23: the Starting application at address 0 with the uninteresting
window 2 gets the interesting window 1. -/
theorem add_window_while_starting_witness :
    (((example_world_with SHELL_APP_STATE_STARTING [2]).apps 0).state =
        SHELL_APP_STATE_STARTING ∧
      interesting_count ((example_world_with SHELL_APP_STATE_STARTING [2]).apps 0) = 0 ∧
      (1 : MetaWindow) ∉ window_list ((example_world_with SHELL_APP_STATE_STARTING [2]).apps 0)) ∧
    ∃ s1, _shell_app_add_window (example_world_with SHELL_APP_STATE_STARTING [2]) 0 1 = some s1 ∧
      (shell_app_is_interesting_window (example_world_with SHELL_APP_STATE_STARTING [2]) 1 = true →
        (s1.apps 0).state = SHELL_APP_STATE_RUNNING ∧ interesting_count (s1.apps 0) = 1) ∧
      (shell_app_is_interesting_window (example_world_with SHELL_APP_STATE_STARTING [2]) 1 = false →
        (s1.apps 0).state = SHELL_APP_STATE_STARTING ∧ interesting_count (s1.apps 0) = 0) :=
  ⟨⟨by decide, by decide, by decide⟩,
    add_window_while_starting (example_world_with SHELL_APP_STATE_STARTING [2]) 0 1
      (by decide) (by decide) (by decide)⟩

theorem gint_of_guint_small (n : Nat) (h : n < 2 ^ 31) : gint_of_guint n = (n : Int) := by
  unfold gint_of_guint G_MAXUINT_SUCC
  have h1 : n % 2 ^ 32 = n := Nat.mod_eq_of_lt (by omega)
  rw [h1, if_pos h]

theorem guint_of_gint_small (n : Nat) (h : n < 2 ^ 31) : guint_of_gint (n : Int) = n := by
  unfold guint_of_gint G_MAXUINT_SUCC
  have h1 : ((n : Int) % ((2 ^ 32 : Nat) : Int)) = (n : Int) := by
    apply Int.emod_eq_of_lt
    · omega
    · have : (n : Int) < 2 ^ 31 := by exact_mod_cast h
      norm_num
      omega
  rw [h1]
  simp

theorem gint_wrap_small (z : Int) (h1 : -(2 ^ 31) < z) (h2 : z < 2 ^ 31) : gint_wrap z = z := by
  unfold gint_wrap guint_of_gint gint_of_guint G_MAXUINT_SUCC
  norm_num
  split <;> omega

theorem last_user_time_foldl (s : World) (ws : List MetaWindow) (n : Nat) (hn : n < 2 ^ 31)
    (ht : ∀ w ∈ ws, (s.windows w).user_time < 2 ^ 31) :
    ws.foldl
        (fun last_user_time w =>
          gint_of_guint (max (guint_of_gint last_user_time) ((s.windows w).user_time)))
        (n : Int) =
      ((ws.foldl (fun m w => max m (s.windows w).user_time) n : Nat) : Int) ∧
    ws.foldl (fun m w => max m (s.windows w).user_time) n < 2 ^ 31 := by
  induction ws generalizing n with
  | nil => exact ⟨rfl, hn⟩
  | cons w ws ih =>
    have hw : (s.windows w).user_time < 2 ^ 31 := ht w (List.mem_cons_self _ _)
    have hm : max n (s.windows w).user_time < 2 ^ 31 := max_lt hn hw
    simp only [List.foldl_cons]
    rw [guint_of_gint_small n hn, gint_of_guint_small _ hm]
    exact ih _ hm (fun x hx => ht x (List.mem_cons_of_mem _ hx))

theorem last_user_time_bounded (s : World) (app : AppPtr)
    (ht : ∀ w ∈ window_list (s.apps app), (s.windows w).user_time < 2 ^ 31) :
    shell_app_get_last_user_time s app = (max_user_time s app : Int) ∧
      max_user_time s app < 2 ^ 31 := by
  unfold shell_app_get_last_user_time max_user_time
  unfold window_list at ht ⊢
  cases hrs : (s.apps app).running_state with
  | none => simp
  | some rs =>
    rw [hrs] at ht
    exact last_user_time_foldl s rs.windows 0 (by norm_num) ht

/-- While all user times are below `2 ^ 31` the comparison of two Running
applications that both have windows has the sign of the difference of the maximal
user times: the application used more recently compares less. -/
theorem shell_app_compare_bounded (s : World) (a b : AppPtr)
    (ha : (s.apps a).state = SHELL_APP_STATE_RUNNING)
    (hb : (s.apps b).state = SHELL_APP_STATE_RUNNING)
    (hwa : window_list (s.apps a) ≠ []) (hwb : window_list (s.apps b) ≠ [])
    (hta : ∀ w ∈ window_list (s.apps a), (s.windows w).user_time < 2 ^ 31)
    (htb : ∀ w ∈ window_list (s.apps b), (s.windows w).user_time < 2 ^ 31) :
    shell_app_compare s a b = some ((max_user_time s b : Int) - (max_user_time s a : Int)) := by
  obtain ⟨hla, hma⟩ := last_user_time_bounded s a hta
  obtain ⟨hlb, hmb⟩ := last_user_time_bounded s b htb
  unfold window_list at hwa hwb
  unfold shell_app_compare
  rw [if_neg (by rw [ha, hb]; simp), if_pos ha]
  cases hra : (s.apps a).running_state with
  | none => rw [hra] at hwa; exact absurd rfl hwa
  | some rsa =>
    cases hrb : (s.apps b).running_state with
    | none => rw [hrb] at hwb; exact absurd rfl hwb
    | some rsb =>
      rw [hra] at hwa
      rw [hrb] at hwb
      simp only [hwa, hwb, ne_eq, not_false_eq_true, and_false, false_and, if_false]
      rw [hla, hlb, gint_wrap_small]
      · have : (max_user_time s a : Int) < 2 ^ 31 := by exact_mod_cast hma
        omega
      · have : (max_user_time s b : Int) < 2 ^ 31 := by exact_mod_cast hmb
        omega

/-- C27, the failing input: the Running applications at addresses 0 and 2, whose
single windows were last used at times 100000000 and 3000000000.  The maximal time
of application 0 is the smaller one, yet `shell_app_compare` of 0 and 2 is negative
and of 2 and 0 positive: the time 3000000000 is read as the `int` -1294967296. -/
theorem compare_sign_wrong_beyond_int_range :
    (example_world_three_running.apps 0).state = SHELL_APP_STATE_RUNNING ∧
    (example_world_three_running.apps 2).state = SHELL_APP_STATE_RUNNING ∧
    window_list (example_world_three_running.apps 0) = [11] ∧
    window_list (example_world_three_running.apps 2) = [13] ∧
    max_user_time example_world_three_running 0 = 100000000 ∧
    max_user_time example_world_three_running 2 = 3000000000 ∧
    shell_app_get_last_user_time example_world_three_running 2 = -1294967296 ∧
    shell_app_compare example_world_three_running 0 2 = some (-1394967296) ∧
    shell_app_compare example_world_three_running 2 0 = some 1394967296 := by
  decide

/-- C29, the failing inputs.  A Stopped and a Starting application compare greater
than each other: `shell_app_compare` answers 1 in both orders.  Two Running
applications whose windows were last used at times 0 and 2147483648 compare less
than each other: the answer is -2147483648 in both orders. -/
theorem compare_not_antisymmetric :
    (example_world_stopped_starting.apps 0).state = SHELL_APP_STATE_STOPPED ∧
    (example_world_stopped_starting.apps 1).state = SHELL_APP_STATE_STARTING ∧
    shell_app_compare example_world_stopped_starting 0 1 = some 1 ∧
    shell_app_compare example_world_stopped_starting 1 0 = some 1 ∧
    shell_app_compare example_world_half_range 0 1 = some (-2147483648) ∧
    shell_app_compare example_world_half_range 1 0 = some (-2147483648) := by
  decide

theorem get_application_proxy_failure_without_running_state (s : World) (app : AppPtr)
    (busy : Bool) (h : (s.apps app).running_state = none) :
    get_application_proxy s app none busy = some s := by
  simp [get_application_proxy, h]

theorem get_application_proxy_aborts_without_running_state (s : World) (app : AppPtr)
    (p : Nat) (busy : Bool) (h : (s.apps app).running_state = none) :
    get_application_proxy s app (some p) busy = none := by
  simp [get_application_proxy, h]

theorem get_application_proxy_with_running_state (s : World) (app : AppPtr)
    (proxy : Option Nat) (busy : Bool) (rs : ShellAppRunningState)
    (h : (s.apps app).running_state = some rs) :
    ∃ s1, get_application_proxy s app proxy busy = some s1 ∧
      (s1.apps app).running_state =
        some { rs with
               application_proxy := (match proxy with
                 | some p => some p
                 | none => rs.application_proxy)
               cancellable := false } := by
  cases proxy with
  | none =>
    simp [get_application_proxy, h, World.set_running_state]
  | some p =>
    cases busy <;>
      simp [get_application_proxy, h, World.set_running_state]

/-- C21, the failing inputs.  Window 41 is added to the application at address 0
(the busy-watch request is issued), then removed (the running state is torn down,
the request cancelled).  If the completion callback now runs with a proxy, it
dereferences the absent running state and aborts; only with a failure result does it
leave everything as it is.  If window 42 has been added in between, so that there is
a new running state with a request of its own in flight, the callback of the first
request clears the in-flight handle of the new running state when it reports a
failure, and moreover stores its proxy there when it reports a proxy. -/
theorem completion_after_teardown_faults_or_mutates :
    (example_world_request_issued.apps 0).running_state.map
        (fun rs => (rs.cancellable, rs.application_proxy)) = some (true, none) ∧
    example_world_request_issued.log.head? = some (Event.windows_changed 0) ∧
    Event.proxy_new 0 ":1.41" "/org/example/App" ∈ example_world_request_issued.log ∧
    (example_world_torn_down.apps 0).running_state = none ∧
    Event.g_cancellable_cancel ∈ example_world_torn_down.log ∧
    get_application_proxy example_world_torn_down 0 (some 7) false = none ∧
    get_application_proxy example_world_torn_down 0 (some 7) true = none ∧
    (get_application_proxy example_world_torn_down 0 none false).map
        (fun s => (s.apps 0, s.log, s.system)) =
      some (example_world_torn_down.apps 0, example_world_torn_down.log,
        example_world_torn_down.system) ∧
    (example_world_new_sub_state.apps 0).running_state.map
        (fun rs => (rs.windows, rs.cancellable, rs.application_proxy)) =
      some ([42], true, none) ∧
    (get_application_proxy example_world_new_sub_state 0 none false).map
        (fun s => (s.apps 0).running_state.map
          (fun rs => (rs.windows, rs.cancellable, rs.application_proxy))) =
      some (some ([42], false, none)) ∧
    (get_application_proxy example_world_new_sub_state 0 (some 7) false).map
        (fun s => (s.apps 0).running_state.map
          (fun rs => (rs.windows, rs.cancellable, rs.application_proxy))) =
      some (some ([42], false, some 7)) :=
  ⟨by decide, by decide, by decide, by decide, by decide,
    get_application_proxy_aborts_without_running_state _ 0 7 false (by decide),
    get_application_proxy_aborts_without_running_state _ 0 7 true (by decide),
    by decide, by decide, by decide, by decide⟩

theorem sub_state_consistent_iff (a : ShellApp) :
    sub_state_consistent a ↔
      (∀ rs, a.running_state = some rs → rs.windows ≠ []) ∧
      (a.state = SHELL_APP_STATE_RUNNING → a.running_state ≠ none) := by
  unfold sub_state_consistent window_list
  cases h : a.running_state with
  | none => simp
  | some rs => simp

theorem add_window_consistent (s s1 : World) (app : AppPtr) (window : MetaWindow)
    (h : _shell_app_add_window s app window = some s1) :
    ∃ a1, s1.apps = Function.update s.apps app a1 ∧
      (sub_state_consistent (s.apps app) → sub_state_consistent a1) := by
  by_cases hmem : window ∈ window_list (s.apps app)
  · rw [add_window_present s app window hmem] at h
    cases h
    exact ⟨s.apps app, by simp, id⟩
  · have hwl : (running_state_or_new (s.apps app)).windows = window_list (s.apps app) := by
      unfold running_state_or_new window_list
      cases (s.apps app).running_state <;> rfl
    obtain ⟨s2, rs2, hs2, -, hwin, -, -, -, ha2⟩ :=
      add_window_spec s app window (by rw [hwl]; exact hmem)
    rw [h] at hs2
    cases hs2
    refine ⟨_, ha2, fun _ => ?_⟩
    rw [sub_state_consistent_iff]
    constructor
    · intro rs hrs
      simp only [Option.some.injEq] at hrs
      rw [← hrs, hwin]
      simp
    · intro _
      simp

theorem remove_window_consistent (s s1 : World) (app : AppPtr) (window : MetaWindow)
    (h : _shell_app_remove_window s app window = some s1) :
    ∃ a1, s1.apps = Function.update s.apps app a1 ∧
      (sub_state_consistent (s.apps app) → sub_state_consistent a1) := by
  cases hrs : (s.apps app).running_state with
  | none => rw [remove_window_none s app window hrs] at h; cases h
  | some rs =>
    by_cases hmem : window ∈ rs.windows
    · by_cases hlast : g_slist_remove rs.windows window = []
      · by_cases href : rs.refcount = 0
        · rw [remove_window_last_abort s app window rs hrs hmem href hlast] at h; cases h
        · obtain ⟨s2, hs2, -, ha2⟩ := remove_window_last s app window rs hrs hmem href hlast
          rw [h] at hs2
          cases hs2
          refine ⟨_, ha2, fun _ => ?_⟩
          rw [sub_state_consistent_iff]
          constructor
          · intro rs1 h1
            simp at h1
          · intro h1
            simp only at h1
            split at h1 <;> cases h1
      · obtain ⟨s2, hs2, -, ha2⟩ := remove_window_more s app window rs hrs hmem hlast
        rw [h] at hs2
        cases hs2
        refine ⟨_, ha2, fun _ => ?_⟩
        rw [sub_state_consistent_iff]
        constructor
        · intro rs1 h1
          simp only [Option.some.injEq] at h1
          rw [← h1]
          exact hlast
        · intro _
          simp
    · rw [remove_window_absent s app window rs hrs hmem] at h
      cases h
      exact ⟨s.apps app, by simp, id⟩

theorem skip_taskbar_changed_consistent (s s1 : World) (app : AppPtr) (window : MetaWindow)
    (h : shell_app_on_skip_taskbar_changed s app window = some s1) :
    ∃ a1, s1.apps = Function.update s.apps app a1 ∧
      (sub_state_consistent (s.apps app) → sub_state_consistent a1) := by
  unfold shell_app_on_skip_taskbar_changed at h
  cases hrs : (s.apps app).running_state with
  | none => rw [hrs] at h; cases h
  | some rs =>
    rw [hrs] at h
    simp only [Option.some.injEq] at h
    rw [← h, sync_apps]
    simp only [World.set_running_state, World.set_app_apps, Function.update_same,
      Function.update_idem]
    refine ⟨_, rfl, fun hc => ?_⟩
    rw [sub_state_consistent_iff] at hc ⊢
    have hw := hc.1 rs hrs
    constructor
    · intro rs1 h1
      simp only [Option.some.injEq] at h1
      rw [← h1]
      split <;> exact hw
    · intro _
      simp

theorem handle_startup_sequence_consistent (s : World) (app : AppPtr)
    (sequence : SnStartupSequence) :
    ∃ a1, (_shell_app_handle_startup_sequence s app sequence).apps =
        Function.update s.apps app a1 ∧
      (sub_state_consistent (s.apps app) → sub_state_consistent a1) := by
  unfold _shell_app_handle_startup_sequence shell_app_get_state
  cases hc : sequence.completed
  · simp only [Bool.not_false, Bool.true_and, decide_eq_true_eq, Bool.not_true,
      Bool.false_eq_true, if_false]
    by_cases hst : (s.apps app).state = SHELL_APP_STATE_STOPPED
    · rw [if_pos hst]
      simp only [World.set_app_apps, World.emit_apps, transition_apps, Function.update_same,
        Function.update_idem]
      refine ⟨_, rfl, fun hcs => ?_⟩
      rw [sub_state_consistent_iff] at hcs ⊢
      refine ⟨fun rs h1 => hcs.1 rs h1, fun h1 => ?_⟩
      simp [transition_target, hst] at h1
    · rw [if_neg hst]
      exact ⟨s.apps app, by simp, id⟩
  · simp only [Bool.not_true, Bool.false_and, Bool.false_eq_true, if_false, Bool.not_false,
      if_true]
    cases hrs : (s.apps app).running_state with
    | none =>
      simp only [Bool.false_eq_true, if_false, transition_apps]
      refine ⟨_, rfl, fun hcs => ?_⟩
      rw [sub_state_consistent_iff] at hcs ⊢
      refine ⟨fun rs h1 => hcs.1 rs h1, fun h1 => ?_⟩
      simp [transition_target] at h1
    | some rs =>
      by_cases hw : rs.windows = []
      · simp only [hw, List.isEmpty_nil, Bool.not_true, Bool.false_eq_true, if_false,
          transition_apps]
        refine ⟨_, rfl, fun hcs => ?_⟩
        rw [sub_state_consistent_iff] at hcs ⊢
        refine ⟨fun rs h1 => hcs.1 rs h1, fun h1 => ?_⟩
        simp [transition_target] at h1
      · have he : rs.windows.isEmpty = false := by
          cases hws : rs.windows with
          | nil => exact absurd hws hw
          | cons x xs => rfl
        simp only [he, Bool.not_false, if_true, transition_apps]
        refine ⟨_, rfl, fun hcs => ?_⟩
        rw [sub_state_consistent_iff] at hcs ⊢
        refine ⟨fun rs h1 => hcs.1 rs h1, fun _ => ?_⟩
        simp [hrs]

theorem launch_consistent (s : World) (app : AppPtr) (timestamp : Nat) (workspace : Int)
    (ret : Bool) (r : World × Bool)
    (h : shell_app_launch s app timestamp workspace ret = some r) :
    ∃ a1, r.1.apps = Function.update s.apps app a1 ∧
      (sub_state_consistent (s.apps app) → sub_state_consistent a1) := by
  unfold shell_app_launch at h
  cases hinfo : (s.apps app).info with
  | none =>
    rw [hinfo] at h
    cases hw : window_backed_app_get_window s app with
    | none => simp [hw] at h
    | some w =>
      simp [hw] at h
      rw [← h]
      exact ⟨s.apps app, by simp, id⟩
  | some info =>
    rw [hinfo] at h
    simp only [Option.some.injEq] at h
    rw [← h]
    simp only [World.emit_apps]
    by_cases hst : (s.apps app).state = SHELL_APP_STATE_STOPPED
    · rw [if_pos hst, transition_apps]
      refine ⟨_, rfl, fun hcs => ?_⟩
      rw [sub_state_consistent_iff] at hcs ⊢
      refine ⟨fun rs h1 => hcs.1 rs h1, fun h1 => ?_⟩
      simp [transition_target, hst] at h1
    · rw [if_neg hst]
      exact ⟨s.apps app, by simp, id⟩

theorem entity_op_consistent (s s1 : World) (app : AppPtr) (op : EntityOp)
    (h : EntityOp.apply s app op = some s1)
    (hc : ∀ p, sub_state_consistent (s.apps p)) :
    ∀ p, sub_state_consistent (s1.apps p) := by
  have key : ∃ a1, s1.apps = Function.update s.apps app a1 ∧
      (sub_state_consistent (s.apps app) → sub_state_consistent a1) := by
    cases op with
    | add_window window => exact add_window_consistent s s1 app window h
    | remove_window window => exact remove_window_consistent s s1 app window h
    | skip_taskbar_changed window => exact skip_taskbar_changed_consistent s s1 app window h
    | handle_startup_sequence sequence =>
      simp only [EntityOp.apply, Option.some.injEq] at h
      rw [← h]
      exact handle_startup_sequence_consistent s app sequence
    | launch timestamp workspace ret =>
      simp only [EntityOp.apply, Option.map_eq_some'] at h
      obtain ⟨r, hr, hr1⟩ := h
      rw [← hr1]
      exact launch_consistent s app timestamp workspace ret r hr
  obtain ⟨a1, ha1, hc1⟩ := key
  intro p
  rw [ha1]
  by_cases hp : p = app
  · subst hp
    rw [Function.update_same]
    exact hc1 (hc p)
  · rw [Function.update_noteq hp]
    exact hc p

theorem run_entity_ops_consistent (ops : List (AppPtr × EntityOp)) (s s1 : World)
    (h : run_entity_ops s ops = some s1)
    (hc : ∀ p, sub_state_consistent (s.apps p)) :
    ∀ p, sub_state_consistent (s1.apps p) := by
  induction ops generalizing s with
  | nil =>
    simp only [run_entity_ops, Option.some.injEq] at h
    rw [← h]
    exact hc
  | cons x ops ih =>
    obtain ⟨app, op⟩ := x
    unfold run_entity_ops at h
    cases h1 : EntityOp.apply s app op with
    | none => rw [h1] at h; cases h
    | some s2 =>
      rw [h1] at h
      exact ih s2 h (entity_op_consistent s s2 app op h1 hc)

theorem compare_of_consistent (s : World) (hc : ∀ p, sub_state_consistent (s.apps p))
    (a b : AppPtr) : (shell_app_compare s a b).isSome = true := by
  unfold shell_app_compare
  split
  · split <;> rfl
  · rename_i hst
    split
    · rename_i hra
      have hrb : (s.apps b).state = SHELL_APP_STATE_RUNNING := by
        rw [← hra]; exact (not_not.mp hst).symm
      have h1 := (hc a).2 hra
      have h2 := (hc b).2 hrb
      obtain ⟨rsa, hrsa⟩ := Option.isSome_iff_exists.mp h1
      obtain ⟨rsb, hrsb⟩ := Option.isSome_iff_exists.mp h2
      rw [hrsa, hrsb]
      simp only
      split
      · rfl
      · split <;> rfl
    · rfl

theorem request_quit_of_consistent (s : World) (hc : ∀ p, sub_state_consistent (s.apps p))
    (a : AppPtr) : (shell_app_request_quit s a).isSome = true := by
  unfold shell_app_request_quit shell_app_get_state
  split
  · rfl
  · rename_i hst
    obtain ⟨rsa, hrsa⟩ := Option.isSome_iff_exists.mp ((hc a).2 (not_not.mp hst))
    rw [hrsa]
    rfl

/-- C22: start from a world in which every application object is consistent (its
running state is present iff its window set is not empty, and present if it is
Running), as every freshly created object is.  After every sequence of add-window,
remove-window, skip-taskbar, startup-sequence and launch operations that runs to
completion, every application object is consistent again; hence `shell_app_compare`
of any two applications and `shell_app_request_quit` of any application return
without dereferencing an absent running state. -/
theorem running_state_present_iff_windows (s s1 : World) (ops : List (AppPtr × EntityOp))
    (hinit : ∀ p, sub_state_consistent (s.apps p))
    (hrun : run_entity_ops s ops = some s1) (p : AppPtr) :
    ((s1.apps p).running_state.isSome = true ↔ window_list (s1.apps p) ≠ []) ∧
    ((s1.apps p).state = SHELL_APP_STATE_RUNNING → (s1.apps p).running_state.isSome = true) ∧
    (∀ q, (shell_app_compare s1 p q).isSome = true) ∧
    (shell_app_request_quit s1 p).isSome = true := by
  have hc := run_entity_ops_consistent ops s s1 hrun hinit
  exact ⟨(hc p).1, (hc p).2, fun q => compare_of_consistent s1 hc p q,
    request_quit_of_consistent s1 hc p⟩

/-- Witness of C22: on the fresh application at address 0 of the example world,
window 1 arrives, window 2 arrives, window 1 goes; the application ends Stopped
with running state and the window 2. -/
theorem running_state_present_iff_windows_witness :
    ((∀ p, sub_state_consistent (example_world.apps p)) ∧
      run_entity_ops example_world example_ops = some example_world_after_ops) ∧
    window_list (example_world_after_ops.apps 0) = [2] ∧
    (((example_world_after_ops.apps 0).running_state.isSome = true ↔
        window_list (example_world_after_ops.apps 0) ≠ []) ∧
      ((example_world_after_ops.apps 0).state = SHELL_APP_STATE_RUNNING →
        (example_world_after_ops.apps 0).running_state.isSome = true) ∧
      (∀ q, (shell_app_compare example_world_after_ops 0 q).isSome = true) ∧
      (shell_app_request_quit example_world_after_ops 0).isSome = true) := by
  have hinit : ∀ p, sub_state_consistent (example_world.apps p) := fun p =>
    (sub_state_consistent_iff _).mpr ⟨fun rs h => (by cases h), fun h => (by cases h)⟩
  exact ⟨⟨hinit, rfl⟩, by decide,
    running_state_present_iff_windows example_world example_world_after_ops example_ops
      hinit rfl 0⟩

/-- C30, the counterexample: on the fresh application at address 0 a startup sequence
begins (Starting), window 51 arrives, which is not interesting because its role is
"eos-speedwagon" (still Starting, interesting count 0), and the startup sequence
completes: the application is Running, its interesting count is 0 and its only
window is not interesting. -/
theorem running_with_uninteresting_windows_only :
    run_entity_ops example_world_speedwagon example_ops_startup =
      some example_world_after_startup ∧
    (example_world_after_startup.apps 0).state = SHELL_APP_STATE_RUNNING ∧
    interesting_count (example_world_after_startup.apps 0) = 0 ∧
    window_list (example_world_after_startup.apps 0) = [51] ∧
    shell_app_is_interesting_window example_world_after_startup 51 = false :=
  ⟨rfl, by decide, by decide, by decide, by decide⟩

/-- C30 as amended: start from a world of freshly created application objects
(Stopped, no running state).  After every sequence of add-window, remove-window,
skip-taskbar, startup-sequence and launch operations that runs to completion, an
application that is Running has running state and at least one window.  (Its
interesting count may be 0: the completion of a startup sequence tests the window set,
not the count.) -/
theorem running_implies_windows (s s1 : World) (ops : List (AppPtr × EntityOp))
    (hinit : ∀ p, (s.apps p).state = SHELL_APP_STATE_STOPPED ∧ (s.apps p).running_state = none)
    (hrun : run_entity_ops s ops = some s1) (p : AppPtr)
    (hp : (s1.apps p).state = SHELL_APP_STATE_RUNNING) :
    window_list (s1.apps p) ≠ [] ∧
    ∃ rs, (s1.apps p).running_state = some rs ∧ rs.windows ≠ [] := by
  have hc0 : ∀ q, sub_state_consistent (s.apps q) := fun q =>
    (sub_state_consistent_iff _).mpr
      ⟨fun rs h => (by rw [(hinit q).2] at h; cases h),
       fun h => (by rw [(hinit q).1] at h; cases h)⟩
  have hc := run_entity_ops_consistent ops s s1 hrun hc0 p
  obtain ⟨rs, hrs⟩ := Option.isSome_iff_exists.mp (hc.2 hp)
  exact ⟨hc.1.mp (hc.2 hp), rs, hrs, ((sub_state_consistent_iff _).mp hc).1 rs hrs⟩

/-- Witness of C30 as amended: the run of the counterexample ends with the
application at address 0 Running and window 51 in its window set. -/
theorem running_implies_windows_witness :
    ((∀ p, (example_world_speedwagon.apps p).state = SHELL_APP_STATE_STOPPED ∧
        (example_world_speedwagon.apps p).running_state = none) ∧
      run_entity_ops example_world_speedwagon example_ops_startup =
        some example_world_after_startup ∧
      (example_world_after_startup.apps 0).state = SHELL_APP_STATE_RUNNING) ∧
    (window_list (example_world_after_startup.apps 0) ≠ [] ∧
      ∃ rs, (example_world_after_startup.apps 0).running_state = some rs ∧ rs.windows ≠ []) :=
  ⟨⟨fun _ => ⟨rfl, rfl⟩, rfl, by decide⟩,
    running_implies_windows example_world_speedwagon example_world_after_startup
      example_ops_startup (fun _ => ⟨rfl, rfl⟩) rfl 0 (by decide)⟩

theorem g_slist_sort_merge_perm {α : Type} (compare_func : α → α → Option Int) (fuel : Nat) :
    ∀ (l1 l2 r : List α), g_slist_sort_merge compare_func fuel l1 l2 = some r →
      List.Perm r (l1 ++ l2) := by
  induction fuel with
  | zero =>
    intro l1 l2 r h
    simp only [g_slist_sort_merge, Option.some.injEq] at h
    rw [← h]
  | succ fuel ih =>
    intro l1 l2 r h
    cases l1 with
    | nil =>
      simp only [g_slist_sort_merge, Option.some.injEq] at h
      rw [← h]
      simp
    | cons x xs =>
      cases l2 with
      | nil =>
        simp only [g_slist_sort_merge, Option.some.injEq] at h
        rw [← h]
        simp
      | cons y ys =>
        simp only [g_slist_sort_merge] at h
        cases hc : compare_func x y with
        | none => rw [hc] at h; cases h
        | some cmp =>
          rw [hc] at h
          simp only at h
          split at h
          · simp only [Option.map_eq_some'] at h
            obtain ⟨l, hl, hr⟩ := h
            rw [← hr]
            exact (ih xs (y :: ys) l hl).cons x
          · simp only [Option.map_eq_some'] at h
            obtain ⟨l, hl, hr⟩ := h
            rw [← hr]
            have h1 := (ih (x :: xs) ys l hl).cons y
            refine h1.trans ?_
            exact (@List.perm_middle _ y (x :: xs) ys).symm

theorem g_slist_sort_real_perm {α : Type} (compare_func : α → α → Option Int) (fuel : Nat) :
    ∀ (l r : List α), g_slist_sort_real compare_func fuel l = some r → List.Perm r l := by
  induction fuel with
  | zero =>
    intro l r h
    cases l with
    | nil =>
      simp only [g_slist_sort_real, Option.some.injEq] at h
      rw [← h]
    | cons x xs =>
      cases xs with
      | nil =>
        simp only [g_slist_sort_real, Option.some.injEq] at h
        rw [← h]
      | cons y ys =>
        simp only [g_slist_sort_real, Option.some.injEq] at h
        rw [← h]
  | succ fuel ih =>
    intro l r h
    cases l with
    | nil =>
      simp only [g_slist_sort_real, Option.some.injEq] at h
      rw [← h]
    | cons x xs =>
      cases xs with
      | nil =>
        simp only [g_slist_sort_real, Option.some.injEq] at h
        rw [← h]
      | cons y ys =>
        simp only [g_slist_sort_real] at h
        split at h
        · rename_i l1 l2 h1 h2
          have p1 := ih _ l1 h1
          have p2 := ih _ l2 h2
          have p3 := g_slist_sort_merge_perm compare_func _ l1 l2 r h
          refine p3.trans ((p1.append p2).trans ?_)
          rw [List.take_append_drop]
        · cases h

theorem g_slist_sort_perm {α : Type} (compare_func : α → α → Option Int) (l r : List α)
    (h : g_slist_sort l compare_func = some r) : List.Perm r l :=
  g_slist_sort_real_perm compare_func l.length l r h

theorem get_windows_spec (s : World) (app : AppPtr) :
    (shell_app_get_windows s app).1.log = s.log ∧
    (shell_app_get_windows s app).1.system = s.system ∧
    (shell_app_get_windows s app).1.windows = s.windows ∧
    (∀ p, p ≠ app → (shell_app_get_windows s app).1.apps p = s.apps p) ∧
    (∀ p, ((shell_app_get_windows s app).1.apps p).state = (s.apps p).state) ∧
    (shell_app_get_windows s app).2 = window_list ((shell_app_get_windows s app).1.apps app) ∧
    List.Perm (window_list ((shell_app_get_windows s app).1.apps app))
      (window_list (s.apps app)) ∧
    interesting_count ((shell_app_get_windows s app).1.apps app) =
      interesting_count (s.apps app) ∧
    (((shell_app_get_windows s app).1.apps app).running_state.isSome =
      (s.apps app).running_state.isSome) := by
  unfold shell_app_get_windows
  cases hrs : (s.apps app).running_state with
  | none =>
    simp [window_list, hrs]
  | some rs =>
    simp only
    by_cases hst : rs.window_sort_stale = true
    · rw [if_pos hst]
      cases hsort : g_slist_sort rs.windows
          (fun a b => some (shell_app_compare_windows s s.active_workspace a b)) with
      | none => simp [window_list, interesting_count, hrs]
      | some sorted =>
        have hp := g_slist_sort_perm _ _ _ hsort
        simp only [World.set_running_state]
        refine ⟨rfl, rfl, rfl, ?_, ?_, ?_, ?_, ?_, ?_⟩
        · intro p hp1
          simp [Function.update_noteq hp1]
        · intro p
          by_cases hp1 : p = app
          · subst hp1; simp
          · simp [Function.update_noteq hp1]
        · simp [window_list]
        · simpa [window_list, hrs] using hp
        · simp [interesting_count, hrs]
        · simp [hrs]
    · rw [if_neg hst]
      simp [window_list, interesting_count, hrs]

/-- C26, the counterexample: the Running application at address 0 has the window
list 22, 21, flagged stale; window 99 is not one of its windows.
`shell_app_activate_window` for window 99 issues no command (the log stays empty),
but the read of the window list at its head sorts the list and clears the flag: the
running state of the application holds the list 21, 22 afterwards. -/
theorem activate_window_sorts_window_list :
    (example_world_unsorted.apps 0).state = SHELL_APP_STATE_RUNNING ∧
    (99 : MetaWindow) ∉ window_list (example_world_unsorted.apps 0) ∧
    (example_world_unsorted.apps 0).running_state.map
        (fun rs => (rs.windows, rs.window_sort_stale)) = some ([22, 21], true) ∧
    ((shell_app_activate_window example_world_unsorted example_display 0 (some 99)
        5).apps 0).running_state.map
        (fun rs => (rs.windows, rs.window_sort_stale)) = some ([21, 22], false) ∧
    (shell_app_activate_window example_world_unsorted example_display 0 (some 99) 5).apps 0 ≠
      example_world_unsorted.apps 0 ∧
    (shell_app_activate_window example_world_unsorted example_display 0 (some 99) 5).log = [] := by
  decide

/-- C26 as amended: `shell_app_activate_window` on an application that is not
Running changes nothing at all.  On a Running application, with a target window
that is not in its window set, it does what the read of the window list
(`shell_app_get_windows`) does and nothing else: no event is logged (so no
window-manager command is issued), the registry and the window data are as before,
no application changes its state, every other application object is as before, and of
the application itself the window set has the same members and the interesting
count is the same; only the order of the window list and the stale flag may differ
(the lazy sort). -/
theorem activate_window_refused (s : World) (display : MetaDisplay) (app : AppPtr)
    (window : Option MetaWindow) (timestamp : Nat) :
    ((s.apps app).state ≠ SHELL_APP_STATE_RUNNING →
      shell_app_activate_window s display app window timestamp = s) ∧
    (∀ w, window = some w → w ∉ window_list (s.apps app) →
      (s.apps app).state = SHELL_APP_STATE_RUNNING →
      shell_app_activate_window s display app window timestamp =
        (shell_app_get_windows s app).1 ∧
      (shell_app_activate_window s display app window timestamp).log = s.log ∧
      (shell_app_activate_window s display app window timestamp).system = s.system ∧
      (shell_app_activate_window s display app window timestamp).windows = s.windows ∧
      (∀ p, ((shell_app_activate_window s display app window timestamp).apps p).state =
        (s.apps p).state) ∧
      (∀ p, p ≠ app →
        (shell_app_activate_window s display app window timestamp).apps p = s.apps p) ∧
      List.Perm
        (window_list ((shell_app_activate_window s display app window timestamp).apps app))
        (window_list (s.apps app)) ∧
      interesting_count ((shell_app_activate_window s display app window timestamp).apps app) =
        interesting_count (s.apps app)) := by
  constructor
  · intro h
    unfold shell_app_activate_window shell_app_get_state
    rw [if_pos h]
  · intro w hw hmem hst
    obtain ⟨h1, h2, h3, h4, h5, h6, h7, h8, -⟩ := get_windows_spec s app
    have hnot : w ∉ (shell_app_get_windows s app).2 := by
      rw [h6]
      intro hx
      exact hmem (h7.mem_iff.mp hx)
    have heq : shell_app_activate_window s display app window timestamp =
        (shell_app_get_windows s app).1 := by
      unfold shell_app_activate_window shell_app_get_state
      rw [if_neg (not_not.mpr hst), hw]
      simp [g_slist_find, hnot]
    rw [heq]
    exact ⟨rfl, h1, h2, h3, h5, h4, h7, h8⟩

/-- Witness of C26 as amended: the activation of window 99 on the application at
address 0 of the counterexample. -/
theorem activate_window_refused_witness :
    ((99 : MetaWindow) ∉ window_list (example_world_unsorted.apps 0) ∧
      (example_world_unsorted.apps 0).state = SHELL_APP_STATE_RUNNING) ∧
    (shell_app_activate_window example_world_unsorted example_display 0 (some 99) 5).log =
      example_world_unsorted.log ∧
    List.Perm
      (window_list
        ((shell_app_activate_window example_world_unsorted example_display 0 (some 99) 5).apps 0))
      (window_list (example_world_unsorted.apps 0)) :=
  ⟨⟨by decide, by decide⟩,
    ((activate_window_refused example_world_unsorted example_display 0 (some 99) 5).2 99 rfl
      (by decide) (by decide)).2.1,
    ((activate_window_refused example_world_unsorted example_display 0 (some 99) 5).2 99 rfl
      (by decide) (by decide)).2.2.2.2.2.2.1⟩

theorem filter_length_flip_off (l : List MetaWindow) (w : MetaWindow) (p q : MetaWindow → Bool)
    (hnd : l.Nodup) (hmem : w ∈ l) (hpq : ∀ x, x ≠ w → q x = p x)
    (hp : p w = true) (hq : q w = false) :
    (l.filter q).length + 1 = (l.filter p).length := by
  have h1 : (l.erase w).filter q = (l.erase w).filter p := by
    apply List.filter_congr
    intro x hx
    exact hpq x (fun hxw => by
      subst hxw
      exact ((List.Nodup.mem_erase_iff hnd).mp hx).1 rfl)
  rw [← filter_erase_length_neg q w l hq, h1]
  exact filter_erase_length_pos p w l hmem hp

theorem filter_length_flip_on (l : List MetaWindow) (w : MetaWindow) (p q : MetaWindow → Bool)
    (hnd : l.Nodup) (hmem : w ∈ l) (hpq : ∀ x, x ≠ w → q x = p x)
    (hp : p w = false) (hq : q w = true) :
    (l.filter q).length = (l.filter p).length + 1 :=
  (filter_length_flip_off l w q p hnd hmem (fun x hx => (hpq x hx).symm) hq hp).symm

theorem is_interesting_window_set_skip_taskbar_ne (s : World) (w x : MetaWindow) (b : Bool)
    (hx : x ≠ w) :
    shell_app_is_interesting_window (set_skip_taskbar s w b) x =
      shell_app_is_interesting_window s x := by
  simp [shell_app_is_interesting_window, shell_app_is_speedwagon_window,
    shell_window_tracker_is_window_interesting, set_skip_taskbar, Function.update_noteq hx]

/-- The handler of the skip-taskbar notification keeps the counter right when the
window whose hint toggles is a member window that is interesting but for the hint
(its role is not "eos-speedwagon" and the window tracker takes it for
user-relevant): if the counter was the number of interesting member windows before
the toggle, it is that number after the notification. -/
theorem skip_taskbar_changed_counter (s : World) (app : AppPtr) (window : MetaWindow)
    (rs : ShellAppRunningState)
    (hrs : (s.apps app).running_state = some rs)
    (hmem : window ∈ rs.windows) (hnd : rs.windows.Nodup)
    (hcount : rs.interesting_windows =
      (rs.windows.filter (shell_app_is_interesting_window s)).length % G_MAXUINT_SUCC)
    (hrole : shell_app_is_speedwagon_window s window = false)
    (hrel : (s.windows window).user_relevant = true) :
    ∃ s1, shell_app_on_skip_taskbar_changed
        (set_skip_taskbar s window (!(s.windows window).skip_taskbar)) app window = some s1 ∧
      window_list (s1.apps app) = rs.windows ∧
      interesting_count (s1.apps app) =
        ((window_list (s1.apps app)).filter (shell_app_is_interesting_window s1)).length
          % G_MAXUINT_SUCC := by
  have hrole1 : ¬ (s.windows window).role = some "eos-speedwagon" := by
    simpa [shell_app_is_speedwagon_window] using hrole
  have hw1 : (shell_app_sync_running_state
      ((set_skip_taskbar s window (!(s.windows window).skip_taskbar)).set_running_state app
        (some (if ((set_skip_taskbar s window (!(s.windows window).skip_taskbar)).windows
              window).skip_taskbar = true then
            { rs with interesting_windows := guint_dec rs.interesting_windows }
          else { rs with interesting_windows := guint_inc rs.interesting_windows }))) app).windows =
      (set_skip_taskbar s window (!(s.windows window).skip_taskbar)).windows := by
    rw [sync_windows]; rfl
  refine ⟨_, by
    unfold shell_app_on_skip_taskbar_changed
    have : ((set_skip_taskbar s window (!(s.windows window).skip_taskbar)).apps app).running_state
        = some rs := hrs
    rw [this], ?_, ?_⟩
  · rw [sync_apps]
    simp only [window_list, World.set_running_state, World.set_app_apps, Function.update_same]
    split <;> rfl
  · rw [is_interesting_window_congr _ _ hw1, sync_apps]
    simp only [window_list, interesting_count, World.set_running_state, World.set_app_apps,
      Function.update_same]
    cases hskip : (s.windows window).skip_taskbar
    · have hp : shell_app_is_interesting_window s window = true := by
        simp [shell_app_is_interesting_window, shell_app_is_speedwagon_window,
          shell_window_tracker_is_window_interesting, hrole1, hskip, hrel]
      have hq : shell_app_is_interesting_window (set_skip_taskbar s window (!false)) window
          = false := by
        simp [shell_app_is_interesting_window, shell_app_is_speedwagon_window,
          shell_window_tracker_is_window_interesting, set_skip_taskbar, hrole1]
      have hfl := filter_length_flip_off rs.windows window
        (shell_app_is_interesting_window s)
        (shell_app_is_interesting_window (set_skip_taskbar s window (!false)))
        hnd hmem (fun x hx => is_interesting_window_set_skip_taskbar_ne s window x _ hx) hp hq
      simp only [set_skip_taskbar, Function.update_same, Bool.not_false, if_true]
      simp only [set_skip_taskbar, Bool.not_false] at hfl
      rw [hcount, ← hfl, guint_dec_mod]
    · have hp : shell_app_is_interesting_window s window = false := by
        simp [shell_app_is_interesting_window, shell_app_is_speedwagon_window,
          shell_window_tracker_is_window_interesting, hrole1, hskip]
      have hq : shell_app_is_interesting_window (set_skip_taskbar s window (!true)) window
          = true := by
        simp [shell_app_is_interesting_window, shell_app_is_speedwagon_window,
          shell_window_tracker_is_window_interesting, set_skip_taskbar, hrole1, hrel]
      have hfl := filter_length_flip_on rs.windows window
        (shell_app_is_interesting_window s)
        (shell_app_is_interesting_window (set_skip_taskbar s window (!true)))
        hnd hmem (fun x hx => is_interesting_window_set_skip_taskbar_ne s window x _ hx) hp hq
      simp only [set_skip_taskbar, Function.update_same, Bool.not_true, Bool.false_eq_true,
        if_false]
      simp only [set_skip_taskbar, Bool.not_true] at hfl
      rw [hcount, hfl, guint_inc_mod]

/-- C28, the failing input: window 51, whose role is "eos-speedwagon" and which is
therefore not interesting, is added to the fresh application at address 0 (counter
0, Stopped).  Then its skip-taskbar hint is set and the notification delivered:
`shell_app_on_skip_taskbar_changed` decrements the counter, which wraps around to
4294967295 although no window of the window set is interesting, and the application
becomes Running. -/
theorem skip_taskbar_change_of_uninteresting_window_underflows :
    shell_app_is_interesting_window example_world_speedwagon 51 = false ∧
    _shell_app_add_window example_world_speedwagon 0 51 =
      some example_world_speedwagon_added ∧
    (example_world_speedwagon_added.apps 0).state = SHELL_APP_STATE_STOPPED ∧
    window_list (example_world_speedwagon_added.apps 0) = [51] ∧
    interesting_count (example_world_speedwagon_added.apps 0) = 0 ∧
    (example_world_speedwagon_added.windows 51).skip_taskbar = false ∧
    ((set_skip_taskbar example_world_speedwagon_added 51 true).windows 51).skip_taskbar =
      true ∧
    shell_app_on_skip_taskbar_changed
        (set_skip_taskbar example_world_speedwagon_added 51 true) 0 51 =
      some example_world_speedwagon_notified ∧
    window_list (example_world_speedwagon_notified.apps 0) = [51] ∧
    ((window_list (example_world_speedwagon_notified.apps 0)).filter
      (shell_app_is_interesting_window example_world_speedwagon_notified)).length = 0 ∧
    interesting_count (example_world_speedwagon_notified.apps 0) = 4294967295 ∧
    (example_world_speedwagon_notified.apps 0).state = SHELL_APP_STATE_RUNNING :=
  ⟨by decide, rfl, by decide, by decide, by decide, by decide, by decide, rfl, by decide,
    by decide, by decide, by decide⟩

/-- Where `shell_app_compare` is antisymmetric: for two consistent applications (a
Running one has running state and windows) whose states are equal or one of which is
Running, and whose windows all have user times below `2 ^ 31`, the comparison in
one order is the negative of the comparison in the other order. -/
theorem shell_app_compare_antisymmetric_bounded (s : World) (a b : AppPtr)
    (hstates : (s.apps a).state = (s.apps b).state ∨
      (s.apps a).state = SHELL_APP_STATE_RUNNING ∨ (s.apps b).state = SHELL_APP_STATE_RUNNING)
    (hca : sub_state_consistent (s.apps a)) (hcb : sub_state_consistent (s.apps b))
    (hta : ∀ w ∈ window_list (s.apps a), (s.windows w).user_time < 2 ^ 31)
    (htb : ∀ w ∈ window_list (s.apps b), (s.windows w).user_time < 2 ^ 31) :
    ∃ c, shell_app_compare s a b = some c ∧ shell_app_compare s b a = some (-c) := by
  by_cases hne : (s.apps a).state = (s.apps b).state
  · by_cases hra : (s.apps a).state = SHELL_APP_STATE_RUNNING
    · have hrb : (s.apps b).state = SHELL_APP_STATE_RUNNING := by rw [← hne]; exact hra
      have hwa := hca.1.mp (hca.2 hra)
      have hwb := hcb.1.mp (hcb.2 hrb)
      refine ⟨_, shell_app_compare_bounded s a b hra hrb hwa hwb hta htb, ?_⟩
      rw [shell_app_compare_bounded s b a hrb hra hwb hwa htb hta]
      congr 1
      omega
    · have hrb : (s.apps b).state ≠ SHELL_APP_STATE_RUNNING := by rw [← hne]; exact hra
      refine ⟨0, ?_, ?_⟩
      · unfold shell_app_compare
        rw [if_neg (not_not.mpr hne), if_neg hra]
      · unfold shell_app_compare
        rw [if_neg (not_not.mpr hne.symm), if_neg hrb]
        rfl
  · rcases hstates with h | h | h
    · exact absurd h hne
    · have hrb : (s.apps b).state ≠ SHELL_APP_STATE_RUNNING := fun hx => hne (h.trans hx.symm)
      refine ⟨-1, ?_, ?_⟩
      · unfold shell_app_compare
        rw [if_pos hne, if_pos h]
      · unfold shell_app_compare
        rw [if_pos (fun hx => hne hx.symm), if_neg hrb]
        rfl
    · have hra : (s.apps a).state ≠ SHELL_APP_STATE_RUNNING := fun hx => hne (hx.trans h.symm)
      refine ⟨1, ?_, ?_⟩
      · unfold shell_app_compare
        rw [if_pos hne, if_neg hra]
      · unfold shell_app_compare
        rw [if_pos (fun hx => hne hx.symm), if_pos h]
theorem add_window_window_list (s s1 : World) (app : AppPtr) (window : MetaWindow)
    (h : _shell_app_add_window s app window = some s1) :
    window_list (s1.apps app) =
      if window ∈ window_list (s.apps app) then window_list (s.apps app)
      else window :: window_list (s.apps app) := by
  by_cases hmem : window ∈ window_list (s.apps app)
  · rw [add_window_present s app window hmem] at h
    cases h
    rw [if_pos hmem]
  · have hwl : (running_state_or_new (s.apps app)).windows = window_list (s.apps app) := by
      unfold running_state_or_new window_list
      cases (s.apps app).running_state <;> rfl
    obtain ⟨s2, rs2, hs2, -, hwin, -, -, -, ha2⟩ :=
      add_window_spec s app window (by rw [hwl]; exact hmem)
    rw [h] at hs2
    cases hs2
    rw [if_neg hmem, ha2]
    simp [window_list, hwin, hwl]

theorem remove_window_window_list (s s1 : World) (app : AppPtr) (window : MetaWindow)
    (h : _shell_app_remove_window s app window = some s1) :
    window_list (s1.apps app) = (window_list (s.apps app)).erase window := by
  cases hrs : (s.apps app).running_state with
  | none => rw [remove_window_none s app window hrs] at h; cases h
  | some rs =>
    have hwl : window_list (s.apps app) = rs.windows := by simp [window_list, hrs]
    rw [hwl]
    by_cases hmem : window ∈ rs.windows
    · by_cases hlast : g_slist_remove rs.windows window = []
      · by_cases href : rs.refcount = 0
        · rw [remove_window_last_abort s app window rs hrs hmem href hlast] at h; cases h
        · obtain ⟨s2, hs2, -, ha2⟩ := remove_window_last s app window rs hrs hmem href hlast
          rw [h] at hs2
          cases hs2
          rw [ha2]
          simp only [window_list, Function.update_same]
          exact hlast.symm
      · obtain ⟨s2, hs2, -, ha2⟩ := remove_window_more s app window rs hrs hmem hlast
        rw [h] at hs2
        cases hs2
        rw [ha2]
        simp [window_list, running_state_without, g_slist_remove]
    · rw [remove_window_absent s app window rs hrs hmem] at h
      cases h
      rw [hwl, List.erase_of_not_mem hmem]

theorem windows_after_length (ops : List WindowOp) (ws : List MetaWindow) :
    (windows_after ops ws).length ≤ ws.length + ops.length := by
  induction ops generalizing ws with
  | nil => simp [windows_after]
  | cons op ops ih =>
    cases op with
    | add window =>
      simp only [windows_after, List.length_cons]
      refine (ih _).trans ?_
      split
      · omega
      · simp only [List.length_cons]; omega
    | remove window =>
      simp only [windows_after, List.length_cons]
      refine (ih _).trans ?_
      have := List.length_erase_le window ws
      omega

theorem run_window_ops_final (ops : List WindowOp) (s : World) (app : AppPtr)
    (inv : WindowOpsInv s app) (hc : sub_state_consistent (s.apps app))
    (hrem : removes_while_windows ops (window_list (s.apps app)) = true) :
    ∃ s1, run_window_ops s app ops = some s1 ∧ WindowOpsInv s1 app ∧ s1.windows = s.windows ∧
      window_list (s1.apps app) = windows_after ops (window_list (s.apps app)) := by
  induction ops generalizing s with
  | nil => exact ⟨s, rfl, inv, rfl, rfl⟩
  | cons op ops ih =>
    cases op with
    | add window =>
      obtain ⟨s1, h1, w1, i1⟩ := add_window_inv s app window inv
      have hl := add_window_window_list s s1 app window h1
      obtain ⟨a1, ha1, hc1⟩ := add_window_consistent s s1 app window h1
      have hcs1 : sub_state_consistent (s1.apps app) := by
        rw [ha1, Function.update_same]; exact hc1 hc
      simp only [removes_while_windows] at hrem
      rw [← hl] at hrem
      obtain ⟨s2, h2, i2, w2, l2⟩ := ih s1 i1 hcs1 hrem
      refine ⟨s2, ?_, i2, w2.trans w1, ?_⟩
      · simp only [run_window_ops, WindowOp.apply, h1]
        exact h2
      · simp only [windows_after]
        rw [← hl]
        exact l2
    | remove window =>
      simp only [removes_while_windows, Bool.and_eq_true, Bool.not_eq_true', 
        List.isEmpty_eq_false] at hrem
      have hsome : (s.apps app).running_state.isSome = true := hc.1.mpr (by
        intro hx
        rw [hx] at hrem
        simp at hrem)
      obtain ⟨s1, h1, w1, i1⟩ := remove_window_inv s app window inv hsome
      have hl := remove_window_window_list s s1 app window h1
      obtain ⟨a1, ha1, hc1⟩ := remove_window_consistent s s1 app window h1
      have hcs1 : sub_state_consistent (s1.apps app) := by
        rw [ha1, Function.update_same]; exact hc1 hc
      have hrem2 := hrem.2
      rw [← hl] at hrem2
      obtain ⟨s2, h2, i2, w2, l2⟩ := ih s1 i1 hcs1 hrem2
      refine ⟨s2, ?_, i2, w2.trans w1, ?_⟩
      · simp only [run_window_ops, WindowOp.apply, h1]
        exact h2
      · simp only [windows_after]
        rw [← hl]
        exact l2

/-- C1: on a freshly created application (Stopped, no running state), every finite
sequence of `_shell_app_add_window` / `_shell_app_remove_window` calls in which each
remove is issued while some window is left runs to completion.  The final window set
is the one the calls leave (an add puts the window in, a remove takes it out), the
final interesting-window counter is the number of interesting windows among them (as
a `guint`), and the final state is Running iff that number is greater than 0 and
Stopped iff it is 0, never Starting; the window data being those of the initial
world.  (The number is below `2 ^ 32` for every sequence of fewer than `2 ^ 32`
calls; for longer ones it is taken modulo `2 ^ 32`, as the counter is.) -/
theorem window_ops_final_state (s : World) (app : AppPtr) (ops : List WindowOp)
    (hstate : (s.apps app).state = SHELL_APP_STATE_STOPPED)
    (hfresh : (s.apps app).running_state = none)
    (hrem : removes_while_windows ops [] = true) :
    ∃ s1, run_window_ops s app ops = some s1 ∧
      window_list (s1.apps app) = windows_after ops [] ∧
      interesting_count (s1.apps app) = final_interesting_count s ops % G_MAXUINT_SUCC ∧
      ((s1.apps app).state = SHELL_APP_STATE_RUNNING ↔
        0 < final_interesting_count s ops % G_MAXUINT_SUCC) ∧
      ((s1.apps app).state = SHELL_APP_STATE_STOPPED ↔
        final_interesting_count s ops % G_MAXUINT_SUCC = 0) ∧
      (s1.apps app).state ≠ SHELL_APP_STATE_STARTING ∧
      (ops.length < G_MAXUINT_SUCC →
        interesting_count (s1.apps app) = final_interesting_count s ops ∧
        ((s1.apps app).state = SHELL_APP_STATE_RUNNING ↔ 0 < final_interesting_count s ops) ∧
        ((s1.apps app).state = SHELL_APP_STATE_STOPPED ↔ final_interesting_count s ops = 0)) ∧
      ((s1.apps app).state = SHELL_APP_STATE_RUNNING ↔ 0 < interesting_count (s1.apps app)) ∧
      ((s1.apps app).state = SHELL_APP_STATE_STOPPED ↔ interesting_count (s1.apps app) = 0) ∧
      s1.windows = s.windows := by
  have hwl0 : window_list (s.apps app) = [] := by simp [window_list, hfresh]
  have inv : WindowOpsInv s app := by
    refine ⟨?_, ?_, ?_, ?_, ?_⟩
    · rw [hstate]; simp
    · rw [hstate]; simp [interesting_count, hfresh]
    · intro rs h; rw [hfresh] at h; cases h
    · simp [interesting_count, window_list, hfresh]
    · simp [window_list, hfresh]
  have hc : sub_state_consistent (s.apps app) :=
    (sub_state_consistent_iff _).mpr
      ⟨fun rs h => (by rw [hfresh] at h; cases h), fun h => (by rw [hstate] at h; cases h)⟩
  obtain ⟨s1, hs1, inv1, hw1, hl1⟩ := run_window_ops_final ops s app inv hc (by rw [hwl0]; exact hrem)
  rw [hwl0] at hl1
  have hcount : interesting_count (s1.apps app) =
      final_interesting_count s ops % G_MAXUINT_SUCC := by
    rw [inv1.counter, hl1, is_interesting_window_congr s s1 hw1]
    rfl
  have hstop : (s1.apps app).state = SHELL_APP_STATE_STOPPED ↔
      interesting_count (s1.apps app) = 0 := by
    have h1 := inv1.running_iff
    have h2 := inv1.not_starting
    cases hst : (s1.apps app).state
    all_goals simp_all
    omega
  have hlt : ops.length < G_MAXUINT_SUCC →
      final_interesting_count s ops % G_MAXUINT_SUCC = final_interesting_count s ops := by
    intro hlen
    apply Nat.mod_eq_of_lt
    have h1 : final_interesting_count s ops ≤ (windows_after ops []).length :=
      List.length_filter_le _ _
    have h2 := windows_after_length ops []
    simp only [List.length_nil, Nat.zero_add] at h2
    omega
  refine ⟨s1, hs1, hl1, hcount, ?_, ?_, inv1.not_starting, ?_, inv1.running_iff, hstop, hw1⟩
  · rw [← hcount]; exact inv1.running_iff
  · rw [← hcount]; exact hstop
  · intro hlen
    rw [← hlt hlen, ← hcount]
    exact ⟨rfl, inv1.running_iff, hstop⟩

/-- Witness of C1 on the application at address 0 of the example world (window 1 is
interesting, window 2 is not).  Add 1, add 2, remove 1 leaves the window 2, count 0,
state Stopped; add 1, add 2, remove 2 leaves the window 1, count 1, state Running. -/
theorem window_ops_final_state_witness :
    ((example_world.apps 0).state = SHELL_APP_STATE_STOPPED ∧
      (example_world.apps 0).running_state = none ∧
      removes_while_windows [WindowOp.add 1, WindowOp.add 2, WindowOp.remove 1] [] = true) ∧
    windows_after [WindowOp.add 1, WindowOp.add 2, WindowOp.remove 1] [] = [2] ∧
    final_interesting_count example_world
      [WindowOp.add 1, WindowOp.add 2, WindowOp.remove 1] = 0 ∧
    (run_window_ops example_world 0 [WindowOp.add 1, WindowOp.add 2, WindowOp.remove 1]).map
        (fun s => ((s.apps 0).state, window_list (s.apps 0), interesting_count (s.apps 0))) =
      some (SHELL_APP_STATE_STOPPED, [2], 0) ∧
    (run_window_ops example_world 0 [WindowOp.add 1, WindowOp.add 2, WindowOp.remove 2]).map
        (fun s => ((s.apps 0).state, window_list (s.apps 0), interesting_count (s.apps 0))) =
      some (SHELL_APP_STATE_RUNNING, [1], 1) ∧
    (∃ s1, run_window_ops example_world 0
        [WindowOp.add 1, WindowOp.add 2, WindowOp.remove 1] = some s1 ∧
      window_list (s1.apps 0) = [2] ∧
      (s1.apps 0).state = SHELL_APP_STATE_STOPPED) ∧
    (∃ s1, run_window_ops example_world 0
        [WindowOp.add 1, WindowOp.add 2, WindowOp.remove 2] = some s1 ∧
      window_list (s1.apps 0) = [1] ∧
      (s1.apps 0).state = SHELL_APP_STATE_RUNNING) := by
  refine ⟨⟨rfl, rfl, by decide⟩, by decide, by decide, by decide, by decide, ?_, ?_⟩
  · obtain ⟨s1, h1, h2, -, -, -, -, h3, -⟩ :=
      window_ops_final_state example_world 0
        [WindowOp.add 1, WindowOp.add 2, WindowOp.remove 1] rfl rfl (by decide)
    exact ⟨s1, h1, h2, ((h3 (by decide)).2.2).mpr (by decide)⟩
  · obtain ⟨s1, h1, h2, -, -, -, -, h3, -⟩ :=
      window_ops_final_state example_world 0
        [WindowOp.add 1, WindowOp.add 2, WindowOp.remove 2] rfl rfl (by decide)
    exact ⟨s1, h1, h2, ((h3 (by decide)).2.1).mpr (by decide)⟩
theorem g_slist_sort_merge_chain {α : Type} (compare_func : α → α → Option Int)
    (le : α → α → Prop)
    (h1 : ∀ a b c, compare_func a b = some c → c ≤ 0 → le a b)
    (h2 : ∀ a b c, compare_func a b = some c → ¬ c ≤ 0 → le b a) (fuel : Nat) :
    ∀ (l1 l2 r : List α), l1.length + l2.length ≤ fuel → List.Chain' le l1 →
      List.Chain' le l2 → g_slist_sort_merge compare_func fuel l1 l2 = some r →
      List.Chain' le r ∧ ∀ x ∈ r.head?, x ∈ l1.head? ∨ x ∈ l2.head? := by
  induction fuel with
  | zero =>
    intro l1 l2 r hlen _ _ h
    have e1 : l1 = [] := List.length_eq_zero.mp (by omega)
    have e2 : l2 = [] := List.length_eq_zero.mp (by omega)
    subst e1 e2
    simp only [g_slist_sort_merge, List.append_nil, Option.some.injEq] at h
    subst h
    exact ⟨List.chain'_nil, fun x hx => Or.inl hx⟩
  | succ fuel ih =>
    intro l1 l2 r hlen c1 c2 h
    cases l1 with
    | nil =>
      simp only [g_slist_sort_merge, Option.some.injEq] at h
      subst h
      exact ⟨c2, fun x hx => Or.inr hx⟩
    | cons x xs =>
      cases l2 with
      | nil =>
        simp only [g_slist_sort_merge, Option.some.injEq] at h
        subst h
        exact ⟨c1, fun x hx => Or.inl hx⟩
      | cons y ys =>
        simp only [g_slist_sort_merge] at h
        cases hc : compare_func x y with
        | none => rw [hc] at h; cases h
        | some cmp =>
          rw [hc] at h
          simp only at h
          simp only [List.length_cons] at hlen
          by_cases hle : cmp ≤ 0
          · rw [if_pos hle] at h
            simp only [Option.map_eq_some'] at h
            obtain ⟨l, hl, hr⟩ := h
            subst hr
            obtain ⟨cl, hh⟩ := ih xs (y :: ys) l (by simp only [List.length_cons]; omega)
              (List.chain'_cons'.mp c1).2 c2 hl
            refine ⟨List.chain'_cons'.mpr ⟨?_, cl⟩, fun z hz => Or.inl hz⟩
            intro z hz
            rcases hh z hz with hx | hy
            · exact (List.chain'_cons'.mp c1).1 z hx
            · simp only [List.head?_cons, Option.mem_def, Option.some.injEq] at hy
              subst hy
              exact h1 x y cmp hc hle
          · rw [if_neg hle] at h
            simp only [Option.map_eq_some'] at h
            obtain ⟨l, hl, hr⟩ := h
            subst hr
            obtain ⟨cl, hh⟩ := ih (x :: xs) ys l (by simp only [List.length_cons]; omega)
              c1 (List.chain'_cons'.mp c2).2 hl
            refine ⟨List.chain'_cons'.mpr ⟨?_, cl⟩, fun z hz => Or.inr hz⟩
            intro z hz
            rcases hh z hz with hx | hy
            · simp only [List.head?_cons, Option.mem_def, Option.some.injEq] at hx
              subst hx
              exact h2 x y cmp hc hle
            · exact (List.chain'_cons'.mp c2).1 z hy

theorem g_slist_sort_real_chain {α : Type} (compare_func : α → α → Option Int)
    (le : α → α → Prop)
    (h1 : ∀ a b c, compare_func a b = some c → c ≤ 0 → le a b)
    (h2 : ∀ a b c, compare_func a b = some c → ¬ c ≤ 0 → le b a) (fuel : Nat) :
    ∀ (l r : List α), l.length ≤ fuel + 1 →
      g_slist_sort_real compare_func fuel l = some r → List.Chain' le r := by
  induction fuel with
  | zero =>
    intro l r hlen h
    cases l with
    | nil =>
      simp only [g_slist_sort_real, Option.some.injEq] at h
      subst h
      exact List.chain'_nil
    | cons x xs =>
      cases xs with
      | nil =>
        simp only [g_slist_sort_real, Option.some.injEq] at h
        subst h
        exact List.chain'_singleton x
      | cons y ys =>
        simp only [List.length_cons] at hlen
        omega
  | succ fuel ih =>
    intro l r hlen h
    cases l with
    | nil =>
      simp only [g_slist_sort_real, Option.some.injEq] at h
      subst h
      exact List.chain'_nil
    | cons x xs =>
      cases xs with
      | nil =>
        simp only [g_slist_sort_real, Option.some.injEq] at h
        subst h
        exact List.chain'_singleton x
      | cons y ys =>
        simp only [g_slist_sort_real] at h
        split at h
        · rename_i l1 l2 e1 e2
          simp only [List.length_cons] at hlen e1 e2
          have p1 := ih _ l1 (by
            simp only [List.length_take, List.length_cons]
            omega) e1
          have p2 := ih _ l2 (by
            simp only [List.length_drop, List.length_cons]
            omega) e2
          exact (g_slist_sort_merge_chain compare_func le h1 h2 _ l1 l2 r (Nat.le_refl _)
            p1 p2 h).1
        · cases h

theorem g_slist_sort_chain {α : Type} (compare_func : α → α → Option Int)
    (le : α → α → Prop)
    (h1 : ∀ a b c, compare_func a b = some c → c ≤ 0 → le a b)
    (h2 : ∀ a b c, compare_func a b = some c → ¬ c ≤ 0 → le b a) (l r : List α)
    (h : g_slist_sort l compare_func = some r) : List.Chain' le r :=
  g_slist_sort_real_chain compare_func le h1 h2 l.length l r (Nat.le_succ _) h

theorem g_slist_sort_merge_total {α : Type} (compare_func : α → α → Option Int)
    (ht : ∀ a b, (compare_func a b).isSome = true) (fuel : Nat) :
    ∀ (l1 l2 : List α), (g_slist_sort_merge compare_func fuel l1 l2).isSome = true := by
  induction fuel with
  | zero => intro l1 l2; simp [g_slist_sort_merge]
  | succ fuel ih =>
    intro l1 l2
    cases l1 with
    | nil => simp [g_slist_sort_merge]
    | cons x xs =>
      cases l2 with
      | nil => simp [g_slist_sort_merge]
      | cons y ys =>
        simp only [g_slist_sort_merge]
        obtain ⟨c, hc⟩ := Option.isSome_iff_exists.mp (ht x y)
        rw [hc]
        simp only
        split
        · obtain ⟨l, hl⟩ := Option.isSome_iff_exists.mp (ih xs (y :: ys))
          rw [hl]; rfl
        · obtain ⟨l, hl⟩ := Option.isSome_iff_exists.mp (ih (x :: xs) ys)
          rw [hl]; rfl

theorem g_slist_sort_real_total {α : Type} (compare_func : α → α → Option Int)
    (ht : ∀ a b, (compare_func a b).isSome = true) (fuel : Nat) :
    ∀ (l : List α), (g_slist_sort_real compare_func fuel l).isSome = true := by
  induction fuel with
  | zero =>
    intro l
    cases l with
    | nil => simp [g_slist_sort_real]
    | cons x xs => cases xs <;> simp [g_slist_sort_real]
  | succ fuel ih =>
    intro l
    cases l with
    | nil => simp [g_slist_sort_real]
    | cons x xs =>
      cases xs with
      | nil => simp [g_slist_sort_real]
      | cons y ys =>
        simp only [g_slist_sort_real]
        obtain ⟨l1, e1⟩ := Option.isSome_iff_exists.mp
          (ih (List.take ((x :: y :: ys).length / 2) (x :: y :: ys)))
        obtain ⟨l2, e2⟩ := Option.isSome_iff_exists.mp
          (ih (List.drop ((x :: y :: ys).length / 2) (x :: y :: ys)))
        rw [e1, e2]
        exact g_slist_sort_merge_total compare_func ht _ l1 l2

theorem g_slist_sort_total {α : Type} (compare_func : α → α → Option Int)
    (ht : ∀ a b, (compare_func a b).isSome = true) (l : List α) :
    ∃ r, g_slist_sort l compare_func = some r :=
  Option.isSome_iff_exists.mp (g_slist_sort_real_total compare_func ht l.length l)
theorem compare_windows_le_iff (s : World) (a b : MetaWindow) :
    shell_app_compare_windows s s.active_workspace a b ≤ 0 ↔
      window_may_precede s x_time_not_before a b := by
  unfold shell_app_compare_windows window_may_precede x_time_not_before gint_of_guint
    G_MAXUINT_SUCC
  by_cases hwa : (s.windows a).workspace = s.active_workspace <;>
    by_cases hwb : (s.windows b).workspace = s.active_workspace <;>
    cases hva : (s.windows a).showing_on_its_workspace <;>
    cases hvb : (s.windows b).showing_on_its_workspace <;>
    simp [hwa, hwb] <;>
    split <;> omega

theorem compare_windows_asymm (s : World) (a b : MetaWindow)
    (h : ¬ shell_app_compare_windows s s.active_workspace a b ≤ 0) :
    shell_app_compare_windows s s.active_workspace b a ≤ 0 := by
  revert h
  unfold shell_app_compare_windows gint_of_guint G_MAXUINT_SUCC
  by_cases hwa : (s.windows a).workspace = s.active_workspace <;>
    by_cases hwb : (s.windows b).workspace = s.active_workspace <;>
    cases hva : (s.windows a).showing_on_its_workspace <;>
    cases hvb : (s.windows b).showing_on_its_workspace <;>
    simp [hwa, hwb] <;>
    split <;> split <;> omega
theorem window_may_precede_trans (s : World) (a b c : MetaWindow)
    (hab : window_may_precede s (fun ta tb => tb ≤ ta) a b)
    (hbc : window_may_precede s (fun ta tb => tb ≤ ta) b c) :
    window_may_precede s (fun ta tb => tb ≤ ta) a c := by
  unfold window_may_precede at *
  by_cases hwa : (s.windows a).workspace = s.active_workspace <;>
    by_cases hwb : (s.windows b).workspace = s.active_workspace <;>
    by_cases hwc : (s.windows c).workspace = s.active_workspace <;>
    cases hva : (s.windows a).showing_on_its_workspace <;>
    cases hvb : (s.windows b).showing_on_its_workspace <;>
    cases hvc : (s.windows c).showing_on_its_workspace <;>
    simp_all <;>
    omega

theorem window_may_precede_keys_trans (s : World) (a b c : MetaWindow)
    (hab : window_may_precede s (fun _ _ => True) a b)
    (hbc : window_may_precede s (fun _ _ => True) b c) :
    window_may_precede s (fun _ _ => True) a c := by
  unfold window_may_precede at *
  by_cases hwa : (s.windows a).workspace = s.active_workspace <;>
    by_cases hwb : (s.windows b).workspace = s.active_workspace <;>
    by_cases hwc : (s.windows c).workspace = s.active_workspace <;>
    cases hva : (s.windows a).showing_on_its_workspace <;>
    cases hvb : (s.windows b).showing_on_its_workspace <;>
    cases hvc : (s.windows c).showing_on_its_workspace <;>
    simp_all

theorem window_may_precede_keys (s : World) (not_before : Nat → Nat → Prop)
    (a b : MetaWindow) (h : window_may_precede s not_before a b) :
    window_may_precede s (fun _ _ => True) a b := by
  unfold window_may_precede at *
  rcases h with h | ⟨h1, h | ⟨h2, -⟩⟩
  · exact Or.inl h
  · exact Or.inr ⟨h1, Or.inl h⟩
  · exact Or.inr ⟨h1, Or.inr ⟨h2, trivial⟩⟩

theorem window_may_precede_bounded (s : World) (a b : MetaWindow)
    (ha : (s.windows a).user_time < G_MAXUINT_SUCC)
    (hb : (s.windows b).user_time < G_MAXUINT_SUCC)
    (hab : (s.windows a).user_time < (s.windows b).user_time + 2 ^ 31)
    (hba : (s.windows b).user_time < (s.windows a).user_time + 2 ^ 31)
    (h : window_may_precede s x_time_not_before a b) :
    window_may_precede s (fun ta tb => tb ≤ ta) a b := by
  unfold window_may_precede x_time_not_before G_MAXUINT_SUCC at *
  rcases h with h | ⟨h1, h | ⟨h2, h3⟩⟩
  · exact Or.inl h
  · exact Or.inr ⟨h1, Or.inl h⟩
  · refine Or.inr ⟨h1, Or.inr ⟨h2, ?_⟩⟩
    show (s.windows b).user_time ≤ (s.windows a).user_time
    omega

/-- C14 as amended.  When the stale flag is not set `shell_app_get_windows` returns
the stored list and changes nothing.  When it is set, the function stores and returns
a permutation of the window list and clears the flag.  In the list returned the
windows on the active workspace come before all others and, among windows that agree
in that, the windows showing on their workspace come before those not showing; and
every window may stand before its successor: if the two agree in both respects, its
user time is not before the successor's in the wrap-around order of 32-bit X server
times.  When the user times of the windows are less than `2 ^ 31` apart from one
another, the whole list is sorted by the three keys with the user times descending
as numbers. -/
theorem get_windows_sorted (s : World) (app : AppPtr) (rs : ShellAppRunningState)
    (hrs : (s.apps app).running_state = some rs) :
    (rs.window_sort_stale = false → shell_app_get_windows s app = (s, rs.windows)) ∧
    (rs.window_sort_stale = true →
      ∃ sorted,
        shell_app_get_windows s app =
          (s.set_running_state app
            (some { rs with windows := sorted, window_sort_stale := false }), sorted) ∧
        List.Perm sorted rs.windows ∧
        List.Pairwise (window_may_precede s (fun _ _ => True)) sorted ∧
        List.Chain' (window_may_precede s x_time_not_before) sorted ∧
        ((∀ a ∈ rs.windows, (s.windows a).user_time < G_MAXUINT_SUCC) →
          (∀ a ∈ rs.windows, ∀ b ∈ rs.windows,
            (s.windows a).user_time < (s.windows b).user_time + 2 ^ 31) →
          List.Pairwise (window_may_precede s (fun ta tb => tb ≤ ta)) sorted)) := by
  constructor
  · intro hst
    unfold shell_app_get_windows
    rw [hrs]
    simp [hst]
  · intro hst
    obtain ⟨sorted, hsort⟩ := g_slist_sort_total
      (fun a b => some (shell_app_compare_windows s s.active_workspace a b))
      (fun _ _ => rfl) rs.windows
    have hperm := g_slist_sort_perm _ _ _ hsort
    have hchain : List.Chain' (window_may_precede s x_time_not_before) sorted := by
      refine g_slist_sort_chain
        (fun a b => some (shell_app_compare_windows s s.active_workspace a b))
        (window_may_precede s x_time_not_before) ?_ ?_ rs.windows sorted hsort
      · intro a b c hc hle
        simp only [Option.some.injEq] at hc
        subst hc
        exact (compare_windows_le_iff s a b).mp hle
      · intro a b c hc hle
        simp only [Option.some.injEq] at hc
        subst hc
        exact (compare_windows_le_iff s b a).mp (compare_windows_asymm s a b hle)
    refine ⟨sorted, ?_, hperm, ?_, hchain, ?_⟩
    · unfold shell_app_get_windows
      rw [hrs]
      simp only [hst, if_true, hsort]
    · haveI : IsTrans MetaWindow (window_may_precede s (fun _ _ => True)) :=
        ⟨window_may_precede_keys_trans s⟩
      rw [← List.chain'_iff_pairwise]
      exact List.Chain'.imp (window_may_precede_keys s x_time_not_before) hchain
    · intro hbound hspan
      haveI : IsTrans MetaWindow (window_may_precede s (fun ta tb => tb ≤ ta)) :=
        ⟨window_may_precede_trans s⟩
      rw [← List.chain'_iff_pairwise]
      have hc2 := List.Chain'.iff_mem.mp hchain
      refine List.Chain'.imp ?_ hc2
      intro a b hab
      obtain ⟨ha, hb, hr⟩ := hab
      have ha1 := hperm.mem_iff.mp ha
      have hb1 := hperm.mem_iff.mp hb
      exact window_may_precede_bounded s a b (hbound a ha1) (hbound b hb1)
        (hspan a ha1 b hb1) (hspan b hb1 a ha1) hr

/-- Witness of C14 as amended: the windows of the spec's example, W1 = window 31
(other workspace, time 5) and W2 = window 32 (active workspace, showing, time 1),
stored in the order 31, 32 and flagged stale.  The list returned is 32, 31 and the
flag is cleared. -/
theorem get_windows_sorted_witness :
    (example_world_spec_windows.apps 0).running_state =
      some { new_running_state with
             windows := [31, 32], interesting_windows := 2, window_sort_stale := true } ∧
    (shell_app_get_windows example_world_spec_windows 0).2 = [32, 31] ∧
    ((shell_app_get_windows example_world_spec_windows 0).1.apps 0).running_state.map
        (fun rs => (rs.windows, rs.window_sort_stale)) = some ([32, 31], false) ∧
    ∃ sorted,
      shell_app_get_windows example_world_spec_windows 0 =
        (example_world_spec_windows.set_running_state 0
          (some { new_running_state with
                  windows := sorted, interesting_windows := 2, window_sort_stale := false }),
          sorted) ∧
      List.Perm sorted [31, 32] ∧
      List.Pairwise (window_may_precede example_world_spec_windows (fun _ _ => True)) sorted ∧
      List.Chain' (window_may_precede example_world_spec_windows x_time_not_before) sorted ∧
      ((∀ a ∈ [31, 32], (example_world_spec_windows.windows a).user_time < G_MAXUINT_SUCC) →
        (∀ a ∈ [31, 32], ∀ b ∈ [31, 32],
          (example_world_spec_windows.windows a).user_time <
            (example_world_spec_windows.windows b).user_time + 2 ^ 31) →
        List.Pairwise
          (window_may_precede example_world_spec_windows (fun ta tb => tb ≤ ta)) sorted) :=
  ⟨rfl, by decide, by decide,
    (get_windows_sorted example_world_spec_windows 0
      { new_running_state with
        windows := [31, 32], interesting_windows := 2, window_sort_stale := true } rfl).2 rfl⟩
end Eos
